import Mathlib

/-!
# Verification of the scene renderer `Source1.cpp`

Shallow embedding of the procedural prism generator `UCreatePrismMesh`, the image
row flip `flipImageVertically`, the texture loader `UCreateTexture`, the keyboard
handler `UProcessInput`, the startup and teardown of `main` and the frame procedure
`URender`, followed by the properties proved about them.

Conventions of the embedding:

* C `int` is the 32-bit type of the platforms the program runs on. `UCreatePrismMesh` and
  `flipImageVertically` are first given in unbounded integers; `UCreatePrismMesh32` and
  `flipImageVertically32` are the same runs with every `int` value checked against the
  32-bit range, and have no result when one overflows (undefined behaviour).
* A store to the 16-bit `GLushort` index buffer keeps the value modulo `2^16`.
* `float` arithmetic is not interpreted: the operations the source applies are the
  fields of `FloatOps`, and every theorem holds for every interpretation of them.
* The graphics library, the window system and the image decoder are outside the source:
  a call into them is recorded in a trace (`GLCall`, `TeardownCall`, `RenderCall`), and
  what they return is a parameter.
* A caller-supplied array is a function from offsets to cells; the procedure
  `UCreatePrismMesh` never reads its arrays, so its behaviour is the ordered list of
  stores it performs, which `applyStores` replays on the caller's array.
-/

namespace CS330

/-! ## Floating-point operations used by the source -/

/-- Operations on `float` that the source applies; they are left uninterpreted. -/
structure FloatOps (F : Type) where
  /-- A decimal literal such as `1.0f`. -/
  lit : ℚ → F
  /-- Conversion `(float)n` of an `int`. -/
  ofInt : Int → F
  /-- Unary minus. -/
  neg : F → F
  /-- Sum `a + b`. -/
  add : F → F → F
  /-- Difference `a - b`. -/
  sub : F → F → F
  /-- Product `a * b`. -/
  mul : F → F → F
  /-- Quotient `a / b`. -/
  div : F → F → F
  /-- Library call `cos`. -/
  cos : F → F
  /-- Library call `sin`. -/
  sin : F → F

/-- Rational arithmetic with the operations read exactly and `cos`, `sin` replaced by
their Taylor polynomials of degree four and three: a computable interpretation of the
float operations. -/
def ratOps : FloatOps ℚ where
  lit := fun q => q
  ofInt := fun n => (n : ℚ)
  neg := fun a => -a
  add := fun a b => a + b
  sub := fun a b => a - b
  mul := fun a b => a * b
  div := fun a b => a / b
  cos := fun a => 1 - a ^ 2 / 2 + a ^ 4 / 24
  sin := fun a => a - a ^ 3 / 6

/-! ## Arrays and stores -/

/-- Source constant `const int STRIDE = 7;`. -/
def STRIDE : Int := 7

/-- Conversion of an `int` to `GLushort` (unsigned 16-bit): the value modulo `2^16`. -/
def toGLushort (v : Int) : Int := v % 65536

/-- Replays a list of stores `buf[pos] = val`, in order, on an array. -/
def applyStores {α : Type} (buf : Int → α) : List (Int × α) → Int → α
  | [] => buf
  | (p, v) :: rest => applyStores (fun j => if j = p then v else buf j) rest

/-! ## `UCreatePrismMesh` -/

/-- Local state of `UCreatePrismMesh`: the stores made so far to `verts[]` and to
`indices[]` (in program order) and the two counters. -/
structure PrismState (F : Type) where
  /-- Stores `verts[pos] = val` performed so far. -/
  vstores : List (Int × F)
  /-- Stores `indices[pos] = val` performed so far, the value already converted to `GLushort`. -/
  istores : List (Int × Int)
  currentVertex : Int
  currentTriangle : Int

/-- Source constant `const float TWO_PI = 2.0f * 3.1415926f;`. -/
def TWO_PI {F : Type} (ops : FloatOps F) : F :=
  ops.mul (ops.lit 2) (ops.lit (31415926 / 10000000))

/-- Source constant `const float radiansPerSide = TWO_PI / numSides;`. -/
def radiansPerSide {F : Type} (ops : FloatOps F) (numSides : Int) : F :=
  ops.div (TWO_PI ops) (ops.ofInt numSides)

/-- Source local `float theta = ((float)edge) * radiansPerSide;`. -/
def thetaOf {F : Type} (ops : FloatOps F) (numSides edge : Int) : F :=
  ops.mul (ops.ofInt edge) (radiansPerSide ops numSides)

/-- Lines 725-741: the two cap centres, vertex 0 (top) and vertex 1 (bottom). -/
def centerStores {F : Type} (ops : FloatOps F) (halfLen : F) : List (Int × F) :=
  [ (0, ops.lit 0), (1, halfLen), (2, ops.lit 0),
    (3, ops.lit 1), (4, ops.lit 0), (5, ops.lit 0), (6, ops.lit 1),
    (7, ops.lit 0), (8, ops.neg halfLen), (9, ops.lit 0),
    (10, ops.lit 1), (11, ops.lit 0), (12, ops.lit 0), (13, ops.lit 1) ]

/-- Lines 753-770: the top and the bottom perimeter vertex of one edge, where `cv` is
`currentVertex` on entry (it is incremented between the two vertices). -/
def perimeterStores {F : Type} (ops : FloatOps F) (theta radius halfLen : F) (cv : Int) :
    List (Int × F) :=
  [ (cv * STRIDE + 0, ops.mul radius (ops.cos theta)),
    (cv * STRIDE + 1, halfLen),
    (cv * STRIDE + 2, ops.mul radius (ops.sin theta)),
    (cv * STRIDE + 3, ops.lit 0),
    (cv * STRIDE + 4, ops.lit 1),
    (cv * STRIDE + 5, ops.lit 0),
    (cv * STRIDE + 6, ops.lit 1),
    ((cv + 1) * STRIDE + 0, ops.mul radius (ops.cos theta)),
    ((cv + 1) * STRIDE + 1, ops.neg halfLen),
    ((cv + 1) * STRIDE + 2, ops.mul radius (ops.sin theta)),
    ((cv + 1) * STRIDE + 3, ops.lit 0),
    ((cv + 1) * STRIDE + 4, ops.lit 0),
    ((cv + 1) * STRIDE + 5, ops.lit 1),
    ((cv + 1) * STRIDE + 6, ops.lit 1) ]

/-- Lines 776-797: the four triangles of an interior edge, where `cv` is
`currentVertex` (after both increments) and `ct` is `currentTriangle` on entry. -/
def edgeStores (cv ct : Int) : List (Int × Int) :=
  [ (3 * ct + 0, toGLushort 0),
    (3 * ct + 1, toGLushort (cv - 4)),
    (3 * ct + 2, toGLushort (cv - 2)),
    (3 * (ct + 1) + 0, toGLushort 1),
    (3 * (ct + 1) + 1, toGLushort (cv - 3)),
    (3 * (ct + 1) + 2, toGLushort (cv - 1)),
    (3 * (ct + 2) + 0, toGLushort (cv - 4)),
    (3 * (ct + 2) + 1, toGLushort (cv - 3)),
    (3 * (ct + 2) + 2, toGLushort (cv - 1)),
    (3 * (ct + 3) + 0, toGLushort (cv - 1)),
    (3 * (ct + 3) + 1, toGLushort (cv - 2)),
    (3 * (ct + 3) + 2, toGLushort (cv - 4)) ]

/-- Lines 806-827: the four triangles that wire up the last side. -/
def closingStores (cv ct : Int) : List (Int × Int) :=
  [ (3 * ct + 0, toGLushort 0),
    (3 * ct + 1, toGLushort (cv - 2)),
    (3 * ct + 2, toGLushort 2),
    (3 * (ct + 1) + 0, toGLushort 1),
    (3 * (ct + 1) + 1, toGLushort (cv - 1)),
    (3 * (ct + 1) + 2, toGLushort 3),
    (3 * (ct + 2) + 0, toGLushort (cv - 2)),
    (3 * (ct + 2) + 1, toGLushort (cv - 1)),
    (3 * (ct + 2) + 2, toGLushort 3),
    (3 * (ct + 3) + 0, toGLushort 3),
    (3 * (ct + 3) + 1, toGLushort 2),
    (3 * (ct + 3) + 2, toGLushort (cv - 2)) ]

/-- State after lines 721-744: both cap centres stored, `currentVertex = 2`,
`currentTriangle = 0`. -/
def prismInit {F : Type} (ops : FloatOps F) (halfLen : F) : PrismState F :=
  { vstores := centerStores ops halfLen, istores := [], currentVertex := 2, currentTriangle := 0 }

/-- One iteration of the loop of lines 747-801. -/
def prismBody {F : Type} (ops : FloatOps F) (numSides : Int) (radius halfLen : F)
    (st : PrismState F) (edge : Int) : PrismState F :=
  let theta := thetaOf ops numSides edge
  let st1 : PrismState F :=
    { st with
      vstores := st.vstores ++ perimeterStores ops theta radius halfLen st.currentVertex
      currentVertex := st.currentVertex + 2 }
  if edge > 0 then
    { st1 with
      istores := st1.istores ++ edgeStores st1.currentVertex st1.currentTriangle
      currentTriangle := st1.currentTriangle + 4 }
  else st1

/-- The loop `for (int edge = 0; edge < numSides; edge++)` run for `k` iterations. -/
def prismLoop {F : Type} (ops : FloatOps F) (numSides : Int) (radius halfLen : F) (k : Nat) :
    PrismState F :=
  (List.range k).foldl (fun st e => prismBody ops numSides radius halfLen st (e : Int))
    (prismInit ops halfLen)

/-- The procedure `UCreatePrismMesh(verts, indices, numSides, radius, halfLen)`: the
stores it makes to its two arrays and its final counters, in unbounded integers. The
32-bit run is `UCreatePrismMesh32`; the two agree up to 153391688 sides. -/
def UCreatePrismMesh {F : Type} (ops : FloatOps F) (numSides : Int) (radius halfLen : F) :
    PrismState F :=
  let st := prismLoop ops numSides radius halfLen numSides.toNat
  { st with
    istores := st.istores ++ closingStores st.currentVertex st.currentTriangle
    currentTriangle := st.currentTriangle + 4 }

/-- The array `verts[]` after the call, given its contents before. -/
def vertsAfter {F : Type} (ops : FloatOps F) (numSides : Int) (radius halfLen : F)
    (verts : Int → F) : Int → F :=
  applyStores verts (UCreatePrismMesh ops numSides radius halfLen).vstores

/-- The array `indices[]` after the call, given its contents before. -/
def indicesAfter {F : Type} (ops : FloatOps F) (numSides : Int) (radius halfLen : F)
    (indices : Int → Int) : Int → Int :=
  applyStores indices (UCreatePrismMesh ops numSides radius halfLen).istores

/-- The offsets of `verts[]` stored to, in program order. -/
def vertexOffsets {F : Type} (ops : FloatOps F) (numSides : Int) (radius halfLen : F) :
    List Int :=
  (UCreatePrismMesh ops numSides radius halfLen).vstores.map Prod.fst

/-- The offsets of `indices[]` stored to, in program order. -/
def indexOffsets {F : Type} (ops : FloatOps F) (numSides : Int) (radius halfLen : F) :
    List Int :=
  (UCreatePrismMesh ops numSides radius halfLen).istores.map Prod.fst

/-- The values stored to `indices[]`, in program order. -/
def indexValues {F : Type} (ops : FloatOps F) (numSides : Int) (radius halfLen : F) :
    List Int :=
  (UCreatePrismMesh ops numSides radius halfLen).istores.map Prod.snd

/-- Source constant `const int NUM_SIDES = 100;` of `UCreateCylinderMesh`. -/
def NUM_SIDES : Int := 100

/-- Source constant `const int NUM_VERTICES = STRIDE * (2 + (2 * NUM_SIDES));`. -/
def NUM_VERTICES : Int := STRIDE * (2 + (2 * NUM_SIDES))

/-- Source constant `const int NUM_INDICES = 12 * NUM_SIDES;`. -/
def NUM_INDICES : Int := 12 * NUM_SIDES

/-- The call `UCreatePrismMesh(verts, indices, NUM_SIDES, 0.25f, 0.02f)` made by
`UCreateCylinderMesh` on its local arrays of `NUM_VERTICES` floats and `NUM_INDICES`
indices. -/
def cylinderPrism {F : Type} (ops : FloatOps F) : PrismState F :=
  UCreatePrismMesh ops NUM_SIDES (ops.lit (25 / 100)) (ops.lit (2 / 100))


/-! ## Closed form of the stores of `UCreatePrismMesh` -/

/-- The stores to `verts[]` after `k` iterations, listed edge by edge. -/
def loopVerts {F : Type} (ops : FloatOps F) (numSides : Int) (radius halfLen : F) (k : Nat) :
    List (Int × F) :=
  centerStores ops halfLen ++
    (List.range k).flatMap (fun e =>
      perimeterStores ops (thetaOf ops numSides (e : Int)) radius halfLen (2 + 2 * (e : Int)))

/-- The stores to `indices[]` after `k` iterations, listed edge by edge. -/
def loopTris (k : Nat) : List (Int × Int) :=
  (List.range k).flatMap (fun e =>
    if e = 0 then [] else edgeStores (4 + 2 * (e : Int)) (4 * ((e : Int) - 1)))

/-- The offsets `0, 1, ..., n-1`. -/
def offsetsUpTo (n : Nat) : List Int := (List.range n).map (fun (i : Nat) => (i : Int))

/-! ## Reading the arrays as a mesh -/

/-- The position `(x, y, z)` of vertex number `v` in a vertex array of stride `STRIDE`. -/
def vertexPos {F : Type} (verts : Int → F) (v : Int) : F × F × F :=
  (verts (v * STRIDE + 0), verts (v * STRIDE + 1), verts (v * STRIDE + 2))

/-- Triangle number `t` of an index array: the entries `3t`, `3t+1`, `3t+2`. -/
def triangleAt (indices : Int → Int) (t : Int) : Int × Int × Int :=
  (indices (3 * t + 0), indices (3 * t + 1), indices (3 * t + 2))

/-- The four triangles the interior-edge code of lines 776-797 forms from the previous
perimeter pair `(pt, pb)` and the current pair `(ct, cb)` (top and bottom vertex each). -/
def edgePattern (pt pb ct cb : Int) : List (Int × Int × Int) :=
  [(0, pt, ct), (1, pb, cb), (pt, pb, cb), (cb, ct, pt)]

/-- The float facts the scenario with four sides relies on: `(float)0 * radiansPerSide`
is `0`, `cos(0) = 1`, `sin(0) = 0`, `1 * 1 = 1` and `1 * 0 = 0`. -/
def ZeroAngleFacts {F : Type} (ops : FloatOps F) : Prop :=
  ops.mul (ops.ofInt 0) (radiansPerSide ops 4) = ops.lit 0 ∧
  ops.cos (ops.lit 0) = ops.lit 1 ∧
  ops.sin (ops.lit 0) = ops.lit 0 ∧
  ops.mul (ops.lit 1) (ops.lit 1) = ops.lit 1 ∧
  ops.mul (ops.lit 1) (ops.lit 0) = ops.lit 0

/-- A cap triangle with its centre listed first: `ctr` is a cap centre (0 or 1) and
`p`, `q` are perimeter indices on the same cap (even for centre 0, odd for centre 1). -/
def CapAt (ctr p q : Int) : Prop :=
  (ctr = 0 ∨ ctr = 1) ∧ 2 ≤ p ∧ 2 ≤ q ∧ p % 2 = ctr ∧ q % 2 = ctr

/-- A cap triangle: exactly one entry is a cap centre, the two others are perimeter
indices on that centre's cap. -/
def CapTriangle (t : Int × Int × Int) : Prop :=
  CapAt t.1 t.2.1 t.2.2 ∨ CapAt t.2.1 t.1 t.2.2 ∨ CapAt t.2.2 t.1 t.2.1

/-- Index `v` belongs to perimeter pair `e`, whose vertices are `2 + 2e` and `3 + 2e`. -/
def InPair (e v : Int) : Prop := v = 2 + 2 * e ∨ v = 3 + 2 * e

/-- A side triangle of a prism with `N` sides: no cap centre, three distinct perimeter
indices taken from perimeter pair `e` and the next pair around the ring, `(e + 1) % N`. -/
def SideTriangle (N : Int) (t : Int × Int × Int) : Prop :=
  2 ≤ t.1 ∧ 2 ≤ t.2.1 ∧ 2 ≤ t.2.2 ∧
  t.1 ≠ t.2.1 ∧ t.1 ≠ t.2.2 ∧ t.2.1 ≠ t.2.2 ∧
  ∃ e : Int, 0 ≤ e ∧ e < N ∧
    (InPair e t.1 ∨ InPair ((e + 1) % N) t.1) ∧
    (InPair e t.2.1 ∨ InPair ((e + 1) % N) t.2.1) ∧
    (InPair e t.2.2 ∨ InPair ((e + 1) % N) t.2.2)

/-! ## `flipImageVertically` -/

/-- The inner loop of `flipImageVertically`, `for (int i = width * channels; i > 0; --i)`,
run for `n` iterations: each swaps `image[index1]` and `image[index2]` and increments
both offsets. -/
def swapRun {α : Type} (image : Int → α) (index1 index2 : Int) : Nat → Int → α
  | 0 => image
  | n + 1 =>
    let tmp := image index1
    let image1 : Int → α := fun p => if p = index1 then image index2 else image p
    let image2 : Int → α := fun p => if p = index2 then tmp else image1 p
    swapRun image2 (index1 + 1) (index2 + 1) n

/-- One iteration of the outer loop of `flipImageVertically` for row `j`. -/
def flipRow {α : Type} (width height channels : Int) (image : Int → α) (j : Int) : Int → α :=
  let index1 := j * width * channels
  let index2 := (height - 1 - j) * width * channels
  swapRun image index1 index2 (width * channels).toNat

/-- The procedure `flipImageVertically(image, width, height, channels)`: the outer loop
`for (int j = 0; j < height / 2; ++j)`, with the truncating division of C, in unbounded
integers. The 32-bit run is `flipImageVertically32`. -/
def flipImageVertically {α : Type} (image : Int → α) (width height channels : Int) : Int → α :=
  (List.range (Int.tdiv height 2).toNat).foldl
    (fun img (j : Nat) => flipRow width height channels img (j : Int)) image

/-! ## Graphics calls -/

/-- Modelled from the spec: the enumerants of the graphics library header `glad.h`
(not part of the source) that the modelled functions pass, as distinct symbols. -/
inductive GLenum where
  | GL_TEXTURE_2D
  | GL_TEXTURE_WRAP_S
  | GL_TEXTURE_WRAP_T
  | GL_TEXTURE_MIN_FILTER
  | GL_TEXTURE_MAG_FILTER
  | GL_TEXTURE_BORDER_COLOR
  | GL_LINEAR
  | GL_REPEAT
  | GL_MIRRORED_REPEAT
  | GL_CLAMP_TO_EDGE
  | GL_CLAMP_TO_BORDER
  | GL_RGB
  | GL_RGBA
  | GL_RGB8
  | GL_RGBA8
  | GL_UNSIGNED_BYTE
  deriving DecidableEq, Repr

/-- A call into the graphics library, with the arguments the source passes. -/
inductive GLCall (F : Type) where
  /-- Call `glGenTextures(1, &textureId)`, which stored `id` in `textureId`. -/
  | genTextures (id : Nat)
  /-- Call `glBindTexture(target, texture)`. -/
  | bindTexture (target : GLenum) (texture : Nat)
  /-- Call `glTexParameteri(target, pname, param)`. -/
  | texParameteri (target pname param : GLenum)
  /-- Call `glTexParameterfv(target, pname, params)`. -/
  | texParameterfv (target pname : GLenum) (params : List F)
  /-- Call `glTexImage2D(target, level, internalformat, width, height, border, format, type, data)`. -/
  | texImage2D (target : GLenum) (level : Int) (internalformat : GLenum) (width height : Int)
      (border : Int) (format type : GLenum) (data : Int → Nat)
  /-- Call `glGenerateMipmap(target)`. -/
  | generateMipmap (target : GLenum)

/-- A line written to `cout`. -/
inductive LogLine (F : Type) where
  /-- A fixed text. -/
  | text (s : String)
  /-- The text `Not implemented to handle image with <channels> channels`. -/
  | channels (n : Int)
  /-- The text `Current scale (<x>, <y>)`. -/
  | scale (x y : F)

/-! ## `UCreateTexture` -/

/-- What `stbi_load(filename, &width, &height, &channels, 0)` yields when it succeeds:
the pixel bytes and the three dimensions. -/
structure DecodedImage where
  image : Int → Nat
  width : Int
  height : Int
  channels : Int

/-- Result of `UCreateTexture`: the returned flag, the graphics calls made and the lines
written to `cout`, in order. -/
structure TextureResult (F : Type) where
  result : Bool
  calls : List (GLCall F)
  log : List (LogLine F)

/-- The function `UCreateTexture(filename, textureId)`. `loaded` is what `stbi_load`
returns for `filename` (`none` for a null pointer) and `id` the name `glGenTextures`
hands out. -/
def UCreateTexture {F : Type} (loaded : Option DecodedImage) (id : Nat) : TextureResult F :=
  match loaded with
  | some img =>
    let image := flipImageVertically img.image img.width img.height img.channels
    let setup : List (GLCall F) :=
      [ .genTextures id,
        .bindTexture .GL_TEXTURE_2D id,
        .texParameteri .GL_TEXTURE_2D .GL_TEXTURE_WRAP_S .GL_REPEAT,
        .texParameteri .GL_TEXTURE_2D .GL_TEXTURE_WRAP_T .GL_REPEAT,
        .texParameteri .GL_TEXTURE_2D .GL_TEXTURE_MIN_FILTER .GL_LINEAR,
        .texParameteri .GL_TEXTURE_2D .GL_TEXTURE_MAG_FILTER .GL_LINEAR ]
    if img.channels = 3 then
      { result := true
        calls := setup ++
          [ .texImage2D .GL_TEXTURE_2D 0 .GL_RGB8 img.width img.height 0 .GL_RGB
              .GL_UNSIGNED_BYTE image,
            .generateMipmap .GL_TEXTURE_2D,
            .bindTexture .GL_TEXTURE_2D 0 ]
        log := [] }
    else if img.channels = 4 then
      { result := true
        calls := setup ++
          [ .texImage2D .GL_TEXTURE_2D 0 .GL_RGBA8 img.width img.height 0 .GL_RGBA
              .GL_UNSIGNED_BYTE image,
            .generateMipmap .GL_TEXTURE_2D,
            .bindTexture .GL_TEXTURE_2D 0 ]
        log := [] }
    else
      { result := false, calls := setup, log := [.channels img.channels] }
  | none => { result := false, calls := [], log := [] }

/-! ## `UProcessInput` -/

/-- The keys `UProcessInput` queries with `glfwGetKey`. -/
inductive Key where
  | ESCAPE | W | S | A | D | Q | E
  | KEY_1 | KEY_2 | KEY_3 | KEY_4
  | RIGHT_BRACKET | LEFT_BRACKET
  deriving DecidableEq, Repr

/-- Modelled from the spec: the movement directions of `camera.h` (not part of the
source) that `UProcessInput` passes to `Camera::ProcessKeyboard`. -/
inductive CameraMovement where
  | FORWARD | BACKWARD | LEFT | RIGHT | UP | DOWN
  deriving DecidableEq, Repr

/-- The globals `UProcessInput` reads or writes, with the trace of graphics calls and
of lines written to `cout`. `Cam` is the camera class of `camera.h`. -/
structure AppState (F Cam : Type) where
  gTexWrapMode : GLenum
  gUVScale : F × F
  gCamera : Cam
  gDeltaTime : F
  gTextureYolk : Nat
  gTextureWhite : Nat
  windowShouldClose : Bool
  calls : List (GLCall F)
  log : List (LogLine F)

/-- The initial values of the globals: `gUVScale(5.0f, 5.0f)`, `gTexWrapMode = GL_REPEAT`,
`gDeltaTime = 0.0f`; the camera and the two texture names are given. -/
def initialState {F Cam : Type} (ops : FloatOps F) (camera : Cam) (yolk white : Nat) :
    AppState F Cam :=
  { gTexWrapMode := .GL_REPEAT
    gUVScale := (ops.lit 5, ops.lit 5)
    gCamera := camera
    gDeltaTime := ops.lit 0
    gTextureYolk := yolk
    gTextureWhite := white
    windowShouldClose := false
    calls := []
    log := [] }

/-- Lines 377-385 and their three siblings: both textures are bound in turn, the wrap
parameters set, texture 0 bound, the mode recorded and one line logged. -/
def setWrap {F Cam : Type} (st : AppState F Cam) (mode : GLenum) (name : String) :
    AppState F Cam :=
  { st with
    calls := st.calls ++
      [ .bindTexture .GL_TEXTURE_2D st.gTextureYolk,
        .bindTexture .GL_TEXTURE_2D st.gTextureWhite,
        .texParameteri .GL_TEXTURE_2D .GL_TEXTURE_WRAP_S mode,
        .texParameteri .GL_TEXTURE_2D .GL_TEXTURE_WRAP_T mode,
        .bindTexture .GL_TEXTURE_2D 0 ]
    gTexWrapMode := mode
    log := st.log ++ [.text name] }

/-- Lines 375-425: the `if / else if` chain over the keys 1 to 4. -/
def processWrapKeys {F Cam : Type} (ops : FloatOps F) (pressed : Key → Bool)
    (st : AppState F Cam) : AppState F Cam :=
  if pressed .KEY_1 = true ∧ st.gTexWrapMode ≠ .GL_REPEAT then
    setWrap st .GL_REPEAT "Current Texture Wrapping Mode: REPEAT"
  else if pressed .KEY_2 = true ∧ st.gTexWrapMode ≠ .GL_MIRRORED_REPEAT then
    setWrap st .GL_MIRRORED_REPEAT "Current Texture Wrapping Mode: MIRRORED REPEAT"
  else if pressed .KEY_3 = true ∧ st.gTexWrapMode ≠ .GL_CLAMP_TO_EDGE then
    setWrap st .GL_CLAMP_TO_EDGE "Current Texture Wrapping Mode: CLAMP TO EDGE"
  else if pressed .KEY_4 = true ∧ st.gTexWrapMode ≠ .GL_CLAMP_TO_BORDER then
    let color : List F := [ops.lit 1, ops.lit 0, ops.lit 1, ops.lit 1]
    let st1 : AppState F Cam :=
      { st with
        calls := st.calls ++ [.texParameterfv .GL_TEXTURE_2D .GL_TEXTURE_BORDER_COLOR color] }
    setWrap st1 .GL_CLAMP_TO_BORDER "Current Texture Wrapping Mode: CLAMP TO BORDER"
  else st

/-- Lines 427-436: the keys `]` and `[` add or subtract `0.1f` on both components of
`gUVScale` and log the new scale. -/
def processScaleKeys {F Cam : Type} (ops : FloatOps F) (pressed : Key → Bool)
    (st : AppState F Cam) : AppState F Cam :=
  if pressed .RIGHT_BRACKET = true then
    let s : F × F := (ops.add st.gUVScale.1 (ops.lit (1 / 10)),
      ops.add st.gUVScale.2 (ops.lit (1 / 10)))
    { st with gUVScale := s, log := st.log ++ [.scale s.1 s.2] }
  else if pressed .LEFT_BRACKET = true then
    let s : F × F := (ops.sub st.gUVScale.1 (ops.lit (1 / 10)),
      ops.sub st.gUVScale.2 (ops.lit (1 / 10)))
    { st with gUVScale := s, log := st.log ++ [.scale s.1 s.2] }
  else st

/-- Lines 359-360: Escape requests the window to close. -/
def closeOnEscape {F Cam : Type} (pressed : Key → Bool) (st : AppState F Cam) :
    AppState F Cam :=
  if pressed .ESCAPE = true then { st with windowShouldClose := true } else st

/-- One of the statements of lines 362-373:
`if (glfwGetKey(window, k) == GLFW_PRESS) gCamera.ProcessKeyboard(d, gDeltaTime);`
where `Camera::ProcessKeyboard` (of `camera.h`) is the parameter `processKeyboard`. -/
def moveOnKey {F Cam : Type} (processKeyboard : CameraMovement → F → Cam → Cam)
    (pressed : Key → Bool) (k : Key) (d : CameraMovement) (st : AppState F Cam) :
    AppState F Cam :=
  if pressed k = true then
    { st with gCamera := processKeyboard d st.gDeltaTime st.gCamera }
  else st

/-- Lines 359-373: Escape, then the keys W, S, A, D, Q, E in this order. -/
def processCameraKeys {F Cam : Type} (processKeyboard : CameraMovement → F → Cam → Cam)
    (pressed : Key → Bool) (st : AppState F Cam) : AppState F Cam :=
  let st := closeOnEscape pressed st
  let st := moveOnKey processKeyboard pressed .W .FORWARD st
  let st := moveOnKey processKeyboard pressed .S .BACKWARD st
  let st := moveOnKey processKeyboard pressed .A .LEFT st
  let st := moveOnKey processKeyboard pressed .D .RIGHT st
  let st := moveOnKey processKeyboard pressed .Q .UP st
  moveOnKey processKeyboard pressed .E .DOWN st

/-- The procedure `UProcessInput(window)`; `pressed k` tells whether
`glfwGetKey(window, k) == GLFW_PRESS`. -/
def UProcessInput {F Cam : Type} (ops : FloatOps F)
    (processKeyboard : CameraMovement → F → Cam → Cam) (pressed : Key → Bool)
    (st : AppState F Cam) : AppState F Cam :=
  processScaleKeys ops pressed (processWrapKeys ops pressed (processCameraKeys processKeyboard pressed st))

/-- The wrap-mode key with number `k` (1 to 4). -/
def wrapKey : Nat → Key
  | 1 => .KEY_1
  | 2 => .KEY_2
  | 3 => .KEY_3
  | _ => .KEY_4

/-- The wrap mode the key with number `k` (1 to 4) selects. -/
def wrapModeOf : Nat → GLenum
  | 1 => .GL_REPEAT
  | 2 => .GL_MIRRORED_REPEAT
  | 3 => .GL_CLAMP_TO_EDGE
  | _ => .GL_CLAMP_TO_BORDER

/-- Key number `k` is the only wrap-mode key pressed. -/
def OnlyWrapKey (pressed : Key → Bool) (k : Nat) : Prop :=
  ∀ m : Nat, 1 ≤ m → m ≤ 4 → (pressed (wrapKey m) = true ↔ m = k)

/-- The log line is one of the four wrap-mode messages, or any other fixed text. -/
def IsTextLine {F : Type} : LogLine F → Prop
  | .text _ => True
  | _ => False

/-- The line `UProcessInput` logs when key number `k` (1 to 4) changes the wrap mode. -/
def wrapModeMessage : Nat → String
  | 1 => "Current Texture Wrapping Mode: REPEAT"
  | 2 => "Current Texture Wrapping Mode: MIRRORED REPEAT"
  | 3 => "Current Texture Wrapping Mode: CLAMP TO EDGE"
  | _ => "Current Texture Wrapping Mode: CLAMP TO BORDER"

/-- Several frames in a row: `n` calls of `UProcessInput` with the same keys held. -/
def holdKeys {F Cam : Type} (ops : FloatOps F)
    (processKeyboard : CameraMovement → F → Cam → Cam) (pressed : Key → Bool) :
    Nat → AppState F Cam → AppState F Cam
  | 0, st => st
  | n + 1, st => holdKeys ops processKeyboard pressed n (UProcessInput ops processKeyboard pressed st)

/-- A sequence of frames: one call of `UProcessInput` per entry of `inputs`, each entry
telling which keys are pressed during that call. -/
def runInputs {F Cam : Type} (ops : FloatOps F)
    (processKeyboard : CameraMovement → F → Cam → Cam) (inputs : List (Key → Bool))
    (st : AppState F Cam) : AppState F Cam :=
  inputs.foldl (fun s pressed => UProcessInput ops processKeyboard pressed s) st

/-- Exactly one of the keys `]` and `[` is pressed. -/
def OneBracket (pressed : Key → Bool) : Prop :=
  (pressed .RIGHT_BRACKET = true ∧ pressed .LEFT_BRACKET = false) ∨
  (pressed .RIGHT_BRACKET = false ∧ pressed .LEFT_BRACKET = true)

/-- The float operations are read exactly on the rationals: literals, sums and
differences are the rational ones. -/
def ExactArithmetic (ops : FloatOps ℚ) : Prop :=
  (∀ q, ops.lit q = q) ∧ (∀ a b, ops.add a b = a + b) ∧ (∀ a b, ops.sub a b = a - b)

/-! ## Texture state of the graphics backend -/

/-- Modelled from the spec: the texture objects of the graphics backend (not part of the
source), under the rule that a texture-parameter call changes the texture currently
bound to the target. `bound` is the texture bound to `GL_TEXTURE_2D`, `param t p` the
value of parameter `p` of texture `t`, if it was ever set. -/
structure TexState where
  bound : Nat
  param : Nat → GLenum → Option GLenum

/-- Modelled from the spec: the effect of one graphics call on the texture state of the
backend: `glBindTexture` changes the bound texture and `glTexParameteri` sets a
parameter of the bound texture; no other call changes a wrap parameter. -/
def glApply {F : Type} (s : TexState) : GLCall F → TexState
  | .bindTexture target texture =>
    if target = .GL_TEXTURE_2D then { s with bound := texture } else s
  | .texParameteri target pname value =>
    if target = .GL_TEXTURE_2D then
      { s with param := fun t p => if t = s.bound ∧ p = pname then some value else s.param t p }
    else s
  | _ => s

/-- The texture state after a list of graphics calls, in order. -/
def glRun {F : Type} (s : TexState) (calls : List (GLCall F)) : TexState :=
  calls.foldl glApply s

/-- The texture state before any call: texture 0 bound, no parameter set. -/
def glInitial : TexState := { bound := 0, param := fun _ _ => none }

/-! ## Startup and teardown of `main` -/

/-- The conversion of an `int` to `bool`, as in `return -1;` in a function returning
`bool`: every value but zero is `true`. -/
def intToBool (n : Int) : Bool := decide (n ≠ 0)

/-- The function `UInitialize`: `windowCreated` tells whether `glfwCreateWindow`
returned a window and `loaderOk` whether `gladLoadGLLoader` returned non-zero. The
first failure returns `false`, the second executes `return -1;`. -/
def UInitialize (windowCreated loaderOk : Bool) : Bool :=
  if windowCreated = false then false
  else if loaderOk = false then intToBool (-1)
  else true

/-- The statuses `UCreateShaderProgram` reads back with `glGetShaderiv` and
`glGetProgramiv`. -/
structure ShaderStatus where
  vertexCompiled : Bool
  fragmentCompiled : Bool
  linked : Bool

/-- The function `UCreateShaderProgram`: false at the first status that is not a
success. -/
def UCreateShaderProgram (s : ShaderStatus) : Bool :=
  if s.vertexCompiled = false then false
  else if s.fragmentCompiled = false then false
  else if s.linked = false then false
  else true

/-- What the libraries answer during the startup of `main`. -/
structure StartupInputs where
  windowCreated : Bool
  loaderOk : Bool
  litProgram : ShaderStatus
  lampProgram : ShaderStatus
  yolkImage : Option DecodedImage
  whiteImage : Option DecodedImage

/-- How the startup part of `main` (lines 229-264) ends: with `return EXIT_FAILURE`, or
by reaching the render loop. -/
inductive StartupResult where
  | exitFailure
  | renderLoop
  deriving DecidableEq, Repr

/-- Lines 229-264 of `main`: `UInitialize`, the four meshes, the two shader programs and
the two textures; `yolkId` and `whiteId` are the names `glGenTextures` hands out. -/
def mainStartup (i : StartupInputs) (yolkId whiteId : Nat) : StartupResult :=
  if UInitialize i.windowCreated i.loaderOk = false then .exitFailure
  else if UCreateShaderProgram i.litProgram = false then .exitFailure
  else if UCreateShaderProgram i.lampProgram = false then .exitFailure
  else if (UCreateTexture i.yolkImage yolkId : TextureResult Unit).result = false then
    .exitFailure
  else if (UCreateTexture i.whiteImage whiteId : TextureResult Unit).result = false then
    .exitFailure
  else .renderLoop

/-- The struct `GLMesh`: the vertex array, the two buffers and the two counts. -/
structure GLMesh where
  vao : Nat
  vbo0 : Nat
  vbo1 : Nat
  nIndices : Nat
  nVertices : Nat

/-- A library call of the teardown of `main`. `deleteTextures`, `glfwTerminate` and
`glfwDestroyWindow` are listed although the teardown never makes them, so that their
absence can be stated. -/
inductive TeardownCall where
  /-- Call `glDeleteVertexArrays(n, &vao)`. -/
  | deleteVertexArrays (n vao : Nat)
  /-- Call `glDeleteBuffers(n, vbos)`. -/
  | deleteBuffers (n vbo0 vbo1 : Nat)
  /-- Call `glGenTextures(n, &textureId)`. -/
  | genTextures (n : Nat)
  /-- Call `glDeleteTextures(n, &textureId)`. -/
  | deleteTextures (n textureId : Nat)
  /-- Call `glDeleteProgram(programId)`. -/
  | deleteProgram (programId : Nat)
  /-- Call `glfwTerminate()`. -/
  | glfwTerminate
  /-- Call `glfwDestroyWindow(window)`. -/
  | glfwDestroyWindow
  /-- Call `exit(status)`. -/
  | exitProcess (status : Int)
  deriving DecidableEq, Repr

/-- The procedure `UDestroyMesh(mesh)`. -/
def UDestroyMesh (mesh : GLMesh) : List TeardownCall :=
  [.deleteVertexArrays 1 mesh.vao, .deleteBuffers 2 mesh.vbo0 mesh.vbo1]

/-- The procedure `UDestroyTexture(textureId)`, whose body is
`glGenTextures(1, &textureId);`. -/
def UDestroyTexture (_textureId : Nat) : List TeardownCall :=
  [.genTextures 1]

/-- The procedure `UDestroyShaderProgram(programId)`. -/
def UDestroyShaderProgram (programId : Nat) : List TeardownCall :=
  [.deleteProgram programId]

/-- Source constant `EXIT_SUCCESS`. -/
def EXIT_SUCCESS : Int := 0

/-- Lines 287-301 of `main`: what follows the render loop. -/
def mainTeardown (gYolkMesh gWhiteMesh gPlateMesh gMesh : GLMesh)
    (gTextureYolk gTextureWhite gProgramId gLampProgramId : Nat) : List TeardownCall :=
  UDestroyMesh gYolkMesh ++ UDestroyMesh gWhiteMesh ++ UDestroyMesh gPlateMesh ++
    UDestroyMesh gMesh ++
    UDestroyTexture gTextureYolk ++ UDestroyTexture gTextureWhite ++
    UDestroyShaderProgram gProgramId ++ UDestroyShaderProgram gLampProgramId ++
    [.exitProcess EXIT_SUCCESS]

/-- The call deletes a texture object. -/
def IsTextureDeletion : TeardownCall → Prop
  | .deleteTextures _ _ => True
  | _ => False

/-- The call closes the window or the context. -/
def IsWindowClose : TeardownCall → Prop
  | .glfwTerminate => True
  | .glfwDestroyWindow => True
  | _ => False

/-! ## `URender` -/

/-- The matrix functions of the library `glm` that `URender` applies; they are left
uninterpreted. `Mat` stands for `glm::mat4`. -/
structure GlmOps (F Mat : Type) where
  /-- Function `glm::scale(v)`. -/
  scale : F × F × F → Mat
  /-- Function `glm::rotate(angle, axis)`. -/
  rotate : F → F × F × F → Mat
  /-- Function `glm::translate(v)`. -/
  translate : F × F × F → Mat
  /-- Matrix product `a * b`. -/
  mul : Mat → Mat → Mat
  /-- Function `glm::perspective(fovy, aspect, near, far)`. -/
  perspective : F → F → F → F → Mat

/-- Modelled from the spec: the class `Camera` of `camera.h` (not part of the source),
as far as rendering is concerned: its member `Position` and the view matrix computed
from the camera state. -/
structure CameraOps (Cam F Mat : Type) where
  /-- Member `Position`. -/
  Position : Cam → F × F × F
  /-- Method `GetViewMatrix()`. -/
  GetViewMatrix : Cam → Mat

/-- A library call made by `URender`. A uniform location is recorded as the two
arguments of the `glGetUniformLocation(program, name)` call that produced it. -/
inductive RenderCall (F Mat : Type) where
  /-- Call `glEnable(GL_DEPTH_TEST)`. -/
  | enableDepthTest
  /-- Call `glClearColor(r, g, b, a)`. -/
  | clearColor (r g b a : F)
  /-- Call `glClear(GL_COLOR_BUFFER_BIT | GL_DEPTH_BUFFER_BIT)`. -/
  | clearColorAndDepth
  /-- Call `glUseProgram(program)`. -/
  | useProgram (program : Nat)
  /-- Call `glUniformMatrix4fv(location, 1, GL_FALSE, glm::value_ptr(m))`. -/
  | uniformMatrix4fv (program : Nat) (name : String) (m : Mat)
  /-- Call `glUniform3f(location, x, y, z)`. -/
  | uniform3f (program : Nat) (name : String) (x y z : F)
  /-- Call `glUniform2fv(location, 1, glm::value_ptr(v))`. -/
  | uniform2fv (program : Nat) (name : String) (v : F × F)
  /-- Call `glBindVertexArray(vao)`. -/
  | bindVertexArray (vao : Nat)
  /-- Call `glActiveTexture(GL_TEXTURE0)`. -/
  | activeTexture0
  /-- Call `glBindTexture(GL_TEXTURE_2D, texture)`. -/
  | bindTexture2D (texture : Nat)
  /-- Call `glDrawElements(GL_TRIANGLES, count, GL_UNSIGNED_SHORT, NULL)`. -/
  | drawElements (count : Nat)
  /-- Call `glDrawArrays(GL_TRIANGLES, first, count)`. -/
  | drawArrays (first count : Nat)
  /-- Call `glfwSwapBuffers(gWindow)`. -/
  | swapBuffers

/-- The globals `URender` reads. -/
structure RenderState (F Cam : Type) where
  gProgramId : Nat
  gLampProgramId : Nat
  gYolkMesh : GLMesh
  gWhiteMesh : GLMesh
  gPlateMesh : GLMesh
  gMesh : GLMesh
  gTextureYolk : Nat
  gTextureWhite : Nat
  gUVScale : F × F
  gCamera : Cam

/-- Source constant `WINDOW_WIDTH`. -/
def WINDOW_WIDTH : Int := 800

/-- Source constant `WINDOW_HEIGHT`. -/
def WINDOW_HEIGHT : Int := 600

/-- Line 545: `glm::mat4 view = glm::translate(glm::vec3(0.0f, 0.0f, -5.0f));`. -/
def renderView {F Mat : Type} (ops : FloatOps F) (glm : GlmOps F Mat) : Mat :=
  glm.translate (ops.lit 0, ops.lit 0, ops.lit (-5))

/-- Line 548: the perspective projection of `URender`. -/
def renderProjection {F Mat : Type} (ops : FloatOps F) (glm : GlmOps F Mat) : Mat :=
  glm.perspective (ops.lit 45) (ops.div (ops.ofInt WINDOW_WIDTH) (ops.ofInt WINDOW_HEIGHT))
    (ops.lit (1 / 10)) (ops.lit 100)

/-- Line 538: `glm::mat4 rotation = glm::rotate(120.0f, glm::vec3(1.0, 1.0f, 1.0f));`. -/
def renderRotation {F Mat : Type} (ops : FloatOps F) (glm : GlmOps F Mat) : Mat :=
  glm.rotate (ops.lit 120) (ops.lit 1, ops.lit 1, ops.lit 1)

/-- The model matrix `translation * rotation * scale` for a scale factor `s` on the
three axes and a translation by `(0, 0, z)`. -/
def renderModel {F Mat : Type} (ops : FloatOps F) (glm : GlmOps F Mat) (s z : ℚ) : Mat :=
  glm.mul (glm.mul (glm.translate (ops.lit 0, ops.lit 0, ops.lit z)) (renderRotation ops glm))
    (glm.scale (ops.lit s, ops.lit s, ops.lit s))

/-- Lines 528-574: clearing, the lit program and its uniforms. -/
def renderSetup {F Cam Mat : Type} (ops : FloatOps F) (glm : GlmOps F Mat)
    (cam : CameraOps Cam F Mat) (st : RenderState F Cam) : List (RenderCall F Mat) :=
  [ .enableDepthTest,
    .clearColor (ops.lit 0) (ops.lit 0) (ops.lit 0) (ops.lit 1),
    .clearColorAndDepth,
    .useProgram st.gProgramId,
    .uniformMatrix4fv st.gProgramId "model" (renderModel ops glm 2 0),
    .uniformMatrix4fv st.gProgramId "view" (renderView ops glm),
    .uniformMatrix4fv st.gProgramId "projection" (renderProjection ops glm),
    .uniform3f st.gProgramId "lightColor" (ops.lit 1) (ops.lit 1) (ops.lit 1),
    .uniform3f st.gProgramId "lightPos" (ops.lit 1) (ops.lit 1) (ops.lit 3),
    .uniform3f st.gProgramId "viewPosition" (cam.Position st.gCamera).1
      (cam.Position st.gCamera).2.1 (cam.Position st.gCamera).2.2,
    .uniform2fv st.gProgramId "uvScale" st.gUVScale ]

/-- Lines 577-628: the main pass, the draws of the yolk, white, plate and reference
meshes. -/
def renderMainPass {F Cam Mat : Type} (ops : FloatOps F) (glm : GlmOps F Mat)
    (st : RenderState F Cam) : List (RenderCall F Mat) :=
  [ .bindVertexArray st.gYolkMesh.vao,
    .activeTexture0,
    .bindTexture2D st.gTextureWhite,
    .drawElements st.gYolkMesh.nIndices,
    .bindVertexArray 0,
    .bindVertexArray st.gWhiteMesh.vao,
    .uniformMatrix4fv st.gProgramId "model" (renderModel ops glm 1 (2 / 10)),
    .activeTexture0,
    .bindTexture2D st.gTextureYolk,
    .drawElements st.gWhiteMesh.nIndices,
    .bindVertexArray 0,
    .bindVertexArray st.gPlateMesh.vao,
    .uniformMatrix4fv st.gProgramId "model" (renderModel ops glm 2 0),
    .drawArrays 0 st.gPlateMesh.nIndices,
    .bindVertexArray 0,
    .drawArrays 0 st.gMesh.nVertices ]

/-- Lines 630-651: the lamp program and its uniforms, then the buffer swap. -/
def renderLamp {F Cam Mat : Type} (ops : FloatOps F) (glm : GlmOps F Mat)
    (st : RenderState F Cam) : List (RenderCall F Mat) :=
  [ .useProgram st.gLampProgramId,
    .uniformMatrix4fv st.gLampProgramId "model"
      (glm.mul (glm.translate (ops.lit 1, ops.lit 1, ops.lit 3))
        (glm.scale (ops.lit (3 / 10), ops.lit (3 / 10), ops.lit (3 / 10)))),
    .uniformMatrix4fv st.gLampProgramId "view" (renderView ops glm),
    .uniformMatrix4fv st.gLampProgramId "projection" (renderProjection ops glm),
    .bindVertexArray 0,
    .swapBuffers ]

/-- The procedure `URender()`: the library calls of one frame, in order. -/
def URender {F Cam Mat : Type} (ops : FloatOps F) (glm : GlmOps F Mat)
    (cam : CameraOps Cam F Mat) (st : RenderState F Cam) : List (RenderCall F Mat) :=
  renderSetup ops glm cam st ++ renderMainPass ops glm st ++ renderLamp ops glm st

/-- Modelled from the spec: the vertex-array binding of the graphics backend. Walks
through the calls of a frame, `bound` being the vertex array bound so far, and lists
every draw call with the vertex array bound when it is issued. -/
def drawsWithVao {F Mat : Type} (bound : Nat) :
    List (RenderCall F Mat) → List (RenderCall F Mat × Nat)
  | [] => []
  | .bindVertexArray vao :: rest => drawsWithVao vao rest
  | .drawElements count :: rest => (.drawElements count, bound) :: drawsWithVao bound rest
  | .drawArrays first count :: rest =>
    (.drawArrays first count, bound) :: drawsWithVao bound rest
  | _ :: rest => drawsWithVao bound rest

/-- The matrices uploaded to the uniform `view`, each with its program, in order. -/
def viewUploads {F Mat : Type} : List (RenderCall F Mat) → List (Nat × Mat)
  | [] => []
  | .uniformMatrix4fv program name m :: rest =>
    if name = "view" then (program, m) :: viewUploads rest else viewUploads rest
  | _ :: rest => viewUploads rest

/-- Symbolic matrices: the free interpretation of `GlmOps`, with a fifth form for the
view matrix of a camera at a given position. -/
inductive MatTerm where
  | scale (v : ℚ × ℚ × ℚ)
  | rotate (angle : ℚ) (axis : ℚ × ℚ × ℚ)
  | translate (v : ℚ × ℚ × ℚ)
  | mul (a b : MatTerm)
  | perspective (fovy aspect near far : ℚ)
  | lookFrom (position : ℚ × ℚ × ℚ)
  deriving DecidableEq

/-- The interpretation of the `glm` functions by symbolic matrices. -/
def termGlm : GlmOps ℚ MatTerm :=
  ⟨MatTerm.scale, MatTerm.rotate, MatTerm.translate, MatTerm.mul, MatTerm.perspective⟩

/-- A camera that is just its position, with the symbolic view matrix of that
position. -/
def pointCamera : CameraOps (ℚ × ℚ × ℚ) ℚ MatTerm :=
  ⟨fun c => c, MatTerm.lookFrom⟩

/-- A frame state with programs 1 and 2, vertex arrays 1 to 4, textures 1 and 2, the
initial UV scale and the camera at `position`. -/
def sampleFrame (position : ℚ × ℚ × ℚ) : RenderState ℚ (ℚ × ℚ × ℚ) :=
  { gProgramId := 1
    gLampProgramId := 2
    gYolkMesh := ⟨1, 1, 2, 1200, 0⟩
    gWhiteMesh := ⟨2, 3, 4, 1200, 0⟩
    gPlateMesh := ⟨3, 5, 6, 6, 4⟩
    gMesh := ⟨4, 7, 8, 18, 5⟩
    gTextureYolk := 1
    gTextureWhite := 2
    gUVScale := (5, 5)
    gCamera := position }

/-! ## The triangles of the prism as a surface -/

/-- The perimeter pair that follows pair `b` around the ring of `N` pairs. -/
def nextPair (N b : Int) : Int := if b + 1 = N then 0 else b + 1

/-- The perimeter pair that precedes pair `b` around the ring of `N` pairs. -/
def prevPair (N b : Int) : Int := if b = 0 then N - 1 else b - 1

/-- Triangle number `t` of a prism with `N` sides, as `edgePattern` forms it from the
perimeter pair `t / 4` and the pair that follows it: number `t % 4` of the four. -/
def prismTriangle (N t : Int) : Int × Int × Int :=
  if t % 4 = 0 then (0, 2 + 2 * (t / 4), 2 + 2 * nextPair N (t / 4))
  else if t % 4 = 1 then (1, 3 + 2 * (t / 4), 3 + 2 * nextPair N (t / 4))
  else if t % 4 = 2 then (2 + 2 * (t / 4), 3 + 2 * (t / 4), 3 + 2 * nextPair N (t / 4))
  else (3 + 2 * nextPair N (t / 4), 2 + 2 * nextPair N (t / 4), 2 + 2 * (t / 4))

/-- Index `v` is one of the three entries of the triangle. -/
def InTriangle (v : Int) (t : Int × Int × Int) : Prop :=
  v = t.1 ∨ v = t.2.1 ∨ v = t.2.2

/-- Besides triangle number `t`, exactly one other triangle of a prism with `N` sides
contains both `x` and `y`: there is a second triangle `t2` with both entries, and every
triangle with both entries is `t` or `t2`. -/
def SharedByTwo (N t x y : Int) : Prop :=
  ∃ t2 : Int, 0 ≤ t2 ∧ t2 < 4 * N ∧ t2 ≠ t ∧
    InTriangle x (prismTriangle N t2) ∧ InTriangle y (prismTriangle N t2) ∧
    ∀ s : Int, 0 ≤ s → s < 4 * N → InTriangle x (prismTriangle N s) →
      InTriangle y (prismTriangle N s) → s = t ∨ s = t2

/-- The three entries of a triangle as a list. -/
def triangleEntries (t : Int × Int × Int) : List Int := [t.1, t.2.1, t.2.2]

/-- The `int` values the index assignments of `UCreatePrismMesh` compute, before their
conversion to `GLushort`, in program order: for every edge `e > 0` the pattern of the
previous pair `(2e, 2e+1)` and the current pair `(2e+2, 2e+3)`, then the closing
pattern of the last pair `(2N, 2N+1)` and the first pair `(2, 3)`. -/
def assignedValues (N : Nat) : List Int :=
  (List.range N).flatMap (fun e =>
      if e = 0 then []
      else (edgePattern (2 * (e : Int)) (2 * (e : Int) + 1) (2 * (e : Int) + 2)
        (2 * (e : Int) + 3)).flatMap triangleEntries) ++
    (edgePattern (2 * (N : Int)) (2 * (N : Int) + 1) 2 3).flatMap triangleEntries

/-! ## The 32-bit `int` of the source -/

/-- Smallest value of the 32-bit `int` of the source. -/
def INT_MIN : Int := -2147483648

/-- Largest value of the 32-bit `int` of the source. -/
def INT_MAX : Int := 2147483647

/-- The value fits the 32-bit `int`; an `int` computation whose result does not fit is
undefined behaviour. -/
def fitsInt (v : Int) : Bool := decide (INT_MIN ≤ v ∧ v ≤ INT_MAX)

/-- The `int` values lines 753-770 compute when `currentVertex = cv` on entry: the
product `currentVertex * STRIDE`, the seven offsets and the incremented counter, for
the top and for the bottom vertex. -/
def perimeterInts (cv : Int) : List Int :=
  [ cv * STRIDE, cv * STRIDE + 0, cv * STRIDE + 1, cv * STRIDE + 2, cv * STRIDE + 3,
    cv * STRIDE + 4, cv * STRIDE + 5, cv * STRIDE + 6, cv + 1,
    (cv + 1) * STRIDE, (cv + 1) * STRIDE + 0, (cv + 1) * STRIDE + 1, (cv + 1) * STRIDE + 2,
    (cv + 1) * STRIDE + 3, (cv + 1) * STRIDE + 4, (cv + 1) * STRIDE + 5,
    (cv + 1) * STRIDE + 6, cv + 1 + 1 ]

/-- The `int` values the offsets and counter increments of four triangles compute when
`currentTriangle = ct` on entry (lines 776-797 and 806-827): the products
`3 * currentTriangle`, the twelve offsets and the four incremented counters. -/
def triangleInts (ct : Int) : List Int :=
  [ 3 * ct, 3 * ct + 0, 3 * ct + 1, 3 * ct + 2, ct + 1,
    3 * (ct + 1), 3 * (ct + 1) + 0, 3 * (ct + 1) + 1, 3 * (ct + 1) + 2, ct + 1 + 1,
    3 * (ct + 2), 3 * (ct + 2) + 0, 3 * (ct + 2) + 1, 3 * (ct + 2) + 2, ct + 2 + 1,
    3 * (ct + 3), 3 * (ct + 3) + 0, 3 * (ct + 3) + 1, 3 * (ct + 3) + 2, ct + 3 + 1 ]

/-- The `int` values lines 776-797 compute: those of `triangleInts` and the four index
values `currentVertex - 4 .. currentVertex - 1`. -/
def edgeInts (cv ct : Int) : List Int :=
  triangleInts ct ++ [cv - 4, cv - 3, cv - 2, cv - 1]

/-- The `int` values lines 806-827 compute: those of `triangleInts` and the two index
values `currentVertex - 2` and `currentVertex - 1`. -/
def closingInts (cv ct : Int) : List Int :=
  triangleInts ct ++ [cv - 2, cv - 1]

/-- One iteration of the loop of lines 747-801 in 32-bit `int`: the iteration of
`prismBody` when every `int` value it computes (the loop increment `edge + 1` included)
fits, and no result otherwise. -/
def prismBody32 {F : Type} (ops : FloatOps F) (numSides : Int) (radius halfLen : F)
    (st : PrismState F) (edge : Int) : Option (PrismState F) :=
  if (perimeterInts st.currentVertex ++
      (if edge > 0 then edgeInts (st.currentVertex + 2) st.currentTriangle else []) ++
      [edge + 1]).all fitsInt = true then
    some (prismBody ops numSides radius halfLen st edge)
  else none

/-- The loop `for (int edge = 0; edge < numSides; edge++)` in 32-bit `int`, run for `k`
iterations; once an iteration has no result, neither has the loop. -/
def prismLoop32 {F : Type} (ops : FloatOps F) (numSides : Int) (radius halfLen : F)
    (k : Nat) : Option (PrismState F) :=
  (List.range k).foldl
    (fun acc (e : Nat) =>
      acc.bind (fun st => prismBody32 ops numSides radius halfLen st (e : Int)))
    (some (prismInit ops halfLen))

/-- The procedure `UCreatePrismMesh` in 32-bit `int`: the stores and final counters of
the call, or no result when some `int` computation overflows. -/
def UCreatePrismMesh32 {F : Type} (ops : FloatOps F) (numSides : Int) (radius halfLen : F) :
    Option (PrismState F) :=
  (prismLoop32 ops numSides radius halfLen numSides.toNat).bind (fun st =>
    if (closingInts st.currentVertex st.currentTriangle).all fitsInt = true then
      some
        { st with
          istores := st.istores ++ closingStores st.currentVertex st.currentTriangle
          currentTriangle := st.currentTriangle + 4 }
    else none)

/-- The array `verts[]` after the call in 32-bit `int`, given its contents before. -/
def vertsAfter32 {F : Type} (ops : FloatOps F) (numSides : Int) (radius halfLen : F)
    (verts : Int → F) : Option (Int → F) :=
  (UCreatePrismMesh32 ops numSides radius halfLen).map (fun st => applyStores verts st.vstores)

/-- The array `indices[]` after the call in 32-bit `int`, given its contents before. -/
def indicesAfter32 {F : Type} (ops : FloatOps F) (numSides : Int) (radius halfLen : F)
    (indices : Int → Int) : Option (Int → Int) :=
  (UCreatePrismMesh32 ops numSides radius halfLen).map
    (fun st => applyStores indices st.istores)

/-- The call `UCreatePrismMesh(verts, indices, NUM_SIDES, 0.25f, 0.02f)` of
`UCreateCylinderMesh` in 32-bit `int`. -/
def cylinderPrism32 {F : Type} (ops : FloatOps F) : Option (PrismState F) :=
  UCreatePrismMesh32 ops NUM_SIDES (ops.lit (25 / 100)) (ops.lit (2 / 100))

/-- The inner loop of `flipImageVertically` in 32-bit `int`, run for `n` iterations: an
iteration of `swapRun` when the incremented offsets `++index1` and `++index2` fit. -/
def swapRun32 {α : Type} (image : Int → α) (index1 index2 : Int) : Nat → Option (Int → α)
  | 0 => some image
  | n + 1 =>
    if fitsInt (index1 + 1) = true ∧ fitsInt (index2 + 1) = true then
      let tmp := image index1
      let image1 : Int → α := fun p => if p = index1 then image index2 else image p
      let image2 : Int → α := fun p => if p = index2 then tmp else image1 p
      swapRun32 image2 (index1 + 1) (index2 + 1) n
    else none

/-- One iteration of the outer loop of `flipImageVertically` in 32-bit `int`, for row
`j`: the products and differences of lines 213, 214 and 216 and the loop increment
`j + 1` must fit, then the inner loop runs. -/
def flipRow32 {α : Type} (width height channels : Int) (image : Int → α) (j : Int) :
    Option (Int → α) :=
  if [ j * width, j * width * channels, height - 1, height - 1 - j,
      (height - 1 - j) * width, (height - 1 - j) * width * channels, width * channels,
      j + 1 ].all fitsInt = true then
    swapRun32 image (j * width * channels) ((height - 1 - j) * width * channels)
      (width * channels).toNat
  else none

/-- The procedure `flipImageVertically` in 32-bit `int`: the image after the call, or no
result when some `int` computation overflows. -/
def flipImageVertically32 {α : Type} (image : Int → α) (width height channels : Int) :
    Option (Int → α) :=
  (List.range (Int.tdiv height 2).toNat).foldl
    (fun acc (j : Nat) => acc.bind (fun img => flipRow32 width height channels img (j : Int)))
    (some image)

/-! ## Closed form of the loop of `UCreatePrismMesh` -/

theorem prismLoop_succ {F : Type} (ops : FloatOps F) (numSides : Int) (radius halfLen : F)
    (k : Nat) :
    prismLoop ops numSides radius halfLen (k + 1) =
      prismBody ops numSides radius halfLen (prismLoop ops numSides radius halfLen k) (k : Int) := by
  simp [prismLoop, List.range_succ, List.foldl_append]

theorem prismLoop_eq {F : Type} (ops : FloatOps F) (numSides : Int) (radius halfLen : F)
    (k : Nat) :
    prismLoop ops numSides radius halfLen k =
      { vstores := loopVerts ops numSides radius halfLen k
        istores := loopTris k
        currentVertex := 2 + 2 * (k : Int)
        currentTriangle := 4 * ((k - 1 : Nat) : Int) } := by
  induction k with
  | zero => simp [prismLoop, prismInit, loopVerts, loopTris]
  | succ k ih =>
    rw [prismLoop_succ, ih]
    rcases Nat.eq_zero_or_pos k with hk | hk
    · subst hk
      simp [prismBody, loopVerts, loopTris, List.range_succ]
    · have h1 : ((k : Int) > 0) := by omega
      have h2 : (2 : Int) + 2 * (k : Int) + 2 = 4 + 2 * (k : Int) := by omega
      have h3 : (4 : Int) * ((k - 1 : Nat) : Int) = 4 * ((k : Int) - 1) := by omega
      have h4 : (4 : Int) * ((k - 1 : Nat) : Int) + 4 = 4 * ((k + 1 - 1 : Nat) : Int) := by omega
      have h5 : k ≠ 0 := by omega
      simp only [prismBody, h1, if_true, h2, h3]
      simp only [loopVerts, loopTris, List.range_succ, List.flatMap_append, List.flatMap_singleton,
        h5, if_false, List.append_assoc, List.append_nil, List.flatMap_nil, List.flatMap_cons]
      simp only [PrismState.mk.injEq]
      refine ⟨trivial, trivial, ?_, ?_⟩
      · push_cast; omega
      · push_cast; omega

theorem loopVerts_succ {F : Type} (ops : FloatOps F) (numSides : Int) (radius halfLen : F)
    (k : Nat) :
    loopVerts ops numSides radius halfLen (k + 1) =
      loopVerts ops numSides radius halfLen k ++
        perimeterStores ops (thetaOf ops numSides (k : Int)) radius halfLen (2 + 2 * (k : Int)) := by
  simp [loopVerts, List.range_succ, List.flatMap_append]

theorem loopTris_succ (k : Nat) :
    loopTris (k + 1) =
      loopTris k ++ (if k = 0 then [] else edgeStores (4 + 2 * (k : Int)) (4 * ((k : Int) - 1))) := by
  simp [loopTris, List.range_succ, List.flatMap_append]

theorem offsetsUpTo_add (n m : Nat) :
    offsetsUpTo (n + m) = offsetsUpTo n ++ (List.range m).map (fun (i : Nat) => (n : Int) + (i : Int)) := by
  simp [offsetsUpTo, List.range_add, List.map_map, Function.comp_def]

theorem mem_offsetsUpTo (n : Nat) (p : Int) : p ∈ offsetsUpTo n ↔ 0 ≤ p ∧ p < (n : Int) := by
  simp only [offsetsUpTo, List.mem_map, List.mem_range]
  constructor
  · rintro ⟨i, hi, rfl⟩
    omega
  · rintro ⟨h0, h1⟩
    exact ⟨p.toNat, by omega, by omega⟩

theorem nodup_offsetsUpTo (n : Nat) : (offsetsUpTo n).Nodup := by
  unfold offsetsUpTo
  refine List.Nodup.map ?_ (List.nodup_range n)
  intro a b h
  exact Int.ofNat.inj h

theorem length_offsetsUpTo (n : Nat) : (offsetsUpTo n).length = n := by
  simp [offsetsUpTo]

theorem map_fst_loopVerts {F : Type} (ops : FloatOps F) (numSides : Int) (radius halfLen : F)
    (k : Nat) :
    (loopVerts ops numSides radius halfLen k).map Prod.fst = offsetsUpTo (14 + 14 * k) := by
  induction k with
  | zero => simp [loopVerts, centerStores, offsetsUpTo, List.range_succ]
  | succ k ih =>
    have e : 14 + 14 * (k + 1) = (14 + 14 * k) + 14 := by ring
    rw [loopVerts_succ, List.map_append, ih, e, offsetsUpTo_add (14 + 14 * k) 14]
    congr 1
    simp only [perimeterStores, STRIDE, List.map, List.range_succ, List.range_zero,
      List.nil_append, List.cons_append, List.cons.injEq, and_true]
    push_cast
    refine ⟨?_, ?_, ?_, ?_, ?_, ?_, ?_, ?_, ?_, ?_, ?_, ?_, ?_, ?_⟩ <;> omega

theorem map_fst_loopTris (k : Nat) :
    (loopTris k).map Prod.fst = offsetsUpTo (12 * (k - 1)) := by
  induction k with
  | zero => simp [loopTris, offsetsUpTo]
  | succ k ih =>
    rw [loopTris_succ, List.map_append, ih]
    rcases Nat.eq_zero_or_pos k with hk | hk
    · subst hk; simp
    · have h5 : k ≠ 0 := by omega
      have e : 12 * (k + 1 - 1) = 12 * (k - 1) + 12 := by omega
      rw [e, offsetsUpTo_add (12 * (k - 1)) 12]
      congr 1
      simp only [h5, if_false, edgeStores, List.map, List.range_succ, List.range_zero,
        List.nil_append, List.cons_append, List.cons.injEq, and_true]
      push_cast
      refine ⟨?_, ?_, ?_, ?_, ?_, ?_, ?_, ?_, ?_, ?_, ?_, ?_⟩ <;> omega

theorem UCreatePrismMesh_vstores {F : Type} (ops : FloatOps F) (N : Nat) (radius halfLen : F) :
    (UCreatePrismMesh ops (N : Int) radius halfLen).vstores =
      loopVerts ops (N : Int) radius halfLen N := by
  simp [UCreatePrismMesh, prismLoop_eq]

theorem UCreatePrismMesh_istores {F : Type} (ops : FloatOps F) (N : Nat) (radius halfLen : F) :
    (UCreatePrismMesh ops (N : Int) radius halfLen).istores =
      loopTris N ++ closingStores (2 + 2 * (N : Int)) (4 * ((N - 1 : Nat) : Int)) := by
  simp [UCreatePrismMesh, prismLoop_eq]

theorem vertexOffsets_eq {F : Type} (ops : FloatOps F) (N : Nat) (radius halfLen : F) :
    vertexOffsets ops (N : Int) radius halfLen = offsetsUpTo (7 * (2 + 2 * N)) := by
  have e : 7 * (2 + 2 * N) = 14 + 14 * N := by ring
  rw [vertexOffsets, UCreatePrismMesh_vstores, map_fst_loopVerts, e]

theorem indexOffsets_eq {F : Type} (ops : FloatOps F) (N : Nat) (radius halfLen : F)
    (hN : 1 ≤ N) :
    indexOffsets ops (N : Int) radius halfLen = offsetsUpTo (12 * N) := by
  have e : 12 * N = 12 * (N - 1) + 12 := by omega
  rw [indexOffsets, UCreatePrismMesh_istores, List.map_append, map_fst_loopTris, e,
    offsetsUpTo_add (12 * (N - 1)) 12]
  congr 1
  simp only [closingStores, List.map, List.range_succ, List.range_zero,
    List.nil_append, List.cons_append, List.cons.injEq, and_true]
  push_cast
  refine ⟨?_, ?_, ?_, ?_, ?_, ?_, ?_, ?_, ?_, ?_, ?_, ?_⟩ <;> omega

/-! ## Replaying stores -/

theorem applyStores_not_mem {α : Type} (l : List (Int × α)) (buf : Int → α) (p : Int)
    (hp : p ∉ l.map Prod.fst) : applyStores buf l p = buf p := by
  induction l generalizing buf with
  | nil => rfl
  | cons x rest ih =>
    obtain ⟨q, w⟩ := x
    simp only [List.map_cons, List.mem_cons, not_or] at hp
    rw [applyStores, ih _ hp.2]
    simp [hp.1]

theorem applyStores_mem {α : Type} (l : List (Int × α)) (buf : Int → α) (p : Int) (v : α)
    (hnd : (l.map Prod.fst).Nodup) (hm : (p, v) ∈ l) : applyStores buf l p = v := by
  induction l generalizing buf with
  | nil => simp at hm
  | cons x rest ih =>
    obtain ⟨q, w⟩ := x
    simp only [List.map_cons, List.nodup_cons] at hnd
    rw [applyStores]
    rcases List.mem_cons.mp hm with h | h
    · obtain ⟨rfl, rfl⟩ := Prod.mk.inj h
      rw [applyStores_not_mem _ _ _ hnd.1]
      simp
    · exact ih _ hnd.2 h

/-- Two arrays replayed with the same stores agree on every offset stored to. -/
theorem applyStores_agree {α : Type} (l : List (Int × α)) (b1 b2 : Int → α) (p : Int)
    (hp : p ∈ l.map Prod.fst) : applyStores b1 l p = applyStores b2 l p := by
  induction l generalizing b1 b2 with
  | nil => simp at hp
  | cons x rest ih =>
    obtain ⟨q, w⟩ := x
    rw [applyStores, applyStores]
    by_cases hr : p ∈ rest.map Prod.fst
    · exact ih _ _ hr
    · rw [applyStores_not_mem _ _ _ hr, applyStores_not_mem _ _ _ hr]
      have : p = q := by
        simp only [List.map_cons, List.mem_cons] at hp
        rcases hp with h | h
        · exact h
        · exact absurd h hr
      simp [this]

theorem at_eq {α : Type} {buf : Int → α} {p q : Int} {v w : α} (h : buf q = w) (hp : p = q)
    (hv : v = w) : buf p = v := by
  rw [hp, hv]; exact h

theorem nodup_vertexOffsets {F : Type} (ops : FloatOps F) (N : Nat) (radius halfLen : F) :
    ((UCreatePrismMesh ops (N : Int) radius halfLen).vstores.map Prod.fst).Nodup := by
  have h := vertexOffsets_eq ops N radius halfLen
  rw [vertexOffsets] at h
  rw [h]; exact nodup_offsetsUpTo _

theorem nodup_indexOffsets {F : Type} (ops : FloatOps F) (N : Nat) (radius halfLen : F)
    (hN : 1 ≤ N) :
    ((UCreatePrismMesh ops (N : Int) radius halfLen).istores.map Prod.fst).Nodup := by
  have h := indexOffsets_eq ops N radius halfLen hN
  rw [indexOffsets] at h
  rw [h]; exact nodup_offsetsUpTo _

theorem perimeterStores_subset {F : Type} (ops : FloatOps F) (numSides : Int)
    (radius halfLen : F) (k e : Nat) (he : e < k) (x : Int × F)
    (hx : x ∈ perimeterStores ops (thetaOf ops numSides (e : Int)) radius halfLen
      (2 + 2 * (e : Int))) :
    x ∈ loopVerts ops numSides radius halfLen k := by
  unfold loopVerts
  exact List.mem_append_right _ (List.mem_flatMap.mpr ⟨e, List.mem_range.mpr he, hx⟩)

theorem edgeStores_subset (k e : Nat) (he1 : 1 ≤ e) (he : e < k) (x : Int × Int)
    (hx : x ∈ edgeStores (4 + 2 * (e : Int)) (4 * ((e : Int) - 1))) : x ∈ loopTris k := by
  unfold loopTris
  refine List.mem_flatMap.mpr ⟨e, List.mem_range.mpr he, ?_⟩
  have : e ≠ 0 := by omega
  simpa [this] using hx

theorem vertsAfter_center {F : Type} (ops : FloatOps F) (N : Nat) (radius halfLen : F)
    (verts : Int → F) (x : Int × F) (hx : x ∈ centerStores ops halfLen) :
    vertsAfter ops (N : Int) radius halfLen verts x.1 = x.2 := by
  refine applyStores_mem _ _ _ _ (nodup_vertexOffsets ops N radius halfLen) ?_
  rw [UCreatePrismMesh_vstores]
  exact List.mem_append_left _ hx

theorem vertsAfter_perimeter {F : Type} (ops : FloatOps F) (N : Nat) (radius halfLen : F)
    (verts : Int → F) (e : Nat) (he : e < N) (x : Int × F)
    (hx : x ∈ perimeterStores ops (thetaOf ops (N : Int) (e : Int)) radius halfLen
      (2 + 2 * (e : Int))) :
    vertsAfter ops (N : Int) radius halfLen verts x.1 = x.2 := by
  refine applyStores_mem _ _ _ _ (nodup_vertexOffsets ops N radius halfLen) ?_
  rw [UCreatePrismMesh_vstores]
  exact perimeterStores_subset ops _ radius halfLen N e he x hx

theorem indicesAfter_edge {F : Type} (ops : FloatOps F) (N : Nat) (radius halfLen : F)
    (indices : Int → Int) (e : Nat) (he1 : 1 ≤ e) (he : e < N) (x : Int × Int)
    (hx : x ∈ edgeStores (4 + 2 * (e : Int)) (4 * ((e : Int) - 1))) :
    indicesAfter ops (N : Int) radius halfLen indices x.1 = x.2 := by
  refine applyStores_mem _ _ _ _ (nodup_indexOffsets ops N radius halfLen (by omega)) ?_
  rw [UCreatePrismMesh_istores]
  exact List.mem_append_left _ (edgeStores_subset N e he1 he x hx)

theorem indicesAfter_closing {F : Type} (ops : FloatOps F) (N : Nat) (radius halfLen : F)
    (indices : Int → Int) (hN : 1 ≤ N) (x : Int × Int)
    (hx : x ∈ closingStores (2 + 2 * (N : Int)) (4 * ((N : Int) - 1))) :
    indicesAfter ops (N : Int) radius halfLen indices x.1 = x.2 := by
  refine applyStores_mem _ _ _ _ (nodup_indexOffsets ops N radius halfLen hN) ?_
  rw [UCreatePrismMesh_istores]
  have e : ((N - 1 : Nat) : Int) = (N : Int) - 1 := by omega
  rw [e]
  exact List.mem_append_right _ hx

/-! ## Properties of `UCreatePrismMesh` -/

theorem applyStores_mem_values {α : Type} (l : List (Int × α)) (buf : Int → α) (p : Int)
    (hp : p ∈ l.map Prod.fst) : ∃ x ∈ l, applyStores buf l p = x.2 := by
  induction l generalizing buf with
  | nil => simp at hp
  | cons x rest ih =>
    obtain ⟨q, w⟩ := x
    rw [applyStores]
    by_cases hr : p ∈ rest.map Prod.fst
    · obtain ⟨y, hy, e⟩ := ih _ hr
      exact ⟨y, List.mem_cons_of_mem _ hy, e⟩
    · refine ⟨(q, w), List.mem_cons_self _ _, ?_⟩
      rw [applyStores_not_mem _ _ _ hr]
      have : p = q := by
        simp only [List.map_cons, List.mem_cons] at hp
        rcases hp with h | h
        · exact h
        · exact absurd h hr
      simp [this]

/-- In unbounded integers the call stores to the offsets `0 .. 7*(2+2*numSides)-1` of
`verts[]` and to the offsets `0 .. 12*numSides-1` of `indices[]`, each exactly once and
to no other offset. -/
theorem unbounded_store_extent {F : Type} (ops : FloatOps F) (N : Nat)
    (radius halfLen : F) (hN : 3 ≤ N) :
    vertexOffsets ops (N : Int) radius halfLen = offsetsUpTo (7 * (2 + 2 * N)) ∧
    (∀ p : Int, p ∈ vertexOffsets ops (N : Int) radius halfLen ↔
      0 ≤ p ∧ p < 7 * (2 + 2 * (N : Int))) ∧
    (vertexOffsets ops (N : Int) radius halfLen).Nodup ∧
    indexOffsets ops (N : Int) radius halfLen = offsetsUpTo (12 * N) ∧
    (∀ p : Int, p ∈ indexOffsets ops (N : Int) radius halfLen ↔ 0 ≤ p ∧ p < 12 * (N : Int)) ∧
    (indexOffsets ops (N : Int) radius halfLen).Nodup ∧
    (vertexOffsets ops 4 radius halfLen).length = 7 * 10 ∧
    (indexOffsets ops 4 radius halfLen).length = 48 ∧
    NUM_VERTICES = 1414 ∧ NUM_INDICES = 1200 ∧
    (∀ p ∈ (cylinderPrism ops).vstores.map Prod.fst, 0 ≤ p ∧ p < NUM_VERTICES) ∧
    (∀ p ∈ (cylinderPrism ops).istores.map Prod.fst, 0 ≤ p ∧ p < NUM_INDICES) := by
  have hv := vertexOffsets_eq ops N radius halfLen
  have hi := indexOffsets_eq ops N radius halfLen (by omega)
  have hv4 := vertexOffsets_eq ops 4 radius halfLen
  have hi4 := indexOffsets_eq ops 4 radius halfLen (by omega)
  have hvc := vertexOffsets_eq ops 100 (ops.lit (25 / 100)) (ops.lit (2 / 100))
  have hic := indexOffsets_eq ops 100 (ops.lit (25 / 100)) (ops.lit (2 / 100)) (by omega)
  refine ⟨hv, ?_, ?_, hi, ?_, ?_, ?_, ?_, by decide, by decide, ?_, ?_⟩
  · intro p
    rw [hv, mem_offsetsUpTo]
    push_cast
    exact Iff.rfl
  · rw [hv]; exact nodup_offsetsUpTo _
  · intro p
    rw [hi, mem_offsetsUpTo]
    push_cast
    exact Iff.rfl
  · rw [hi]; exact nodup_offsetsUpTo _
  · have h := hv4
    simp only [Nat.cast_ofNat] at h
    rw [h, length_offsetsUpTo]
  · have h := hi4
    simp only [Nat.cast_ofNat] at h
    rw [h, length_offsetsUpTo]
  · intro p hp
    have h : (cylinderPrism ops).vstores.map Prod.fst = offsetsUpTo (7 * (2 + 2 * 100)) := hvc
    rw [h, mem_offsetsUpTo] at hp
    have : NUM_VERTICES = 1414 := by decide
    omega
  · intro p hp
    have h : (cylinderPrism ops).istores.map Prod.fst = offsetsUpTo (12 * 100) := hic
    rw [h, mem_offsetsUpTo] at hp
    have : NUM_INDICES = 1200 := by decide
    omega

/-- In unbounded integers vertex 0 is stored at `(0, +halfLen, 0)`, vertex 1 at
`(0, -halfLen, 0)`, and for every edge `e < numSides`, with
`theta = (float)e * (TWO_PI / numSides)`, vertex `2+2e` at
`(radius*cos(theta), +halfLen, radius*sin(theta))` and vertex `3+2e` at
`(radius*cos(theta), -halfLen, radius*sin(theta))`; with four sides, radius 1 and half
length 1, and the float facts `ZeroAngleFacts`, vertex 0 is `(0,1,0)`, vertex 2 is
`(1,1,0)` and vertex 3 is `(1,-1,0)`. -/
theorem unbounded_vertex_positions {F : Type} (ops : FloatOps F) (N : Nat)
    (radius halfLen : F) (verts : Int → F) :
    vertexPos (vertsAfter ops (N : Int) radius halfLen verts) 0 =
      (ops.lit 0, halfLen, ops.lit 0) ∧
    vertexPos (vertsAfter ops (N : Int) radius halfLen verts) 1 =
      (ops.lit 0, ops.neg halfLen, ops.lit 0) ∧
    (∀ e : Nat, e < N →
      thetaOf ops (N : Int) (e : Int) =
        ops.mul (ops.ofInt (e : Int))
          (ops.div (ops.mul (ops.lit 2) (ops.lit (31415926 / 10000000))) (ops.ofInt (N : Int))) ∧
      vertexPos (vertsAfter ops (N : Int) radius halfLen verts) (2 + 2 * (e : Int)) =
        (ops.mul radius (ops.cos (thetaOf ops (N : Int) (e : Int))), halfLen,
          ops.mul radius (ops.sin (thetaOf ops (N : Int) (e : Int)))) ∧
      vertexPos (vertsAfter ops (N : Int) radius halfLen verts) (3 + 2 * (e : Int)) =
        (ops.mul radius (ops.cos (thetaOf ops (N : Int) (e : Int))), ops.neg halfLen,
          ops.mul radius (ops.sin (thetaOf ops (N : Int) (e : Int))))) ∧
    (ZeroAngleFacts ops →
      vertexPos (vertsAfter ops 4 (ops.lit 1) (ops.lit 1) verts) 0 =
        (ops.lit 0, ops.lit 1, ops.lit 0) ∧
      vertexPos (vertsAfter ops 4 (ops.lit 1) (ops.lit 1) verts) 2 =
        (ops.lit 1, ops.lit 1, ops.lit 0) ∧
      vertexPos (vertsAfter ops 4 (ops.lit 1) (ops.lit 1) verts) 3 =
        (ops.lit 1, ops.neg (ops.lit 1), ops.lit 0)) := by
  have center : ∀ (M : Nat) (r h : F),
      vertexPos (vertsAfter ops (M : Int) r h verts) 0 = (ops.lit 0, h, ops.lit 0) ∧
      vertexPos (vertsAfter ops (M : Int) r h verts) 1 = (ops.lit 0, ops.neg h, ops.lit 0) := by
    intro M r h
    have key := vertsAfter_center ops M r h verts
    simp only [centerStores, List.forall_mem_cons] at key
    obtain ⟨k0, k1, k2, -, -, -, -, k7, k8, k9, -⟩ := key
    simp only [vertexPos, STRIDE, Prod.mk.injEq]
    exact ⟨⟨at_eq k0 (by norm_num) rfl, at_eq k1 (by norm_num) rfl, at_eq k2 (by norm_num) rfl⟩,
      ⟨at_eq k7 (by norm_num) rfl, at_eq k8 (by norm_num) rfl, at_eq k9 (by norm_num) rfl⟩⟩
  have perim : ∀ (M : Nat) (r h : F) (e : Nat), e < M →
      vertexPos (vertsAfter ops (M : Int) r h verts) (2 + 2 * (e : Int)) =
        (ops.mul r (ops.cos (thetaOf ops (M : Int) (e : Int))), h,
          ops.mul r (ops.sin (thetaOf ops (M : Int) (e : Int)))) ∧
      vertexPos (vertsAfter ops (M : Int) r h verts) (3 + 2 * (e : Int)) =
        (ops.mul r (ops.cos (thetaOf ops (M : Int) (e : Int))), ops.neg h,
          ops.mul r (ops.sin (thetaOf ops (M : Int) (e : Int)))) := by
    intro M r h e he
    have key := vertsAfter_perimeter ops M r h verts e he
    simp only [perimeterStores, List.forall_mem_cons] at key
    obtain ⟨k0, k1, k2, -, -, -, -, k7, k8, k9, -⟩ := key
    simp only [vertexPos, Prod.mk.injEq]
    have e3 : (3 : Int) + 2 * (e : Int) = 2 + 2 * (e : Int) + 1 := by omega
    rw [e3]
    exact ⟨⟨k0, k1, k2⟩, ⟨k7, k8, k9⟩⟩
  refine ⟨(center N radius halfLen).1, (center N radius halfLen).2, ?_, ?_⟩
  · intro e he
    exact ⟨rfl, perim N radius halfLen e he⟩
  · rintro ⟨h0, hcos, hsin, h11, h10⟩
    have c4 := (center 4 (ops.lit 1) (ops.lit 1)).1
    have p4 := perim 4 (ops.lit 1) (ops.lit 1) 0 (by decide)
    have ht : thetaOf ops ((4 : Nat) : Int) ((0 : Nat) : Int) = ops.lit 0 := h0
    rw [ht, hcos, hsin, h11, h10] at p4
    exact ⟨c4, p4.1, p4.2⟩

theorem closing_triangles {F : Type} (ops : FloatOps F) (N : Nat) (radius halfLen : F)
    (indices : Int → Int) (hN : 1 ≤ N) :
    triangleAt (indicesAfter ops (N : Int) radius halfLen indices) (4 * ((N : Int) - 1)) =
      (0, toGLushort (2 * (N : Int)), 2) ∧
    triangleAt (indicesAfter ops (N : Int) radius halfLen indices) (4 * ((N : Int) - 1) + 1) =
      (1, toGLushort (2 * (N : Int) + 1), 3) ∧
    triangleAt (indicesAfter ops (N : Int) radius halfLen indices) (4 * ((N : Int) - 1) + 2) =
      (toGLushort (2 * (N : Int)), toGLushort (2 * (N : Int) + 1), 3) ∧
    triangleAt (indicesAfter ops (N : Int) radius halfLen indices) (4 * ((N : Int) - 1) + 3) =
      (3, 2, toGLushort (2 * (N : Int))) := by
  have key := indicesAfter_closing ops N radius halfLen indices hN
  simp only [closingStores, List.forall_mem_cons] at key
  obtain ⟨k0, k1, k2, k3, k4, k5, k6, k7, k8, k9, k10, k11, -⟩ := key
  have a : (2 : Int) + 2 * (N : Int) - 2 = 2 * (N : Int) := by omega
  have b : (2 : Int) + 2 * (N : Int) - 1 = 2 * (N : Int) + 1 := by omega
  rw [a] at k1 k6 k11
  rw [b] at k4 k7
  simp only [triangleAt, Prod.mk.injEq]
  exact ⟨⟨at_eq k0 rfl rfl, k1, at_eq k2 rfl rfl⟩, ⟨at_eq k3 rfl rfl, k4, at_eq k5 rfl rfl⟩,
    ⟨k6, k7, at_eq k8 rfl rfl⟩, ⟨at_eq k9 rfl rfl, at_eq k10 rfl rfl, k11⟩⟩

theorem edge_triangles {F : Type} (ops : FloatOps F) (N : Nat) (radius halfLen : F)
    (indices : Int → Int) (e : Nat) (he1 : 1 ≤ e) (he : e < N) :
    triangleAt (indicesAfter ops (N : Int) radius halfLen indices) (4 * ((e : Int) - 1)) =
      (0, toGLushort (2 * (e : Int)), toGLushort (2 * (e : Int) + 2)) ∧
    triangleAt (indicesAfter ops (N : Int) radius halfLen indices) (4 * ((e : Int) - 1) + 1) =
      (1, toGLushort (2 * (e : Int) + 1), toGLushort (2 * (e : Int) + 3)) ∧
    triangleAt (indicesAfter ops (N : Int) radius halfLen indices) (4 * ((e : Int) - 1) + 2) =
      (toGLushort (2 * (e : Int)), toGLushort (2 * (e : Int) + 1),
        toGLushort (2 * (e : Int) + 3)) ∧
    triangleAt (indicesAfter ops (N : Int) radius halfLen indices) (4 * ((e : Int) - 1) + 3) =
      (toGLushort (2 * (e : Int) + 3), toGLushort (2 * (e : Int) + 2),
        toGLushort (2 * (e : Int))) := by
  have key := indicesAfter_edge ops N radius halfLen indices e he1 he
  simp only [edgeStores, List.forall_mem_cons] at key
  obtain ⟨k0, k1, k2, k3, k4, k5, k6, k7, k8, k9, k10, k11, -⟩ := key
  have a : (4 : Int) + 2 * (e : Int) - 4 = 2 * (e : Int) := by omega
  have b : (4 : Int) + 2 * (e : Int) - 3 = 2 * (e : Int) + 1 := by omega
  have c : (4 : Int) + 2 * (e : Int) - 2 = 2 * (e : Int) + 2 := by omega
  have d : (4 : Int) + 2 * (e : Int) - 1 = 2 * (e : Int) + 3 := by omega
  rw [a] at k1 k6 k11
  rw [b] at k4 k7
  rw [c] at k2 k10
  rw [d] at k5 k8 k9
  simp only [triangleAt, Prod.mk.injEq]
  exact ⟨⟨at_eq k0 rfl rfl, k1, k2⟩, ⟨at_eq k3 rfl rfl, k4, k5⟩, ⟨k6, k7, k8⟩, ⟨k9, k10, k11⟩⟩

theorem toGLushort_small (v : Int) (h0 : 0 ≤ v) (h1 : v < 65536) : toGLushort v = v := by
  unfold toGLushort; omega

/-- C4, as amended: for `2 <= numSides <= 32767` the last four triangles stored are
`(0, 2N, 2)`, `(1, 2N+1, 3)`, `(2N, 2N+1, 3)`, `(3, 2, 2N)`; the closing code and the
interior-edge code store the same pattern `edgePattern`, the closing code with the
current pair replaced by `(2, 3)`. -/
theorem UCreatePrismMesh_closing_triangles {F : Type} (ops : FloatOps F) (N : Nat)
    (radius halfLen : F) (indices : Int → Int) (hN : 2 ≤ N) (hmax : N ≤ 32767) :
    (List.range 4).map (fun (i : Nat) =>
        triangleAt (indicesAfter ops (N : Int) radius halfLen indices)
          (4 * ((N : Int) - 1) + (i : Int))) =
      [(0, 2 * (N : Int), 2), (1, 2 * (N : Int) + 1, 3),
        (2 * (N : Int), 2 * (N : Int) + 1, 3), (3, 2, 2 * (N : Int))] ∧
    edgePattern (2 * (N : Int)) (2 * (N : Int) + 1) 2 3 =
      [(0, 2 * (N : Int), 2), (1, 2 * (N : Int) + 1, 3),
        (2 * (N : Int), 2 * (N : Int) + 1, 3), (3, 2, 2 * (N : Int))] ∧
    (∀ cv ct : Int, (edgeStores cv ct).map Prod.snd =
      ((edgePattern (cv - 4) (cv - 3) (cv - 2) (cv - 1)).flatMap
        (fun t => [t.1, t.2.1, t.2.2])).map toGLushort) ∧
    (∀ cv ct : Int, (closingStores cv ct).map Prod.snd =
      ((edgePattern (cv - 2) (cv - 1) 2 3).flatMap
        (fun t => [t.1, t.2.1, t.2.2])).map toGLushort) := by
  obtain ⟨t0, t1, t2, t3⟩ := closing_triangles ops N radius halfLen indices (by omega)
  have a : toGLushort (2 * (N : Int)) = 2 * (N : Int) :=
    toGLushort_small _ (by omega) (by omega)
  have b : toGLushort (2 * (N : Int) + 1) = 2 * (N : Int) + 1 :=
    toGLushort_small _ (by omega) (by omega)
  rw [a] at t0 t2 t3
  rw [b] at t1 t2
  refine ⟨?_, rfl, fun _ _ => rfl, fun _ _ => rfl⟩
  simp only [List.range_succ, List.range_zero, List.nil_append, List.cons_append, List.map,
    Nat.cast_zero, Nat.cast_one, Nat.cast_ofNat, add_zero]
  rw [t0, t1, t2, t3]

/-- Witness of C4 (amended) with four sides. -/
theorem UCreatePrismMesh_closing_triangles_witness :
    2 ≤ 4 ∧ 4 ≤ 32767 ∧
      (List.range 4).map (fun (i : Nat) =>
        triangleAt (indicesAfter ratOps 4 1 1 (fun _ => 0)) (4 * (4 - 1) + (i : Int))) =
      [(0, 8, 2), (1, 9, 3), (8, 9, 3), (3, 2, 8)] :=
  ⟨by decide, by decide,
    (UCreatePrismMesh_closing_triangles ratOps 4 1 1 (fun _ => 0) (by decide) (by decide)).1⟩

/-- C4 as stated fails with 32768 sides: the first closing triangle is stored as
`(0, 0, 2)`, not `(0, 65536, 2)`, because the index array holds 16-bit values. -/
theorem UCreatePrismMesh_closing_triangles_counterexample :
    triangleAt (indicesAfter ratOps 32768 1 1 (fun _ => 0)) (4 * (32768 - 1)) = (0, 0, 2) ∧
      triangleAt (indicesAfter ratOps 32768 1 1 (fun _ => 0)) (4 * (32768 - 1)) ≠
        (0, 2 * 32768, 2) := by
  have h := (closing_triangles ratOps 32768 1 1 (fun _ => 0) (by decide)).1
  have e : toGLushort (2 * ((32768 : Nat) : Int)) = 0 := by decide
  rw [e] at h
  have h2 : triangleAt (indicesAfter ratOps 32768 1 1 (fun _ => 0)) (4 * (32768 - 1)) =
      (0, 0, 2) := h
  refine ⟨h2, ?_⟩
  rw [h2]
  decide

theorem cap_shape (N ctr p q : Int) (hc : ctr = 0 ∨ ctr = 1) (hp : 2 ≤ p) (hq : 2 ≤ q)
    (hpc : p % 2 = ctr) (hqc : q % 2 = ctr) :
    CapTriangle (ctr, p, q) ∧ ¬ SideTriangle N (ctr, p, q) := by
  refine ⟨Or.inl ⟨hc, hp, hq, hpc, hqc⟩, ?_⟩
  intro h
  have := h.1
  simp only at this
  omega

theorem side_shape (N e a b c : Int) (he0 : 0 ≤ e) (heN : e < N)
    (ha : InPair e a ∨ InPair ((e + 1) % N) a) (hb : InPair e b ∨ InPair ((e + 1) % N) b)
    (hc : InPair e c ∨ InPair ((e + 1) % N) c) (hab : a ≠ b) (hac : a ≠ c) (hbc : b ≠ c) :
    SideTriangle N (a, b, c) ∧ ¬ CapTriangle (a, b, c) := by
  have hm : 0 ≤ (e + 1) % N := Int.emod_nonneg _ (by omega)
  have h2 : ∀ v, InPair e v ∨ InPair ((e + 1) % N) v → 2 ≤ v := by
    intro v hv
    simp only [InPair] at hv
    omega
  have a2 := h2 a ha
  have b2 := h2 b hb
  have c2 := h2 c hc
  refine ⟨⟨a2, b2, c2, hab, hac, hbc, e, he0, heN, ha, hb, hc⟩, ?_⟩
  intro h
  simp only [CapTriangle, CapAt] at h
  omega

/-- C6, as amended: for `3 <= numSides <= 32767` every triangle stored is either a cap
triangle (one cap centre and two perimeter indices on that centre's cap) or a side
triangle (no cap centre, three distinct perimeter indices from two adjacent perimeter
pairs), and never both. -/
theorem UCreatePrismMesh_triangle_shapes {F : Type} (ops : FloatOps F) (N : Nat)
    (radius halfLen : F) (indices : Int → Int) (hN : 3 ≤ N) (hmax : N ≤ 32767)
    (t : Nat) (ht : t < 4 * N) :
    (CapTriangle (triangleAt (indicesAfter ops (N : Int) radius halfLen indices) (t : Int)) ∧
      ¬ SideTriangle (N : Int)
        (triangleAt (indicesAfter ops (N : Int) radius halfLen indices) (t : Int))) ∨
    (SideTriangle (N : Int)
        (triangleAt (indicesAfter ops (N : Int) radius halfLen indices) (t : Int)) ∧
      ¬ CapTriangle (triangleAt (indicesAfter ops (N : Int) radius halfLen indices) (t : Int))) := by
  have small : ∀ v : Int, 0 ≤ v → v ≤ 2 * (N : Int) + 1 → toGLushort v = v :=
    fun v h0 h1 => toGLushort_small v h0 (by omega)
  by_cases h : t / 4 + 1 < N
  · -- an interior edge `e = t / 4 + 1`
    obtain ⟨e, hedef⟩ : ∃ e : Nat, e = t / 4 + 1 := ⟨_, rfl⟩
    obtain ⟨t0, t1, t2, t3⟩ :=
      edge_triangles ops N radius halfLen indices e (by omega) (by omega)
    rw [small _ (by omega) (by omega), small _ (by omega) (by omega)] at t0
    rw [small _ (by omega) (by omega), small _ (by omega) (by omega)] at t1
    rw [small _ (by omega) (by omega), small _ (by omega) (by omega),
      small _ (by omega) (by omega)] at t2
    rw [small _ (by omega) (by omega), small _ (by omega) (by omega),
      small _ (by omega) (by omega)] at t3
    have hnext : ((e : Int) - 1 + 1) % (N : Int) = (e : Int) := by
      rw [Int.emod_eq_of_lt] <;> omega
    have hside : ∀ a b c : Int,
        (InPair ((e : Int) - 1) a ∨ InPair (e : Int) a) →
        (InPair ((e : Int) - 1) b ∨ InPair (e : Int) b) →
        (InPair ((e : Int) - 1) c ∨ InPair (e : Int) c) → a ≠ b → a ≠ c → b ≠ c →
        SideTriangle (N : Int) (a, b, c) ∧ ¬ CapTriangle (a, b, c) := by
      intro a b c ha hb hc
      have conv : ∀ v : Int, (InPair ((e : Int) - 1) v ∨ InPair (e : Int) v) →
          (InPair ((e : Int) - 1) v ∨ InPair (((e : Int) - 1 + 1) % (N : Int)) v) := by
        intro v hv
        rw [hnext]
        exact hv
      exact side_shape (N : Int) ((e : Int) - 1) a b c (by omega) (by omega)
        (conv a ha) (conv b hb) (conv c hc)
    have hi : (t : Int) = 4 * ((e : Int) - 1) ∨ (t : Int) = 4 * ((e : Int) - 1) + 1 ∨
        (t : Int) = 4 * ((e : Int) - 1) + 2 ∨ (t : Int) = 4 * ((e : Int) - 1) + 3 := by
      omega
    rcases hi with hi | hi | hi | hi <;> rw [hi]
    · rw [t0]
      exact Or.inl (cap_shape _ 0 _ _ (Or.inl rfl) (by omega) (by omega) (by omega) (by omega))
    · rw [t1]
      exact Or.inl (cap_shape _ 1 _ _ (Or.inr rfl) (by omega) (by omega) (by omega) (by omega))
    · rw [t2]
      refine Or.inr (hside _ _ _ (Or.inl (Or.inl (by omega))) (Or.inl (Or.inr (by omega)))
        (Or.inr (Or.inr (by omega))) (by omega) (by omega) (by omega))
    · rw [t3]
      refine Or.inr (hside _ _ _ (Or.inr (Or.inr (by omega))) (Or.inr (Or.inl (by omega)))
        (Or.inl (Or.inl (by omega))) (by omega) (by omega) (by omega))
  · -- the closing side
    obtain ⟨t0, t1, t2, t3⟩ := closing_triangles ops N radius halfLen indices (by omega)
    rw [small _ (by omega) (by omega)] at t0 t3
    rw [small _ (by omega) (by omega)] at t1
    rw [small _ (by omega) (by omega), small _ (by omega) (by omega)] at t2
    have hnext : ((N : Int) - 1 + 1) % (N : Int) = 0 := by
      have : (N : Int) - 1 + 1 = (N : Int) := by omega
      rw [this, Int.emod_self]
    have hside : ∀ a b c : Int,
        (InPair ((N : Int) - 1) a ∨ InPair 0 a) →
        (InPair ((N : Int) - 1) b ∨ InPair 0 b) →
        (InPair ((N : Int) - 1) c ∨ InPair 0 c) → a ≠ b → a ≠ c → b ≠ c →
        SideTriangle (N : Int) (a, b, c) ∧ ¬ CapTriangle (a, b, c) := by
      intro a b c ha hb hc
      have conv : ∀ v : Int, (InPair ((N : Int) - 1) v ∨ InPair 0 v) →
          (InPair ((N : Int) - 1) v ∨ InPair (((N : Int) - 1 + 1) % (N : Int)) v) := by
        intro v hv
        rw [hnext]
        exact hv
      exact side_shape (N : Int) ((N : Int) - 1) a b c (by omega) (by omega)
        (conv a ha) (conv b hb) (conv c hc)
    have hi : (t : Int) = 4 * ((N : Int) - 1) ∨ (t : Int) = 4 * ((N : Int) - 1) + 1 ∨
        (t : Int) = 4 * ((N : Int) - 1) + 2 ∨ (t : Int) = 4 * ((N : Int) - 1) + 3 := by
      omega
    rcases hi with hi | hi | hi | hi <;> rw [hi]
    · rw [t0]
      exact Or.inl (cap_shape _ 0 _ _ (Or.inl rfl) (by omega) (by omega) (by omega) (by omega))
    · rw [t1]
      exact Or.inl (cap_shape _ 1 _ _ (Or.inr rfl) (by omega) (by omega) (by omega) (by omega))
    · rw [t2]
      refine Or.inr (hside _ _ _ (Or.inl (Or.inl (by omega))) (Or.inl (Or.inr (by omega)))
        (Or.inr (Or.inr (by omega))) (by omega) (by omega) (by omega))
    · rw [t3]
      refine Or.inr (hside _ _ _ (Or.inr (Or.inr (by omega))) (Or.inr (Or.inl (by omega)))
        (Or.inl (Or.inl (by omega))) (by omega) (by omega) (by omega))

/-- Witness of C6 (amended): triangle 5 of a prism with four sides. -/
theorem UCreatePrismMesh_triangle_shapes_witness :
    3 ≤ 4 ∧ 4 ≤ 32767 ∧ 5 < 4 * 4 ∧
      ((CapTriangle (triangleAt (indicesAfter ratOps 4 1 1 (fun _ => 0)) 5) ∧
        ¬ SideTriangle 4 (triangleAt (indicesAfter ratOps 4 1 1 (fun _ => 0)) 5)) ∨
      (SideTriangle 4 (triangleAt (indicesAfter ratOps 4 1 1 (fun _ => 0)) 5) ∧
        ¬ CapTriangle (triangleAt (indicesAfter ratOps 4 1 1 (fun _ => 0)) 5))) :=
  ⟨by decide, by decide, by decide,
    UCreatePrismMesh_triangle_shapes ratOps 4 1 1 (fun _ => 0) (by decide) (by decide) 5
      (by decide)⟩

/-- C6 as stated fails with 32768 sides: the first closing triangle is stored as
`(0, 0, 2)`, which has two cap-centre entries and is of neither shape. -/
theorem UCreatePrismMesh_triangle_shapes_counterexample :
    triangleAt (indicesAfter ratOps 32768 1 1 (fun _ => 0)) 131068 = (0, 0, 2) ∧
      ¬ CapTriangle (triangleAt (indicesAfter ratOps 32768 1 1 (fun _ => 0)) 131068) ∧
      ¬ SideTriangle 32768 (triangleAt (indicesAfter ratOps 32768 1 1 (fun _ => 0)) 131068) := by
  have h := (closing_triangles ratOps 32768 1 1 (fun _ => 0) (by decide)).1
  have e : toGLushort (2 * ((32768 : Nat) : Int)) = 0 := by decide
  rw [e] at h
  have h2 : triangleAt (indicesAfter ratOps 32768 1 1 (fun _ => 0)) 131068 = (0, 0, 2) := h
  refine ⟨h2, ?_, ?_⟩
  · rw [h2]
    intro hc
    simp only [CapTriangle, CapAt] at hc
    omega
  · rw [h2]
    intro hs
    have := hs.1
    simp only at this
    omega

/-- In unbounded integers, whatever the two arrays hold before the call, after it the first
`7*(2+2*numSides)` floats of `verts[]` and the first `12*numSides` entries of
`indices[]` are the same in both runs: they depend only on `numSides`, `radius` and
`halfLen`. -/
theorem unbounded_deterministic {F : Type} (ops : FloatOps F) (N : Nat)
    (radius halfLen : F) (verts1 verts2 : Int → F) (indices1 indices2 : Int → Int) :
    (∀ p : Int, 0 ≤ p → p < 7 * (2 + 2 * (N : Int)) →
      vertsAfter ops (N : Int) radius halfLen verts1 p =
        vertsAfter ops (N : Int) radius halfLen verts2 p) ∧
    (∀ p : Int, 0 ≤ p → p < 12 * (N : Int) →
      indicesAfter ops (N : Int) radius halfLen indices1 p =
        indicesAfter ops (N : Int) radius halfLen indices2 p) := by
  refine ⟨?_, ?_⟩
  · intro p h0 h1
    refine applyStores_agree _ _ _ _ ?_
    have h := vertexOffsets_eq ops N radius halfLen
    rw [vertexOffsets] at h
    rw [h, mem_offsetsUpTo]
    push_cast
    omega
  · intro p h0 h1
    refine applyStores_agree _ _ _ _ ?_
    have h := indexOffsets_eq ops N radius halfLen (by omega)
    rw [indexOffsets] at h
    rw [h, mem_offsetsUpTo]
    push_cast
    omega

/-! ## Properties of `flipImageVertically` -/

theorem swapRun_spec {α : Type} (n : Nat) (image : Int → α) (index1 index2 : Int)
    (hd : index1 + (n : Int) ≤ index2) (p : Int) :
    swapRun image index1 index2 n p =
      if index1 ≤ p ∧ p < index1 + (n : Int) then image (p - index1 + index2)
      else if index2 ≤ p ∧ p < index2 + (n : Int) then image (p - index2 + index1)
      else image p := by
  induction n generalizing image index1 index2 with
  | zero =>
    have h1 : ¬ (index1 ≤ p ∧ p < index1 + ((0 : Nat) : Int)) := by omega
    have h2 : ¬ (index2 ≤ p ∧ p < index2 + ((0 : Nat) : Int)) := by omega
    rw [if_neg h1, if_neg h2]
    rfl
  | succ n ih =>
    rw [swapRun, ih _ _ _ (by push_cast at hd ⊢; omega)]
    push_cast at hd ⊢
    by_cases h1 : index1 ≤ p ∧ p < index1 + ((n : Int) + 1)
    · rw [if_pos h1]
      by_cases h1' : p = index1
      · subst h1'
        have a : ¬ (p + 1 ≤ p ∧ p < p + 1 + (n : Int)) := by omega
        have b : ¬ (index2 + 1 ≤ p ∧ p < index2 + 1 + (n : Int)) := by omega
        have c : p ≠ index2 := by omega
        rw [if_neg a, if_neg b]
        simp [c]
      · have a : index1 + 1 ≤ p ∧ p < index1 + 1 + (n : Int) := by omega
        have c : p - index1 + index2 ≠ index2 := by omega
        have d : p - index1 + index2 ≠ index1 := by omega
        have e : p - (index1 + 1) + (index2 + 1) = p - index1 + index2 := by omega
        rw [if_pos a, e]
        simp only [c, d, if_false]
    · rw [if_neg h1]
      have a : ¬ (index1 + 1 ≤ p ∧ p < index1 + 1 + (n : Int)) := by omega
      rw [if_neg a]
      by_cases h2 : index2 ≤ p ∧ p < index2 + ((n : Int) + 1)
      · rw [if_pos h2]
        by_cases h2' : p = index2
        · subst h2'
          have b : ¬ (p + 1 ≤ p ∧ p < p + 1 + (n : Int)) := by omega
          rw [if_neg b]
          simp
        · have b : index2 + 1 ≤ p ∧ p < index2 + 1 + (n : Int) := by omega
          have c : p - index2 + index1 ≠ index2 := by omega
          have d : p - index2 + index1 ≠ index1 := by omega
          have e : p - (index2 + 1) + (index1 + 1) = p - index2 + index1 := by omega
          rw [if_pos b, e]
          simp only [c, d, if_false]
      · rw [if_neg h2]
        have b : ¬ (index2 + 1 ≤ p ∧ p < index2 + 1 + (n : Int)) := by omega
        have c : p ≠ index2 := by omega
        have d : p ≠ index1 := by omega
        rw [if_neg b]
        simp only [c, d, if_false]

theorem flipRow_spec {α : Type} (width height channels : Int) (img : Int → α) (k j i : Int)
    (hW : 0 ≤ width * channels) (hk0 : 0 ≤ k) (hk : 2 * k + 2 ≤ height)
    (hj0 : 0 ≤ j) (hj : j < height) (hi0 : 0 ≤ i) (hi : i < width * channels) :
    flipRow width height channels img k (j * (width * channels) + i) =
      if j = k then img ((height - 1 - k) * (width * channels) + i)
      else if j = height - 1 - k then img (k * (width * channels) + i)
      else img (j * (width * channels) + i) := by
  obtain ⟨W, hWdef⟩ : ∃ W : Int, W = width * channels := ⟨_, rfl⟩
  have e1 : k * width * channels = k * W := by rw [hWdef, mul_assoc]
  have e2 : (height - 1 - k) * width * channels = (height - 1 - k) * W := by
    rw [hWdef, mul_assoc]
  rw [← hWdef] at hW hi ⊢
  have hn : ((W.toNat : Nat) : Int) = W := Int.toNat_of_nonneg hW
  have hd : k * W + ((W.toNat : Nat) : Int) ≤ (height - 1 - k) * W := by
    rw [hn]; nlinarith
  simp only [flipRow, e1, e2, ← hWdef]
  rw [swapRun_spec _ _ _ _ hd, hn]
  by_cases hjk : j = k
  · subst hjk
    have c : j * W ≤ j * W + i ∧ j * W + i < j * W + W := by constructor <;> linarith
    have e : j * W + i - j * W + (height - 1 - j) * W = (height - 1 - j) * W + i := by ring
    rw [if_pos c, if_pos rfl, e]
  · by_cases hjk2 : j = height - 1 - k
    · subst hjk2
      have c1 : ¬ (k * W ≤ (height - 1 - k) * W + i ∧ (height - 1 - k) * W + i < k * W + W) := by
        intro h
        have := h.2
        nlinarith
      have c2 : (height - 1 - k) * W ≤ (height - 1 - k) * W + i ∧
          (height - 1 - k) * W + i < (height - 1 - k) * W + W := by constructor <;> linarith
      have e : (height - 1 - k) * W + i - (height - 1 - k) * W + k * W = k * W + i := by ring
      rw [if_neg c1, if_pos c2, if_neg hjk, if_pos rfl, e]
    · have c1 : ¬ (k * W ≤ j * W + i ∧ j * W + i < k * W + W) := by
        intro h
        rcases lt_or_gt_of_ne hjk with hlt | hgt
        · have : j + 1 ≤ k := by omega
          nlinarith [h.1]
        · have : k + 1 ≤ j := by omega
          nlinarith [h.2]
      have c2 : ¬ ((height - 1 - k) * W ≤ j * W + i ∧
          j * W + i < (height - 1 - k) * W + W) := by
        intro h
        rcases lt_or_gt_of_ne hjk2 with hlt | hgt
        · have : j + 1 ≤ height - 1 - k := by omega
          nlinarith [h.1]
        · have : height - 1 - k + 1 ≤ j := by omega
          nlinarith [h.2]
      rw [if_neg c1, if_neg c2, if_neg hjk, if_neg hjk2]

/-- The outer loop of `flipImageVertically` run for `k` iterations. -/
theorem flipLoop_spec {α : Type} (image : Int → α) (width height channels : Int)
    (hW : 0 ≤ width * channels) (k : Nat) (hk : 2 * (k : Int) ≤ height) (j i : Int)
    (hj0 : 0 ≤ j) (hj : j < height) (hi0 : 0 ≤ i) (hi : i < width * channels) :
    (List.range k).foldl (fun img (j : Nat) => flipRow width height channels img (j : Int))
        image (j * (width * channels) + i) =
      if j < (k : Int) ∨ height - (k : Int) ≤ j then
        image ((height - 1 - j) * (width * channels) + i)
      else image (j * (width * channels) + i) := by
  induction k generalizing j i with
  | zero =>
    have c : ¬ (j < ((0 : Nat) : Int) ∨ height - ((0 : Nat) : Int) ≤ j) := by
      push_cast; omega
    rw [if_neg c]
    rfl
  | succ k ih =>
    have hk' : 2 * (k : Int) ≤ height := by push_cast at hk; omega
    rw [List.range_succ, List.foldl_append]
    simp only [List.foldl_cons, List.foldl_nil]
    rw [flipRow_spec width height channels _ (k : Int) j i hW (by omega)
      (by push_cast at hk; omega) hj0 hj hi0 hi]
    push_cast at hk ⊢
    by_cases hjk : j = (k : Int)
    · rw [if_pos hjk, ih hk' (height - 1 - (k : Int)) i (by omega) (by omega) hi0 hi]
      have c : ¬ (height - 1 - (k : Int) < (k : Int) ∨
          height - (k : Int) ≤ height - 1 - (k : Int)) := by omega
      have d : j < (k : Int) + 1 ∨ height - ((k : Int) + 1) ≤ j := by omega
      rw [if_neg c, if_pos d, hjk]
    · rw [if_neg hjk]
      by_cases hjk2 : j = height - 1 - (k : Int)
      · rw [if_pos hjk2, ih hk' (k : Int) i (by omega) (by omega) hi0 hi]
        have c : ¬ ((k : Int) < (k : Int) ∨ height - (k : Int) ≤ (k : Int)) := by omega
        have d : j < (k : Int) + 1 ∨ height - ((k : Int) + 1) ≤ j := by omega
        have e : height - 1 - j = (k : Int) := by omega
        rw [if_neg c, if_pos d, e]
      · rw [if_neg hjk2, ih hk' j i hj0 hj hi0 hi]
        by_cases c : j < (k : Int) ∨ height - (k : Int) ≤ j
        · have d : j < (k : Int) + 1 ∨ height - ((k : Int) + 1) ≤ j := by omega
          rw [if_pos c, if_pos d]
        · have d : ¬ (j < (k : Int) + 1 ∨ height - ((k : Int) + 1) ≤ j) := by omega
          rw [if_neg c, if_neg d]

/-- In unbounded integers, for `width, height, channels >= 0`, after `flipImageVertically` the byte at row
`j`, offset `i` is the original byte at row `height-1-j`, offset `i`; for odd height
the middle row keeps its bytes. -/
theorem unbounded_flip_reverses_rows {α : Type} (image : Int → α)
    (width height channels : Int) (hw : 0 ≤ width) (hh : 0 ≤ height) (hc : 0 ≤ channels)
    (j i : Int) (hj0 : 0 ≤ j) (hj : j < height) (hi0 : 0 ≤ i) (hi : i < width * channels) :
    flipImageVertically image width height channels (j * width * channels + i) =
      image ((height - 1 - j) * width * channels + i) ∧
    (height % 2 = 1 → j = height / 2 →
      flipImageVertically image width height channels (j * width * channels + i) =
        image (j * width * channels + i)) := by
  have hW : 0 ≤ width * channels := mul_nonneg hw hc
  have ht : ((Int.tdiv height 2).toNat : Int) = height / 2 := by
    rw [Int.tdiv_eq_ediv hh (by norm_num), Int.toNat_of_nonneg (by omega)]
  have main : flipImageVertically image width height channels (j * width * channels + i) =
      image ((height - 1 - j) * width * channels + i) := by
    rw [mul_assoc, mul_assoc, flipImageVertically,
      flipLoop_spec image width height channels hW _ (by rw [ht]; omega) j i hj0 hj hi0 hi, ht]
    by_cases c : j < height / 2 ∨ height - height / 2 ≤ j
    · rw [if_pos c]
    · have e : height - 1 - j = j := by omega
      rw [if_neg c, e]
  refine ⟨main, ?_⟩
  intro hodd hmid
  have e : height - 1 - j = j := by omega
  rw [main, e]

/-! ## Properties of `UCreateTexture` -/

/-- C9: `UCreateTexture` returns true exactly when the image was decoded and has 3 or 4
channels; with 3 channels it uploads the flipped image in RGB format, with 4 channels
in RGBA format, and generates mipmaps in both cases; with another channel count (2,
say) or an undecodable file it returns false. -/
theorem UCreateTexture_result {F : Type} (loaded : Option DecodedImage) (id : Nat) :
    ((UCreateTexture loaded id : TextureResult F).result = true ↔
      ∃ img, loaded = some img ∧ (img.channels = 3 ∨ img.channels = 4)) ∧
    (∀ img, loaded = some img → img.channels = 3 →
      (UCreateTexture loaded id : TextureResult F).calls =
        [ .genTextures id,
          .bindTexture .GL_TEXTURE_2D id,
          .texParameteri .GL_TEXTURE_2D .GL_TEXTURE_WRAP_S .GL_REPEAT,
          .texParameteri .GL_TEXTURE_2D .GL_TEXTURE_WRAP_T .GL_REPEAT,
          .texParameteri .GL_TEXTURE_2D .GL_TEXTURE_MIN_FILTER .GL_LINEAR,
          .texParameteri .GL_TEXTURE_2D .GL_TEXTURE_MAG_FILTER .GL_LINEAR,
          .texImage2D .GL_TEXTURE_2D 0 .GL_RGB8 img.width img.height 0 .GL_RGB
            .GL_UNSIGNED_BYTE
            (flipImageVertically img.image img.width img.height img.channels),
          .generateMipmap .GL_TEXTURE_2D,
          .bindTexture .GL_TEXTURE_2D 0 ]) ∧
    (∀ img, loaded = some img → img.channels = 4 →
      (UCreateTexture loaded id : TextureResult F).calls =
        [ .genTextures id,
          .bindTexture .GL_TEXTURE_2D id,
          .texParameteri .GL_TEXTURE_2D .GL_TEXTURE_WRAP_S .GL_REPEAT,
          .texParameteri .GL_TEXTURE_2D .GL_TEXTURE_WRAP_T .GL_REPEAT,
          .texParameteri .GL_TEXTURE_2D .GL_TEXTURE_MIN_FILTER .GL_LINEAR,
          .texParameteri .GL_TEXTURE_2D .GL_TEXTURE_MAG_FILTER .GL_LINEAR,
          .texImage2D .GL_TEXTURE_2D 0 .GL_RGBA8 img.width img.height 0 .GL_RGBA
            .GL_UNSIGNED_BYTE
            (flipImageVertically img.image img.width img.height img.channels),
          .generateMipmap .GL_TEXTURE_2D,
          .bindTexture .GL_TEXTURE_2D 0 ]) ∧
    (∀ img, loaded = some img → img.channels = 2 →
      (UCreateTexture loaded id : TextureResult F).result = false) ∧
    (∀ img, loaded = some img → img.channels ≠ 3 → img.channels ≠ 4 →
      (UCreateTexture loaded id : TextureResult F).result = false ∧
      (UCreateTexture loaded id : TextureResult F).log = [.channels img.channels]) ∧
    (loaded = none → (UCreateTexture loaded id : TextureResult F).result = false) := by
  refine ⟨?_, ?_, ?_, ?_, ?_, ?_⟩
  · cases loaded with
    | none => simp [UCreateTexture]
    | some img =>
      by_cases h3 : img.channels = 3
      · simp [UCreateTexture, h3]
      · by_cases h4 : img.channels = 4
        · simp [UCreateTexture, h4]
        · simp [UCreateTexture, h3, h4]
  · rintro img rfl h3
    simp [UCreateTexture, h3]
  · rintro img rfl h4
    simp [UCreateTexture, h4]
  · rintro img rfl h2
    simp [UCreateTexture, h2]
  · rintro img rfl h3 h4
    simp [UCreateTexture, h3, h4]
  · rintro rfl
    rfl

/-- Witness of C9: a decoded 2-by-2 image with 3 channels loads, one with 2 channels
does not. -/
theorem UCreateTexture_result_witness :
    (UCreateTexture (some ⟨fun p => p.toNat, 2, 2, 3⟩) 1 : TextureResult ℚ).result = true ∧
      (UCreateTexture (some ⟨fun p => p.toNat, 2, 2, 2⟩) 1 : TextureResult ℚ).result = false :=
  ⟨(UCreateTexture_result (some ⟨fun p => p.toNat, 2, 2, 3⟩) 1).1.mpr
      ⟨⟨fun p => p.toNat, 2, 2, 3⟩, rfl, Or.inl rfl⟩,
    (UCreateTexture_result (some ⟨fun p => p.toNat, 2, 2, 2⟩) 1).2.2.2.1
      ⟨fun p => p.toNat, 2, 2, 2⟩ rfl rfl⟩

/-! ## Properties of `UProcessInput` -/

/-- The part of the state the camera keys leave alone. -/
theorem moveOnKey_frame {F Cam : Type} (processKeyboard : CameraMovement → F → Cam → Cam)
    (pressed : Key → Bool) (k : Key) (d : CameraMovement) (st : AppState F Cam) :
    (moveOnKey processKeyboard pressed k d st).gTexWrapMode = st.gTexWrapMode ∧
    (moveOnKey processKeyboard pressed k d st).calls = st.calls ∧
    (moveOnKey processKeyboard pressed k d st).log = st.log ∧
    (moveOnKey processKeyboard pressed k d st).gUVScale = st.gUVScale ∧
    (moveOnKey processKeyboard pressed k d st).gTextureYolk = st.gTextureYolk ∧
    (moveOnKey processKeyboard pressed k d st).gTextureWhite = st.gTextureWhite := by
  unfold moveOnKey
  split <;> exact ⟨rfl, rfl, rfl, rfl, rfl, rfl⟩

theorem closeOnEscape_frame {F Cam : Type} (pressed : Key → Bool) (st : AppState F Cam) :
    (closeOnEscape pressed st).gTexWrapMode = st.gTexWrapMode ∧
    (closeOnEscape pressed st).calls = st.calls ∧
    (closeOnEscape pressed st).log = st.log ∧
    (closeOnEscape pressed st).gUVScale = st.gUVScale ∧
    (closeOnEscape pressed st).gTextureYolk = st.gTextureYolk ∧
    (closeOnEscape pressed st).gTextureWhite = st.gTextureWhite := by
  unfold closeOnEscape
  split <;> exact ⟨rfl, rfl, rfl, rfl, rfl, rfl⟩

theorem processCameraKeys_frame {F Cam : Type}
    (processKeyboard : CameraMovement → F → Cam → Cam) (pressed : Key → Bool)
    (st : AppState F Cam) :
    (processCameraKeys processKeyboard pressed st).gTexWrapMode = st.gTexWrapMode ∧
    (processCameraKeys processKeyboard pressed st).calls = st.calls ∧
    (processCameraKeys processKeyboard pressed st).log = st.log ∧
    (processCameraKeys processKeyboard pressed st).gUVScale = st.gUVScale ∧
    (processCameraKeys processKeyboard pressed st).gTextureYolk = st.gTextureYolk ∧
    (processCameraKeys processKeyboard pressed st).gTextureWhite = st.gTextureWhite := by
  unfold processCameraKeys
  simp only [moveOnKey_frame, closeOnEscape_frame, and_self]

theorem processScaleKeys_frame {F Cam : Type} (ops : FloatOps F) (pressed : Key → Bool)
    (st : AppState F Cam) :
    (processScaleKeys ops pressed st).gTexWrapMode = st.gTexWrapMode ∧
    (processScaleKeys ops pressed st).calls = st.calls ∧
    (∃ extra, (processScaleKeys ops pressed st).log = st.log ++ extra ∧
      ∀ l ∈ extra, ¬ IsTextLine l) ∧
    (pressed .RIGHT_BRACKET = false → pressed .LEFT_BRACKET = false →
      processScaleKeys ops pressed st = st) := by
  unfold processScaleKeys
  by_cases hr : pressed .RIGHT_BRACKET = true
  · rw [if_pos hr]
    refine ⟨rfl, rfl, ⟨_, rfl, ?_⟩, ?_⟩
    · intro l hl
      rw [List.mem_singleton] at hl
      subst hl
      exact fun h => h
    · intro h; rw [hr] at h; exact absurd h (by decide)
  · by_cases hl : pressed .LEFT_BRACKET = true
    · rw [if_neg hr, if_pos hl]
      refine ⟨rfl, rfl, ⟨_, rfl, ?_⟩, ?_⟩
      · intro l hl
        rw [List.mem_singleton] at hl
        subst hl
        exact fun h => h
      · intro _ h; rw [hl] at h; exact absurd h (by decide)
    · rw [if_neg hr, if_neg hl]
      exact ⟨rfl, rfl, ⟨[], by simp, by simp⟩, fun _ _ => rfl⟩

theorem processWrapKeys_same_mode {F Cam : Type} (ops : FloatOps F) (pressed : Key → Bool)
    (st : AppState F Cam) (k : Nat) (hk1 : 1 ≤ k) (hk4 : k ≤ 4)
    (honly : OnlyWrapKey pressed k) (hmode : st.gTexWrapMode = wrapModeOf k) :
    processWrapKeys ops pressed st = st := by
  have h1 := honly 1 (by decide) (by decide)
  have h2 := honly 2 (by decide) (by decide)
  have h3 := honly 3 (by decide) (by decide)
  have h4 := honly 4 (by decide) (by decide)
  simp only [wrapKey] at h1 h2 h3 h4
  unfold processWrapKeys
  interval_cases k <;> simp_all [wrapModeOf]

/-- C10, as amended: when key `k` (1 to 4) is the only wrap key pressed and the wrap
mode already is the mode of `k`, `UProcessInput` keeps the wrap mode, makes no graphics
call and logs no wrap-mode line; it logs nothing at all when neither `]` nor `[` is
pressed. -/
theorem UProcessInput_same_mode_noop {F Cam : Type} (ops : FloatOps F)
    (processKeyboard : CameraMovement → F → Cam → Cam) (pressed : Key → Bool)
    (st : AppState F Cam) (k : Nat) (hk1 : 1 ≤ k) (hk4 : k ≤ 4)
    (honly : OnlyWrapKey pressed k) (hmode : st.gTexWrapMode = wrapModeOf k) :
    (UProcessInput ops processKeyboard pressed st).gTexWrapMode = st.gTexWrapMode ∧
    (UProcessInput ops processKeyboard pressed st).calls = st.calls ∧
    (∃ extra, (UProcessInput ops processKeyboard pressed st).log = st.log ++ extra ∧
      ∀ l ∈ extra, ¬ IsTextLine l) ∧
    (pressed .RIGHT_BRACKET = false → pressed .LEFT_BRACKET = false →
      (UProcessInput ops processKeyboard pressed st).log = st.log) := by
  obtain ⟨c1, c2, c3, -⟩ := processCameraKeys_frame processKeyboard pressed st
  have hw := processWrapKeys_same_mode ops pressed (processCameraKeys processKeyboard pressed st)
    k hk1 hk4 honly (by rw [c1]; exact hmode)
  obtain ⟨s1, s2, s3, s4⟩ := processScaleKeys_frame ops pressed
    (processCameraKeys processKeyboard pressed st)
  unfold UProcessInput
  rw [hw]
  refine ⟨by rw [s1, c1], by rw [s2, c2], ?_, ?_⟩
  · obtain ⟨extra, he, hx⟩ := s3
    exact ⟨extra, by rw [he, c3], hx⟩
  · intro hr hl
    rw [s4 hr hl, c3]

/-- Witness of C10 (amended): only key 1 is pressed in the initial state, whose wrap
mode is `GL_REPEAT`. -/
theorem UProcessInput_same_mode_noop_witness :
    1 ≤ 1 ∧ 1 ≤ 4 ∧ OnlyWrapKey (fun key => decide (key = Key.KEY_1)) 1 ∧
      (initialState ratOps () 1 2).gTexWrapMode = wrapModeOf 1 ∧
      (UProcessInput ratOps (fun _ _ c => c) (fun key => decide (key = Key.KEY_1))
        (initialState ratOps () 1 2)).calls = (initialState ratOps () 1 2).calls ∧
      (UProcessInput ratOps (fun _ _ c => c) (fun key => decide (key = Key.KEY_1))
        (initialState ratOps () 1 2)).log = (initialState ratOps () 1 2).log :=
  have honly : OnlyWrapKey (fun key => decide (key = Key.KEY_1)) 1 := by
    intro m h1 h4
    interval_cases m <;> simp [wrapKey]
  ⟨by decide, by decide, honly, rfl,
    (UProcessInput_same_mode_noop ratOps (fun _ _ c => c) (fun key => decide (key = Key.KEY_1))
      (initialState ratOps () 1 2) 1 (by decide) (by decide) honly rfl).2.1,
    (UProcessInput_same_mode_noop ratOps (fun _ _ c => c) (fun key => decide (key = Key.KEY_1))
      (initialState ratOps () 1 2) 1 (by decide) (by decide) honly rfl).2.2.2 rfl rfl⟩

/-- C10 as stated fails when `]` is pressed together with key 1 in the initial state:
key 1 is the only wrap key pressed and the mode already is `GL_REPEAT`, yet a line
with the new scale is logged. -/
theorem UProcessInput_same_mode_noop_counterexample :
    OnlyWrapKey (fun key => decide (key = Key.KEY_1 ∨ key = Key.RIGHT_BRACKET)) 1 ∧
      (initialState ratOps () 1 2).gTexWrapMode = wrapModeOf 1 ∧
      (UProcessInput ratOps (fun _ _ c => c)
        (fun key => decide (key = Key.KEY_1 ∨ key = Key.RIGHT_BRACKET))
        (initialState ratOps () 1 2)).log = [LogLine.scale (51 / 10) (51 / 10)] ∧
      (UProcessInput ratOps (fun _ _ c => c)
        (fun key => decide (key = Key.KEY_1 ∨ key = Key.RIGHT_BRACKET))
        (initialState ratOps () 1 2)).log ≠ (initialState ratOps () 1 2).log := by
  have hlog : (UProcessInput ratOps (fun _ _ c => c)
        (fun key => decide (key = Key.KEY_1 ∨ key = Key.RIGHT_BRACKET))
        (initialState ratOps () 1 2)).log = [LogLine.scale (51 / 10) (51 / 10)] := by
    simp [UProcessInput, processScaleKeys, processWrapKeys, processCameraKeys, closeOnEscape,
      moveOnKey, initialState, ratOps]
    norm_num
  refine ⟨?_, rfl, hlog, ?_⟩
  · intro m h1 h4
    interval_cases m <;> simp [wrapKey]
  · rw [hlog]
    simp [initialState]

theorem processCameraKeys_idle {F Cam : Type}
    (processKeyboard : CameraMovement → F → Cam → Cam) (pressed : Key → Bool)
    (st : AppState F Cam)
    (h : pressed .ESCAPE = false ∧ pressed .W = false ∧ pressed .S = false ∧
      pressed .A = false ∧ pressed .D = false ∧ pressed .Q = false ∧ pressed .E = false) :
    processCameraKeys processKeyboard pressed st = st := by
  obtain ⟨h0, h1, h2, h3, h4, h5, h6⟩ := h
  simp [processCameraKeys, closeOnEscape, moveOnKey, h0, h1, h2, h3, h4, h5, h6]

theorem processWrapKeys_transition {F Cam : Type} (ops : FloatOps F) (pressed : Key → Bool)
    (st : AppState F Cam) (k : Nat) (hk1 : 1 ≤ k) (hk4 : k ≤ 4)
    (honly : OnlyWrapKey pressed k) (hmode : st.gTexWrapMode ≠ wrapModeOf k) :
    (processWrapKeys ops pressed st).gTexWrapMode = wrapModeOf k ∧
    (processWrapKeys ops pressed st).log = st.log ++ [.text (wrapModeMessage k)] ∧
    (processWrapKeys ops pressed st).gUVScale = st.gUVScale := by
  have h1 := honly 1 (by decide) (by decide)
  have h2 := honly 2 (by decide) (by decide)
  have h3 := honly 3 (by decide) (by decide)
  have h4 := honly 4 (by decide) (by decide)
  simp only [wrapKey] at h1 h2 h3 h4
  unfold processWrapKeys
  interval_cases k <;> simp_all [wrapModeOf, wrapModeMessage, setWrap]

/-- One call of `UProcessInput` when the wrap mode already is the mode of the only wrap
key pressed. -/
theorem UProcessInput_hold {F Cam : Type} (ops : FloatOps F)
    (processKeyboard : CameraMovement → F → Cam → Cam) (pressed : Key → Bool)
    (st : AppState F Cam) (k : Nat) (hk1 : 1 ≤ k) (hk4 : k ≤ 4)
    (honly : OnlyWrapKey pressed k) (hmode : st.gTexWrapMode = wrapModeOf k) :
    (UProcessInput ops processKeyboard pressed st).gTexWrapMode = st.gTexWrapMode ∧
    (UProcessInput ops processKeyboard pressed st).calls = st.calls ∧
    (∃ extra, (UProcessInput ops processKeyboard pressed st).log = st.log ++ extra ∧
      ∀ l ∈ extra, ¬ IsTextLine l) ∧
    ((∀ key, pressed key = true → key = wrapKey k) →
      UProcessInput ops processKeyboard pressed st = st) := by
  obtain ⟨c1, c2, c3, -⟩ := processCameraKeys_frame processKeyboard pressed st
  have hw := processWrapKeys_same_mode ops pressed (processCameraKeys processKeyboard pressed st)
    k hk1 hk4 honly (by rw [c1]; exact hmode)
  obtain ⟨s1, s2, s3, s4⟩ := processScaleKeys_frame ops pressed
    (processCameraKeys processKeyboard pressed st)
  unfold UProcessInput
  rw [hw]
  refine ⟨by rw [s1, c1], by rw [s2, c2], ?_, ?_⟩
  · obtain ⟨extra, he, hx⟩ := s3
    exact ⟨extra, by rw [he, c3], hx⟩
  · intro hno
    have off : ∀ key, key ≠ wrapKey k → pressed key = false := by
      intro key hne
      cases hp : pressed key with
      | false => rfl
      | true => exact absurd (hno key hp) hne
    have hkey : ∀ key, (key = Key.KEY_1 ∨ key = Key.KEY_2 ∨ key = Key.KEY_3 ∨ key = Key.KEY_4 → False) →
        pressed key = false := by
      intro key hk
      apply off
      intro he
      apply hk
      rw [he]
      interval_cases k <;> simp [wrapKey]
    rw [s4 (hkey _ (by simp)) (hkey _ (by simp))]
    exact processCameraKeys_idle processKeyboard pressed st
      ⟨hkey _ (by simp), hkey _ (by simp), hkey _ (by simp), hkey _ (by simp),
        hkey _ (by simp), hkey _ (by simp), hkey _ (by simp)⟩

theorem holdKeys_hold {F Cam : Type} (ops : FloatOps F)
    (processKeyboard : CameraMovement → F → Cam → Cam) (pressed : Key → Bool)
    (k : Nat) (hk1 : 1 ≤ k) (hk4 : k ≤ 4) (honly : OnlyWrapKey pressed k)
    (n : Nat) (st : AppState F Cam) (hmode : st.gTexWrapMode = wrapModeOf k) :
    (holdKeys ops processKeyboard pressed n st).gTexWrapMode = st.gTexWrapMode ∧
    (holdKeys ops processKeyboard pressed n st).calls = st.calls ∧
    (∃ extra, (holdKeys ops processKeyboard pressed n st).log = st.log ++ extra ∧
      ∀ l ∈ extra, ¬ IsTextLine l) ∧
    ((∀ key, pressed key = true → key = wrapKey k) →
      holdKeys ops processKeyboard pressed n st = st) := by
  induction n generalizing st with
  | zero => exact ⟨rfl, rfl, ⟨[], by simp [holdKeys], by simp⟩, fun _ => rfl⟩
  | succ n ih =>
    obtain ⟨a1, a2, ⟨x1, a3, a4⟩, a5⟩ :=
      UProcessInput_hold ops processKeyboard pressed st k hk1 hk4 honly hmode
    obtain ⟨b1, b2, ⟨x2, b3, b4⟩, b5⟩ :=
      ih (UProcessInput ops processKeyboard pressed st) (by rw [a1]; exact hmode)
    rw [holdKeys]
    refine ⟨by rw [b1, a1], by rw [b2, a2], ⟨x1 ++ x2, ?_, ?_⟩, ?_⟩
    · rw [b3, a3, List.append_assoc]
    · intro l hl
      rcases List.mem_append.mp hl with h | h
      · exact a4 l h
      · exact b4 l h
    · intro hno
      rw [b5 hno, a5 hno]

/-- C11, as amended: when key `k` (1 to 4) is the only wrap key pressed and the wrap mode
differs from the mode of `k`, one call of `UProcessInput` sets the mode of `k` and logs
exactly one wrap-mode line, the one naming that mode; any number of further calls with
the same keys held keep the wrap mode, make no graphics call and log no wrap-mode line,
and change nothing at all when no other key is held. -/
theorem UProcessInput_transition_once {F Cam : Type} (ops : FloatOps F)
    (processKeyboard : CameraMovement → F → Cam → Cam) (pressed : Key → Bool)
    (st : AppState F Cam) (k : Nat) (hk1 : 1 ≤ k) (hk4 : k ≤ 4)
    (honly : OnlyWrapKey pressed k) (hmode : st.gTexWrapMode ≠ wrapModeOf k) (n : Nat) :
    (UProcessInput ops processKeyboard pressed st).gTexWrapMode = wrapModeOf k ∧
    (∃ extra, (UProcessInput ops processKeyboard pressed st).log =
        st.log ++ [.text (wrapModeMessage k)] ++ extra ∧
      ∀ l ∈ extra, ¬ IsTextLine l) ∧
    (holdKeys ops processKeyboard pressed n
        (UProcessInput ops processKeyboard pressed st)).gTexWrapMode = wrapModeOf k ∧
    (holdKeys ops processKeyboard pressed n
        (UProcessInput ops processKeyboard pressed st)).calls =
      (UProcessInput ops processKeyboard pressed st).calls ∧
    (∃ extra, (holdKeys ops processKeyboard pressed n
        (UProcessInput ops processKeyboard pressed st)).log =
        (UProcessInput ops processKeyboard pressed st).log ++ extra ∧
      ∀ l ∈ extra, ¬ IsTextLine l) ∧
    ((∀ key, pressed key = true → key = wrapKey k) →
      holdKeys ops processKeyboard pressed n (UProcessInput ops processKeyboard pressed st) =
        UProcessInput ops processKeyboard pressed st) := by
  obtain ⟨c1, -, c3, -⟩ := processCameraKeys_frame processKeyboard pressed st
  obtain ⟨w1, w2, -⟩ := processWrapKeys_transition ops pressed
    (processCameraKeys processKeyboard pressed st) k hk1 hk4 honly (by rw [c1]; exact hmode)
  obtain ⟨s1, -, ⟨x, s3, s4⟩, -⟩ := processScaleKeys_frame ops pressed
    (processWrapKeys ops pressed (processCameraKeys processKeyboard pressed st))
  have m1 : (UProcessInput ops processKeyboard pressed st).gTexWrapMode = wrapModeOf k := by
    unfold UProcessInput
    rw [s1, w1]
  obtain ⟨b1, b2, b3, b5⟩ := holdKeys_hold ops processKeyboard pressed k hk1 hk4 honly n
    (UProcessInput ops processKeyboard pressed st) m1
  refine ⟨m1, ⟨x, ?_, s4⟩, by rw [b1, m1], b2, b3, b5⟩
  unfold UProcessInput
  rw [s3, w2, c3]

/-- Witness of C11 (amended): only key 2 is held, starting in the initial state. -/
theorem UProcessInput_transition_once_witness :
    1 ≤ 2 ∧ 2 ≤ 4 ∧ OnlyWrapKey (fun key => decide (key = Key.KEY_2)) 2 ∧
      (initialState ratOps () 1 2).gTexWrapMode ≠ wrapModeOf 2 ∧
      (UProcessInput ratOps (fun _ _ c => c) (fun key => decide (key = Key.KEY_2))
        (initialState ratOps () 1 2)).gTexWrapMode = GLenum.GL_MIRRORED_REPEAT ∧
      holdKeys ratOps (fun _ _ c => c) (fun key => decide (key = Key.KEY_2)) 3
        (UProcessInput ratOps (fun _ _ c => c) (fun key => decide (key = Key.KEY_2))
          (initialState ratOps () 1 2)) =
        UProcessInput ratOps (fun _ _ c => c) (fun key => decide (key = Key.KEY_2))
          (initialState ratOps () 1 2) :=
  have honly : OnlyWrapKey (fun key => decide (key = Key.KEY_2)) 2 := by
    intro m h1 h4
    interval_cases m <;> simp [wrapKey]
  have hmode : (initialState ratOps () 1 2).gTexWrapMode ≠ wrapModeOf 2 := by
    simp [initialState, wrapModeOf]
  ⟨by decide, by decide, honly, hmode,
    (UProcessInput_transition_once ratOps (fun _ _ c => c) (fun key => decide (key = Key.KEY_2))
      (initialState ratOps () 1 2) 2 (by decide) (by decide) honly hmode 3).1,
    (UProcessInput_transition_once ratOps (fun _ _ c => c) (fun key => decide (key = Key.KEY_2))
      (initialState ratOps () 1 2) 2 (by decide) (by decide) honly hmode 3).2.2.2.2.2
      (by intro key hk; simpa [wrapKey] using hk)⟩

/-- C11 as stated fails when `]` is held together with key 2 in the initial state: key 2
is the only wrap key pressed, yet the second call logs a further line and changes the
UV scale. -/
theorem UProcessInput_transition_once_counterexample :
    OnlyWrapKey (fun key => decide (key = Key.KEY_2 ∨ key = Key.RIGHT_BRACKET)) 2 ∧
      (initialState ratOps () 1 2).gTexWrapMode ≠ wrapModeOf 2 ∧
      (holdKeys ratOps (fun _ _ c => c)
        (fun key => decide (key = Key.KEY_2 ∨ key = Key.RIGHT_BRACKET)) 1
        (UProcessInput ratOps (fun _ _ c => c)
          (fun key => decide (key = Key.KEY_2 ∨ key = Key.RIGHT_BRACKET))
          (initialState ratOps () 1 2))).log =
        (UProcessInput ratOps (fun _ _ c => c)
          (fun key => decide (key = Key.KEY_2 ∨ key = Key.RIGHT_BRACKET))
          (initialState ratOps () 1 2)).log ++ [LogLine.scale (26 / 5) (26 / 5)] ∧
      (holdKeys ratOps (fun _ _ c => c)
        (fun key => decide (key = Key.KEY_2 ∨ key = Key.RIGHT_BRACKET)) 1
        (UProcessInput ratOps (fun _ _ c => c)
          (fun key => decide (key = Key.KEY_2 ∨ key = Key.RIGHT_BRACKET))
          (initialState ratOps () 1 2))).gUVScale ≠
        (UProcessInput ratOps (fun _ _ c => c)
          (fun key => decide (key = Key.KEY_2 ∨ key = Key.RIGHT_BRACKET))
          (initialState ratOps () 1 2)).gUVScale := by
  refine ⟨?_, ?_, ?_, ?_⟩
  · intro m h1 h4
    interval_cases m <;> simp [wrapKey]
  · simp [initialState, wrapModeOf]
  · simp [holdKeys, UProcessInput, processScaleKeys, processWrapKeys, processCameraKeys,
      closeOnEscape, moveOnKey, initialState, ratOps, setWrap]
    norm_num
  · simp [holdKeys, UProcessInput, processScaleKeys, processWrapKeys, processCameraKeys,
      closeOnEscape, moveOnKey, initialState, ratOps, setWrap]

theorem processWrapKeys_gUVScale {F Cam : Type} (ops : FloatOps F) (pressed : Key → Bool)
    (st : AppState F Cam) : (processWrapKeys ops pressed st).gUVScale = st.gUVScale := by
  unfold processWrapKeys
  split
  · rfl
  · split
    · rfl
    · split
      · rfl
      · split
        · rfl
        · rfl

theorem UProcessInput_gUVScale {Cam : Type} (ops : FloatOps ℚ) (hex : ExactArithmetic ops)
    (processKeyboard : CameraMovement → ℚ → Cam → Cam) (pressed : Key → Bool)
    (hone : OneBracket pressed) (st : AppState ℚ Cam) :
    (UProcessInput ops processKeyboard pressed st).gUVScale =
      (st.gUVScale.1 + 1 / 10 * ((if pressed .RIGHT_BRACKET = true then 1 else 0) -
          (if pressed .LEFT_BRACKET = true then 1 else 0)),
        st.gUVScale.2 + 1 / 10 * ((if pressed .RIGHT_BRACKET = true then 1 else 0) -
          (if pressed .LEFT_BRACKET = true then 1 else 0))) := by
  obtain ⟨hlit, hadd, hsub⟩ := hex
  obtain ⟨-, -, -, c4, -⟩ := processCameraKeys_frame processKeyboard pressed st
  have w := processWrapKeys_gUVScale ops pressed (processCameraKeys processKeyboard pressed st)
  rw [c4] at w
  unfold UProcessInput processScaleKeys
  rcases hone with ⟨hr, hl⟩ | ⟨hr, hl⟩
  · simp only [hr, hl, if_true, w, hlit, hadd]
    simp
  · simp only [hr, hl, if_true, w, hlit, hsub]
    simp
    constructor <;> ring

theorem runInputs_gUVScale {Cam : Type} (ops : FloatOps ℚ) (hex : ExactArithmetic ops)
    (processKeyboard : CameraMovement → ℚ → Cam → Cam) (inputs : List (Key → Bool))
    (hone : ∀ pressed ∈ inputs, OneBracket pressed) (st : AppState ℚ Cam) :
    (runInputs ops processKeyboard inputs st).gUVScale =
      (st.gUVScale.1 + 1 / 10 *
          (((inputs.countP (fun pressed => pressed .RIGHT_BRACKET) : Nat) : ℚ) -
            ((inputs.countP (fun pressed => pressed .LEFT_BRACKET) : Nat) : ℚ)),
        st.gUVScale.2 + 1 / 10 *
          (((inputs.countP (fun pressed => pressed .RIGHT_BRACKET) : Nat) : ℚ) -
            ((inputs.countP (fun pressed => pressed .LEFT_BRACKET) : Nat) : ℚ))) := by
  induction inputs generalizing st with
  | nil => simp [runInputs]
  | cons p rest ih =>
    have h1 := UProcessInput_gUVScale ops hex processKeyboard p
      (hone p (List.mem_cons_self _ _)) st
    have h2 := ih (fun q hq => hone q (List.mem_cons_of_mem _ hq))
      (UProcessInput ops processKeyboard p st)
    have e : runInputs ops processKeyboard (p :: rest) st =
        runInputs ops processKeyboard rest (UProcessInput ops processKeyboard p st) := rfl
    rw [e, h2, h1]
    simp only [List.countP_cons]
    rcases hone p (List.mem_cons_self _ _) with ⟨hr, hl⟩ | ⟨hr, hl⟩
    · simp only [hr, hl, if_true, Bool.false_eq_true, if_false]
      push_cast
      refine Prod.ext ?_ ?_ <;> (simp only []; ring)
    · simp only [hr, hl, if_true, Bool.false_eq_true, if_false]
      push_cast
      refine Prod.ext ?_ ?_ <;> (simp only []; ring)

/-- C12: in exact arithmetic, starting from the UV scale `(5, 5)`, after any sequence of
`UProcessInput` calls with exactly one of `]` and `[` pressed per call, `k` of them
pressing `]` and `m` pressing `[`, both components of `gUVScale` are `5 + 0.1*(k - m)`,
whatever the order of the presses. -/
theorem UVScale_after_presses {Cam : Type} (ops : FloatOps ℚ) (hex : ExactArithmetic ops)
    (processKeyboard : CameraMovement → ℚ → Cam → Cam) (inputs : List (Key → Bool))
    (hone : ∀ pressed ∈ inputs, OneBracket pressed) (st : AppState ℚ Cam)
    (hst : st.gUVScale = (ops.lit 5, ops.lit 5)) :
    (runInputs ops processKeyboard inputs st).gUVScale =
      (5 + 1 / 10 *
          (((inputs.countP (fun pressed => pressed .RIGHT_BRACKET) : Nat) : ℚ) -
            ((inputs.countP (fun pressed => pressed .LEFT_BRACKET) : Nat) : ℚ)),
        5 + 1 / 10 *
          (((inputs.countP (fun pressed => pressed .RIGHT_BRACKET) : Nat) : ℚ) -
            ((inputs.countP (fun pressed => pressed .LEFT_BRACKET) : Nat) : ℚ))) := by
  rw [runInputs_gUVScale ops hex processKeyboard inputs hone st, hst, hex.1]

/-- Witness of C12: the presses `]`, `[`, `]` from the initial state give `5.1`. -/
theorem UVScale_after_presses_witness :
    ExactArithmetic ratOps ∧
      (∀ pressed ∈ [fun key => decide (key = Key.RIGHT_BRACKET),
          fun key => decide (key = Key.LEFT_BRACKET),
          fun key => decide (key = Key.RIGHT_BRACKET)], OneBracket pressed) ∧
      (initialState ratOps () 1 2).gUVScale = (ratOps.lit 5, ratOps.lit 5) ∧
      (runInputs ratOps (fun _ _ c => c)
        [fun key => decide (key = Key.RIGHT_BRACKET),
          fun key => decide (key = Key.LEFT_BRACKET),
          fun key => decide (key = Key.RIGHT_BRACKET)]
        (initialState ratOps () 1 2)).gUVScale = (5 + 1 / 10 * (2 - 1), 5 + 1 / 10 * (2 - 1)) :=
  have hex : ExactArithmetic ratOps := ⟨fun _ => rfl, fun _ _ => rfl, fun _ _ => rfl⟩
  have hone : ∀ pressed ∈ [fun key => decide (key = Key.RIGHT_BRACKET),
      fun key => decide (key = Key.LEFT_BRACKET),
      fun key => decide (key = Key.RIGHT_BRACKET)], OneBracket pressed := by
    intro p hp
    simp only [List.mem_cons, List.mem_singleton, List.not_mem_nil, or_false] at hp
    rcases hp with rfl | rfl | rfl <;> simp [OneBracket]
  ⟨hex, hone, rfl, by
    have h := UVScale_after_presses ratOps hex (fun _ _ c => c) _ hone
      (initialState ratOps () 1 2) rfl
    simpa [List.countP_cons] using h⟩

/-! ## Wrap parameters of the two textures -/

/-- C13 fails on the code: after both textures (named 1 and 2) were loaded and key 2
changed the wrap mode to `GL_MIRRORED_REPEAT`, the wrap parameters of `gTextureWhite`
are the new mode but those of `gTextureYolk` still are `GL_REPEAT`, because the two
`glTexParameteri` calls follow both `glBindTexture` calls and reach only the texture
bound last. -/
theorem wrap_transition_leaves_yolk :
    (UProcessInput ratOps (fun _ _ c => c) (fun key => decide (key = Key.KEY_2))
      (initialState ratOps () 1 2)).gTexWrapMode = GLenum.GL_MIRRORED_REPEAT ∧
    (glRun
      (glRun glInitial
        ((UCreateTexture (some ⟨fun _ => 0, 2, 2, 3⟩) 1 : TextureResult ℚ).calls ++
          (UCreateTexture (some ⟨fun _ => 0, 2, 2, 3⟩) 2 : TextureResult ℚ).calls))
      (UProcessInput ratOps (fun _ _ c => c) (fun key => decide (key = Key.KEY_2))
        (initialState ratOps () 1 2)).calls).param 2 GLenum.GL_TEXTURE_WRAP_S =
      some GLenum.GL_MIRRORED_REPEAT ∧
    (glRun
      (glRun glInitial
        ((UCreateTexture (some ⟨fun _ => 0, 2, 2, 3⟩) 1 : TextureResult ℚ).calls ++
          (UCreateTexture (some ⟨fun _ => 0, 2, 2, 3⟩) 2 : TextureResult ℚ).calls))
      (UProcessInput ratOps (fun _ _ c => c) (fun key => decide (key = Key.KEY_2))
        (initialState ratOps () 1 2)).calls).param 2 GLenum.GL_TEXTURE_WRAP_T =
      some GLenum.GL_MIRRORED_REPEAT ∧
    (glRun
      (glRun glInitial
        ((UCreateTexture (some ⟨fun _ => 0, 2, 2, 3⟩) 1 : TextureResult ℚ).calls ++
          (UCreateTexture (some ⟨fun _ => 0, 2, 2, 3⟩) 2 : TextureResult ℚ).calls))
      (UProcessInput ratOps (fun _ _ c => c) (fun key => decide (key = Key.KEY_2))
        (initialState ratOps () 1 2)).calls).param 1 GLenum.GL_TEXTURE_WRAP_S =
      some GLenum.GL_REPEAT ∧
    (glRun
      (glRun glInitial
        ((UCreateTexture (some ⟨fun _ => 0, 2, 2, 3⟩) 1 : TextureResult ℚ).calls ++
          (UCreateTexture (some ⟨fun _ => 0, 2, 2, 3⟩) 2 : TextureResult ℚ).calls))
      (UProcessInput ratOps (fun _ _ c => c) (fun key => decide (key = Key.KEY_2))
        (initialState ratOps () 1 2)).calls).param 1 GLenum.GL_TEXTURE_WRAP_T =
      some GLenum.GL_REPEAT := by
  refine ⟨rfl, rfl, rfl, rfl, rfl⟩

/-! ## Startup and teardown of `main` -/

/-- C14 fails on the code: when the window is created but `gladLoadGLLoader` fails,
`UInitialize` executes `return -1;`, which the return type `bool` turns into `true`, so
`main` does not exit and, the other steps succeeding, reaches the render loop. Each of
the other startup failures does end `main` with `EXIT_FAILURE`. -/
theorem UInitialize_loader_failure_returns_true :
    UInitialize true false = true ∧
    mainStartup
      { windowCreated := true, loaderOk := false,
        litProgram := ⟨true, true, true⟩, lampProgram := ⟨true, true, true⟩,
        yolkImage := some ⟨fun _ => 0, 2, 2, 4⟩, whiteImage := some ⟨fun _ => 0, 2, 2, 3⟩ }
      1 2 = StartupResult.renderLoop ∧
    (∀ loaderOk : Bool, UInitialize false loaderOk = false) ∧
    (∀ (i : StartupInputs) (yolkId whiteId : Nat),
      (i.windowCreated = false ∨ UCreateShaderProgram i.litProgram = false ∨
        UCreateShaderProgram i.lampProgram = false ∨
        (UCreateTexture i.yolkImage yolkId : TextureResult Unit).result = false ∨
        (UCreateTexture i.whiteImage whiteId : TextureResult Unit).result = false) →
      mainStartup i yolkId whiteId = StartupResult.exitFailure) := by
  refine ⟨rfl, rfl, fun _ => rfl, ?_⟩
  intro i yolkId whiteId h
  unfold mainStartup
  rcases h with h | h | h | h | h
  · simp [UInitialize, h]
  · by_cases h0 : UInitialize i.windowCreated i.loaderOk = false
    · simp [h0]
    · simp [h0, h]
  · by_cases h0 : UInitialize i.windowCreated i.loaderOk = false
    · simp [h0]
    · by_cases h1 : UCreateShaderProgram i.litProgram = false
      · simp [h0, h1]
      · simp [h0, h1, h]
  · by_cases h0 : UInitialize i.windowCreated i.loaderOk = false
    · simp [h0]
    · by_cases h1 : UCreateShaderProgram i.litProgram = false
      · simp [h0, h1]
      · by_cases h2 : UCreateShaderProgram i.lampProgram = false
        · simp [h0, h1, h2]
        · simp [h0, h1, h2, h]
  · by_cases h0 : UInitialize i.windowCreated i.loaderOk = false
    · simp [h0]
    · by_cases h1 : UCreateShaderProgram i.litProgram = false
      · simp [h0, h1]
      · by_cases h2 : UCreateShaderProgram i.lampProgram = false
        · simp [h0, h1, h2]
        · by_cases h3 : (UCreateTexture i.yolkImage yolkId : TextureResult Unit).result = false
          · simp [h0, h1, h2, h3]
          · simp [h0, h1, h2, h3, h]

/-- C15 fails on the code: the teardown of `main` releases the four meshes and deletes
both programs in the order of the claim, but in between `UDestroyTexture` calls
`glGenTextures` and deletes no texture, and the process exits without any call that
closes the window or the context. -/
theorem mainTeardown_calls (gYolkMesh gWhiteMesh gPlateMesh gMesh : GLMesh)
    (gTextureYolk gTextureWhite gProgramId gLampProgramId : Nat) :
    mainTeardown gYolkMesh gWhiteMesh gPlateMesh gMesh gTextureYolk gTextureWhite gProgramId
        gLampProgramId =
      [ .deleteVertexArrays 1 gYolkMesh.vao,
        .deleteBuffers 2 gYolkMesh.vbo0 gYolkMesh.vbo1,
        .deleteVertexArrays 1 gWhiteMesh.vao,
        .deleteBuffers 2 gWhiteMesh.vbo0 gWhiteMesh.vbo1,
        .deleteVertexArrays 1 gPlateMesh.vao,
        .deleteBuffers 2 gPlateMesh.vbo0 gPlateMesh.vbo1,
        .deleteVertexArrays 1 gMesh.vao,
        .deleteBuffers 2 gMesh.vbo0 gMesh.vbo1,
        .genTextures 1,
        .genTextures 1,
        .deleteProgram gProgramId,
        .deleteProgram gLampProgramId,
        .exitProcess 0 ] ∧
    (∀ c ∈ mainTeardown gYolkMesh gWhiteMesh gPlateMesh gMesh gTextureYolk gTextureWhite
        gProgramId gLampProgramId, ¬ IsTextureDeletion c ∧ ¬ IsWindowClose c) := by
  have h : mainTeardown gYolkMesh gWhiteMesh gPlateMesh gMesh gTextureYolk gTextureWhite
      gProgramId gLampProgramId =
      [ .deleteVertexArrays 1 gYolkMesh.vao,
        .deleteBuffers 2 gYolkMesh.vbo0 gYolkMesh.vbo1,
        .deleteVertexArrays 1 gWhiteMesh.vao,
        .deleteBuffers 2 gWhiteMesh.vbo0 gWhiteMesh.vbo1,
        .deleteVertexArrays 1 gPlateMesh.vao,
        .deleteBuffers 2 gPlateMesh.vbo0 gPlateMesh.vbo1,
        .deleteVertexArrays 1 gMesh.vao,
        .deleteBuffers 2 gMesh.vbo0 gMesh.vbo1,
        .genTextures 1,
        .genTextures 1,
        .deleteProgram gProgramId,
        .deleteProgram gLampProgramId,
        .exitProcess 0 ] := rfl
  refine ⟨h, ?_⟩
  rw [h]
  intro c hc
  simp only [List.mem_cons, List.mem_singleton, List.not_mem_nil, or_false] at hc
  rcases hc with rfl | rfl | rfl | rfl | rfl | rfl | rfl | rfl | rfl | rfl | rfl | rfl | rfl <;>
    exact ⟨fun h => h, fun h => h⟩

/-! ## Properties of `URender` -/

/-- C16 fails on the code: the main pass of `URender` issues four draw calls, for the
yolk, white, plate and reference meshes in this order, and the first three are issued
with the vertex array of their mesh bound; the fourth, `glDrawArrays` for `gMesh`, is
issued after `glBindVertexArray(0)` with no vertex array bound, so not with `gMesh.vao`
(4 in the sample frame). -/
theorem URender_draws_with_bound_vao {F Cam Mat : Type} (ops : FloatOps F)
    (glm : GlmOps F Mat) (cam : CameraOps Cam F Mat) (st : RenderState F Cam) (bound : Nat) :
    drawsWithVao bound (URender ops glm cam st) =
      [ (.drawElements st.gYolkMesh.nIndices, st.gYolkMesh.vao),
        (.drawElements st.gWhiteMesh.nIndices, st.gWhiteMesh.vao),
        (.drawArrays 0 st.gPlateMesh.nIndices, st.gPlateMesh.vao),
        (.drawArrays 0 st.gMesh.nVertices, 0) ] ∧
    (sampleFrame (0, 0, 3)).gMesh.vao = 4 ∧
    (drawsWithVao bound (URender ratOps termGlm pointCamera (sampleFrame (0, 0, 3)))).map
        Prod.snd = [1, 2, 3, 0] := by
  refine ⟨rfl, rfl, rfl⟩

theorem viewUploads_URender {F Cam Mat : Type} (ops : FloatOps F) (glm : GlmOps F Mat)
    (cam : CameraOps Cam F Mat) (s : RenderState F Cam) :
    viewUploads (URender ops glm cam s) =
      [ (s.gProgramId, glm.translate (ops.lit 0, ops.lit 0, ops.lit (-5))),
        (s.gLampProgramId, glm.translate (ops.lit 0, ops.lit 0, ops.lit (-5))) ] := by
  simp [URender, renderSetup, renderMainPass, renderLamp, viewUploads, renderView]

/-- C17, as amended: in every call of `URender` the view matrix uploaded to the lit
program and to the lamp program is the fixed translation by `(0, 0, -5)`, whatever the
camera; the calls of the frame depend on the camera only through its position, which
is uploaded as the uniform `viewPosition`: any camera with the same position, whatever
its view matrix, gives the same calls. -/
theorem URender_view_is_fixed {F Cam Mat : Type} (ops : FloatOps F) (glm : GlmOps F Mat)
    (cam : CameraOps Cam F Mat) (st : RenderState F Cam) :
    viewUploads (URender ops glm cam st) =
      [ (st.gProgramId, glm.translate (ops.lit 0, ops.lit 0, ops.lit (-5))),
        (st.gLampProgramId, glm.translate (ops.lit 0, ops.lit 0, ops.lit (-5))) ] ∧
    (∀ camera : Cam,
      viewUploads (URender ops glm cam { st with gCamera := camera }) =
        viewUploads (URender ops glm cam st)) ∧
    (∀ (cam2 : CameraOps Cam F Mat) (camera2 : Cam),
      cam2.Position camera2 = cam.Position st.gCamera →
      URender ops glm cam2 { st with gCamera := camera2 } = URender ops glm cam st) ∧
    RenderCall.uniform3f st.gProgramId "viewPosition" (cam.Position st.gCamera).1
        (cam.Position st.gCamera).2.1 (cam.Position st.gCamera).2.2 ∈
      URender ops glm cam st := by
  have h := viewUploads_URender ops glm cam
  refine ⟨h st, ?_, ?_, ?_⟩
  · intro camera
    rw [h, h]
  · intro cam2 camera2 hp
    simp [URender, renderSetup, renderMainPass, renderLamp, hp]
  · simp [URender, renderSetup]

/-- Witness of C17 (amended): a camera model whose view matrix is a translation and a
camera model whose view matrix is `lookFrom`, both at position `(0, 0, 3)`, give the
same calls. -/
theorem URender_view_is_fixed_witness :
    (⟨fun c => c, MatTerm.translate⟩ : CameraOps (ℚ × ℚ × ℚ) ℚ MatTerm).GetViewMatrix
        (0, 0, 3) ≠ pointCamera.GetViewMatrix (0, 0, 3) ∧
      URender ratOps termGlm ⟨fun c => c, MatTerm.translate⟩ (sampleFrame (0, 0, 3)) =
        URender ratOps termGlm pointCamera (sampleFrame (0, 0, 3)) :=
  ⟨by simp [pointCamera],
    (URender_view_is_fixed ratOps termGlm pointCamera (sampleFrame (0, 0, 3))).2.2.1
      ⟨fun c => c, MatTerm.translate⟩ (0, 0, 3) rfl⟩

/-- C17 as stated fails: the cameras at `(0, 0, 3)` and at `(1, 0, 3)` have different
view matrices, yet the two frames upload the same view matrices, the translation by
`(0, 0, -5)`, which is the view matrix of neither camera. -/
theorem URender_view_is_fixed_counterexample :
    pointCamera.GetViewMatrix (0, 0, 3) ≠ pointCamera.GetViewMatrix (1, 0, 3) ∧
    viewUploads (URender ratOps termGlm pointCamera (sampleFrame (0, 0, 3))) =
      viewUploads (URender ratOps termGlm pointCamera (sampleFrame (1, 0, 3))) ∧
    viewUploads (URender ratOps termGlm pointCamera (sampleFrame (0, 0, 3))) =
      [(1, MatTerm.translate (0, 0, -5)), (2, MatTerm.translate (0, 0, -5))] ∧
    MatTerm.translate (0, 0, -5) ≠ pointCamera.GetViewMatrix (0, 0, 3) := by
  have h := fun p => viewUploads_URender ratOps termGlm pointCamera (sampleFrame p)
  refine ⟨?_, ?_, ?_, ?_⟩
  · simp [pointCamera]
  · rw [h, h]
    rfl
  · rw [h]
    rfl
  · simp [pointCamera]

/-! ## The triangles of the prism as a surface -/

theorem triangleAt_prismTriangle {F : Type} (ops : FloatOps F) (N : Nat) (radius halfLen : F)
    (indices : Int → Int) (hN : 1 ≤ N) (hmax : N ≤ 32767) (t : Int) (h0 : 0 ≤ t)
    (ht : t < 4 * (N : Int)) :
    triangleAt (indicesAfter ops (N : Int) radius halfLen indices) t =
      prismTriangle (N : Int) t := by
  have small : ∀ v : Int, 0 ≤ v → v ≤ 2 * (N : Int) + 1 → toGLushort v = v :=
    fun v h0 h1 => toGLushort_small v h0 (by omega)
  unfold prismTriangle nextPair
  by_cases h : t / 4 + 1 = (N : Int)
  · obtain ⟨t0, t1, t2, t3⟩ := closing_triangles ops N radius halfLen indices hN
    rw [small _ (by omega) (by omega)] at t0 t3
    rw [small _ (by omega) (by omega)] at t1
    rw [small _ (by omega) (by omega), small _ (by omega) (by omega)] at t2
    have hb : t / 4 = (N : Int) - 1 := by omega
    have hi : t = 4 * ((N : Int) - 1) ∨ t = 4 * ((N : Int) - 1) + 1 ∨
        t = 4 * ((N : Int) - 1) + 2 ∨ t = 4 * ((N : Int) - 1) + 3 := by omega
    rw [if_pos h, hb]
    rcases hi with hi | hi | hi | hi
    · rw [if_pos (by omega), hi, t0]
      simp only [Prod.mk.injEq, true_and]
      constructor <;> omega
    · rw [if_neg (by omega), if_pos (by omega), hi, t1]
      simp only [Prod.mk.injEq, true_and]
      constructor <;> omega
    · rw [if_neg (by omega), if_neg (by omega), if_pos (by omega), hi, t2]
      simp only [Prod.mk.injEq]
      refine ⟨?_, ?_, ?_⟩ <;> omega
    · rw [if_neg (by omega), if_neg (by omega), if_neg (by omega), hi, t3]
      simp only [Prod.mk.injEq]
      refine ⟨?_, ?_, ?_⟩ <;> omega
  · obtain ⟨e, hedef⟩ : ∃ e : Nat, (e : Int) = t / 4 + 1 := ⟨(t / 4 + 1).toNat, by omega⟩
    obtain ⟨t0, t1, t2, t3⟩ :=
      edge_triangles ops N radius halfLen indices e (by omega) (by omega)
    rw [small _ (by omega) (by omega), small _ (by omega) (by omega)] at t0
    rw [small _ (by omega) (by omega), small _ (by omega) (by omega)] at t1
    rw [small _ (by omega) (by omega), small _ (by omega) (by omega),
      small _ (by omega) (by omega)] at t2
    rw [small _ (by omega) (by omega), small _ (by omega) (by omega),
      small _ (by omega) (by omega)] at t3
    have hb : t / 4 = (e : Int) - 1 := by omega
    have hi : t = 4 * ((e : Int) - 1) ∨ t = 4 * ((e : Int) - 1) + 1 ∨
        t = 4 * ((e : Int) - 1) + 2 ∨ t = 4 * ((e : Int) - 1) + 3 := by omega
    rw [if_neg h, hb]
    rcases hi with hi | hi | hi | hi
    · rw [if_pos (by omega), hi, t0]
      simp only [Prod.mk.injEq, true_and]
      constructor <;> omega
    · rw [if_neg (by omega), if_pos (by omega), hi, t1]
      simp only [Prod.mk.injEq, true_and]
      constructor <;> omega
    · rw [if_neg (by omega), if_neg (by omega), if_pos (by omega), hi, t2]
      simp only [Prod.mk.injEq]
      refine ⟨?_, ?_, ?_⟩ <;> omega
    · rw [if_neg (by omega), if_neg (by omega), if_neg (by omega), hi, t3]
      simp only [Prod.mk.injEq]
      refine ⟨?_, ?_, ?_⟩ <;> omega

theorem nextPair_cases (N b : Int) :
    (b + 1 = N ∧ nextPair N b = 0) ∨ (b + 1 ≠ N ∧ nextPair N b = b + 1) := by
  unfold nextPair
  by_cases h : b + 1 = N
  · left; exact ⟨h, if_pos h⟩
  · right; exact ⟨h, if_neg h⟩

theorem prevPair_cases (N b : Int) :
    (b = 0 ∧ prevPair N b = N - 1) ∨ (b ≠ 0 ∧ prevPair N b = b - 1) := by
  unfold prevPair
  by_cases h : b = 0
  · left; exact ⟨h, if_pos h⟩
  · right; exact ⟨h, if_neg h⟩

theorem nextPair_prevPair (N b : Int) (h0 : 0 ≤ b) (hb : b < N) :
    nextPair N (prevPair N b) = b := by
  have p := prevPair_cases N b
  have n := nextPair_cases N (prevPair N b)
  omega

theorem inTriangle_prismTriangle (N t v : Int) :
    InTriangle v (prismTriangle N t) ↔
      (t % 4 = 0 ∧ (v = 0 ∨ v = 2 + 2 * (t / 4) ∨ v = 2 + 2 * nextPair N (t / 4))) ∨
      (t % 4 = 1 ∧ (v = 1 ∨ v = 3 + 2 * (t / 4) ∨ v = 3 + 2 * nextPair N (t / 4))) ∨
      (t % 4 = 2 ∧
        (v = 2 + 2 * (t / 4) ∨ v = 3 + 2 * (t / 4) ∨ v = 3 + 2 * nextPair N (t / 4))) ∨
      (t % 4 = 3 ∧
        (v = 3 + 2 * nextPair N (t / 4) ∨ v = 2 + 2 * nextPair N (t / 4) ∨
          v = 2 + 2 * (t / 4))) := by
  unfold InTriangle prismTriangle
  have h4 : t % 4 = 0 ∨ t % 4 = 1 ∨ t % 4 = 2 ∨ t % 4 = 3 := by omega
  rcases h4 with h | h | h | h <;> simp [h]

theorem prismTriangle_block0 (N b : Int) :
    prismTriangle N (4 * b) = (0, 2 + 2 * b, 2 + 2 * nextPair N b) := by
  have h1 : (4 * b) % 4 = 0 := by omega
  have h2 : (4 * b) / 4 = b := by omega
  simp [prismTriangle, h1, h2]

theorem prismTriangle_block1 (N b : Int) :
    prismTriangle N (4 * b + 1) = (1, 3 + 2 * b, 3 + 2 * nextPair N b) := by
  have h1 : (4 * b + 1) % 4 = 1 := by omega
  have h2 : (4 * b + 1) / 4 = b := by omega
  simp [prismTriangle, h1, h2]

theorem prismTriangle_block2 (N b : Int) :
    prismTriangle N (4 * b + 2) = (2 + 2 * b, 3 + 2 * b, 3 + 2 * nextPair N b) := by
  have h1 : (4 * b + 2) % 4 = 2 := by omega
  have h2 : (4 * b + 2) / 4 = b := by omega
  simp [prismTriangle, h1, h2]

theorem prismTriangle_block3 (N b : Int) :
    prismTriangle N (4 * b + 3) =
      (3 + 2 * nextPair N b, 2 + 2 * nextPair N b, 2 + 2 * b) := by
  have h1 : (4 * b + 3) % 4 = 3 := by omega
  have h2 : (4 * b + 3) / 4 = b := by omega
  simp [prismTriangle, h1, h2]

theorem sharedByTwo_of_pair (N t x y s1 s2 : Int) (h12 : s1 ≠ s2)
    (r1 : 0 ≤ s1 ∧ s1 < 4 * N) (r2 : 0 ≤ s2 ∧ s2 < 4 * N)
    (x1 : InTriangle x (prismTriangle N s1)) (y1 : InTriangle y (prismTriangle N s1))
    (x2 : InTriangle x (prismTriangle N s2)) (y2 : InTriangle y (prismTriangle N s2))
    (only : ∀ s : Int, 0 ≤ s → s < 4 * N → InTriangle x (prismTriangle N s) →
      InTriangle y (prismTriangle N s) → s = s1 ∨ s = s2)
    (h0 : 0 ≤ t) (ht : t < 4 * N) (hx : InTriangle x (prismTriangle N t))
    (hy : InTriangle y (prismTriangle N t)) : SharedByTwo N t x y := by
  rcases only t h0 ht hx hy with h | h
  · subst h
    exact ⟨s2, r2.1, r2.2, fun e => h12 e.symm, x2, y2, only⟩
  · subst h
    refine ⟨s1, r1.1, r1.2, h12, x1, y1, ?_⟩
    intro s a b c d
    exact (only s a b c d).symm

theorem sharedByTwo_symm (N t x y : Int) (h : SharedByTwo N t x y) : SharedByTwo N t y x := by
  obtain ⟨t2, a, b, c, d, e, f⟩ := h
  exact ⟨t2, a, b, c, e, d, fun s h0 h1 hy hx => f s h0 h1 hx hy⟩

theorem only_center_top (N i s : Int) (hN : 3 ≤ N) (hi0 : 0 ≤ i) (hi : i < N) (h0 : 0 ≤ s)
    (hs : s < 4 * N) (hx : InTriangle 0 (prismTriangle N s))
    (hy : InTriangle (2 + 2 * i) (prismTriangle N s)) :
    s = 4 * i ∨ s = 4 * prevPair N i := by
  rw [inTriangle_prismTriangle] at hx hy
  have n := nextPair_cases N (s / 4)
  have p := prevPair_cases N i
  omega

theorem only_center_bottom (N i s : Int) (hN : 3 ≤ N) (hi0 : 0 ≤ i) (hi : i < N)
    (h0 : 0 ≤ s) (hs : s < 4 * N) (hx : InTriangle 1 (prismTriangle N s))
    (hy : InTriangle (3 + 2 * i) (prismTriangle N s)) :
    s = 4 * i + 1 ∨ s = 4 * prevPair N i + 1 := by
  rw [inTriangle_prismTriangle] at hx hy
  have n := nextPair_cases N (s / 4)
  have p := prevPair_cases N i
  omega

theorem only_top_top (N i s : Int) (hN : 3 ≤ N) (hi0 : 0 ≤ i) (hi : i < N) (h0 : 0 ≤ s)
    (hs : s < 4 * N) (hx : InTriangle (2 + 2 * i) (prismTriangle N s))
    (hy : InTriangle (2 + 2 * nextPair N i) (prismTriangle N s)) :
    s = 4 * i ∨ s = 4 * i + 3 := by
  rw [inTriangle_prismTriangle] at hx hy
  have n := nextPair_cases N (s / 4)
  have m := nextPair_cases N i
  omega

theorem only_bottom_bottom (N i s : Int) (hN : 3 ≤ N) (hi0 : 0 ≤ i) (hi : i < N)
    (h0 : 0 ≤ s) (hs : s < 4 * N) (hx : InTriangle (3 + 2 * i) (prismTriangle N s))
    (hy : InTriangle (3 + 2 * nextPair N i) (prismTriangle N s)) :
    s = 4 * i + 1 ∨ s = 4 * i + 2 := by
  rw [inTriangle_prismTriangle] at hx hy
  have n := nextPair_cases N (s / 4)
  have m := nextPair_cases N i
  omega

theorem only_top_bottom (N i s : Int) (hN : 3 ≤ N) (hi0 : 0 ≤ i) (hi : i < N) (h0 : 0 ≤ s)
    (hs : s < 4 * N) (hx : InTriangle (2 + 2 * i) (prismTriangle N s))
    (hy : InTriangle (3 + 2 * i) (prismTriangle N s)) :
    s = 4 * i + 2 ∨ s = 4 * prevPair N i + 3 := by
  rw [inTriangle_prismTriangle] at hx hy
  have n := nextPair_cases N (s / 4)
  have p := prevPair_cases N i
  omega

theorem only_diagonal (N i s : Int) (hN : 3 ≤ N) (hi0 : 0 ≤ i) (hi : i < N) (h0 : 0 ≤ s)
    (hs : s < 4 * N) (hx : InTriangle (2 + 2 * i) (prismTriangle N s))
    (hy : InTriangle (3 + 2 * nextPair N i) (prismTriangle N s)) :
    s = 4 * i + 2 ∨ s = 4 * i + 3 := by
  rw [inTriangle_prismTriangle] at hx hy
  have n := nextPair_cases N (s / 4)
  have m := nextPair_cases N i
  omega

/-- The edge from the top centre to the top vertex of pair `i` lies in two triangles. -/
theorem shared_center_top (N i t : Int) (hN : 3 ≤ N) (hi0 : 0 ≤ i) (hi : i < N) (h0 : 0 ≤ t)
    (ht : t < 4 * N) (hx : InTriangle 0 (prismTriangle N t))
    (hy : InTriangle (2 + 2 * i) (prismTriangle N t)) : SharedByTwo N t 0 (2 + 2 * i) := by
  have p := prevPair_cases N i
  refine sharedByTwo_of_pair N t 0 (2 + 2 * i) (4 * i) (4 * prevPair N i) (by omega)
    (by omega) (by omega) ?_ ?_ ?_ ?_
    (fun s a b c d => only_center_top N i s hN hi0 hi a b c d) h0 ht hx hy
  · rw [prismTriangle_block0]; exact Or.inl rfl
  · rw [prismTriangle_block0]; exact Or.inr (Or.inl rfl)
  · rw [prismTriangle_block0]; exact Or.inl rfl
  · rw [prismTriangle_block0, nextPair_prevPair N i hi0 hi]; exact Or.inr (Or.inr rfl)

/-- The edge from the bottom centre to the bottom vertex of pair `i` lies in two
triangles. -/
theorem shared_center_bottom (N i t : Int) (hN : 3 ≤ N) (hi0 : 0 ≤ i) (hi : i < N)
    (h0 : 0 ≤ t) (ht : t < 4 * N) (hx : InTriangle 1 (prismTriangle N t))
    (hy : InTriangle (3 + 2 * i) (prismTriangle N t)) : SharedByTwo N t 1 (3 + 2 * i) := by
  have p := prevPair_cases N i
  refine sharedByTwo_of_pair N t 1 (3 + 2 * i) (4 * i + 1) (4 * prevPair N i + 1) (by omega)
    (by omega) (by omega) ?_ ?_ ?_ ?_
    (fun s a b c d => only_center_bottom N i s hN hi0 hi a b c d) h0 ht hx hy
  · rw [prismTriangle_block1]; exact Or.inl rfl
  · rw [prismTriangle_block1]; exact Or.inr (Or.inl rfl)
  · rw [prismTriangle_block1]; exact Or.inl rfl
  · rw [prismTriangle_block1, nextPair_prevPair N i hi0 hi]; exact Or.inr (Or.inr rfl)

/-- The top edge between pair `i` and the next pair lies in two triangles. -/
theorem shared_top_top (N i t : Int) (hN : 3 ≤ N) (hi0 : 0 ≤ i) (hi : i < N) (h0 : 0 ≤ t)
    (ht : t < 4 * N) (hx : InTriangle (2 + 2 * i) (prismTriangle N t))
    (hy : InTriangle (2 + 2 * nextPair N i) (prismTriangle N t)) :
    SharedByTwo N t (2 + 2 * i) (2 + 2 * nextPair N i) := by
  refine sharedByTwo_of_pair N t _ _ (4 * i) (4 * i + 3) (by omega)
    (by omega) (by omega) ?_ ?_ ?_ ?_
    (fun s a b c d => only_top_top N i s hN hi0 hi a b c d) h0 ht hx hy
  · rw [prismTriangle_block0]; exact Or.inr (Or.inl rfl)
  · rw [prismTriangle_block0]; exact Or.inr (Or.inr rfl)
  · rw [prismTriangle_block3]; exact Or.inr (Or.inr rfl)
  · rw [prismTriangle_block3]; exact Or.inr (Or.inl rfl)

/-- The bottom edge between pair `i` and the next pair lies in two triangles. -/
theorem shared_bottom_bottom (N i t : Int) (hN : 3 ≤ N) (hi0 : 0 ≤ i) (hi : i < N)
    (h0 : 0 ≤ t) (ht : t < 4 * N) (hx : InTriangle (3 + 2 * i) (prismTriangle N t))
    (hy : InTriangle (3 + 2 * nextPair N i) (prismTriangle N t)) :
    SharedByTwo N t (3 + 2 * i) (3 + 2 * nextPair N i) := by
  refine sharedByTwo_of_pair N t _ _ (4 * i + 1) (4 * i + 2) (by omega)
    (by omega) (by omega) ?_ ?_ ?_ ?_
    (fun s a b c d => only_bottom_bottom N i s hN hi0 hi a b c d) h0 ht hx hy
  · rw [prismTriangle_block1]; exact Or.inr (Or.inl rfl)
  · rw [prismTriangle_block1]; exact Or.inr (Or.inr rfl)
  · rw [prismTriangle_block2]; exact Or.inr (Or.inl rfl)
  · rw [prismTriangle_block2]; exact Or.inr (Or.inr rfl)

/-- The vertical edge of pair `i` lies in two triangles. -/
theorem shared_top_bottom (N i t : Int) (hN : 3 ≤ N) (hi0 : 0 ≤ i) (hi : i < N) (h0 : 0 ≤ t)
    (ht : t < 4 * N) (hx : InTriangle (2 + 2 * i) (prismTriangle N t))
    (hy : InTriangle (3 + 2 * i) (prismTriangle N t)) :
    SharedByTwo N t (2 + 2 * i) (3 + 2 * i) := by
  have p := prevPair_cases N i
  refine sharedByTwo_of_pair N t _ _ (4 * i + 2) (4 * prevPair N i + 3) (by omega)
    (by omega) (by omega) ?_ ?_ ?_ ?_
    (fun s a b c d => only_top_bottom N i s hN hi0 hi a b c d) h0 ht hx hy
  · rw [prismTriangle_block2]; exact Or.inl rfl
  · rw [prismTriangle_block2]; exact Or.inr (Or.inl rfl)
  · rw [prismTriangle_block3, nextPair_prevPair N i hi0 hi]; exact Or.inr (Or.inl rfl)
  · rw [prismTriangle_block3, nextPair_prevPair N i hi0 hi]; exact Or.inl rfl

/-- The diagonal of the side quad after pair `i` lies in two triangles. -/
theorem shared_diagonal (N i t : Int) (hN : 3 ≤ N) (hi0 : 0 ≤ i) (hi : i < N) (h0 : 0 ≤ t)
    (ht : t < 4 * N) (hx : InTriangle (2 + 2 * i) (prismTriangle N t))
    (hy : InTriangle (3 + 2 * nextPair N i) (prismTriangle N t)) :
    SharedByTwo N t (2 + 2 * i) (3 + 2 * nextPair N i) := by
  refine sharedByTwo_of_pair N t _ _ (4 * i + 2) (4 * i + 3) (by omega)
    (by omega) (by omega) ?_ ?_ ?_ ?_
    (fun s a b c d => only_diagonal N i s hN hi0 hi a b c d) h0 ht hx hy
  · rw [prismTriangle_block2]; exact Or.inl rfl
  · rw [prismTriangle_block2]; exact Or.inr (Or.inr rfl)
  · rw [prismTriangle_block3]; exact Or.inr (Or.inr rfl)
  · rw [prismTriangle_block3]; exact Or.inl rfl

/-- Two different entries of a triangle of a prism with at least three sides are
together in exactly one other triangle. -/
theorem prism_edge_shared (N t a c : Int) (hN : 3 ≤ N) (h0 : 0 ≤ t) (ht : t < 4 * N)
    (hac : a ≠ c) (ha : InTriangle a (prismTriangle N t))
    (hc : InTriangle c (prismTriangle N t)) : SharedByTwo N t a c := by
  have ha2 := (inTriangle_prismTriangle N t a).mp ha
  have hc2 := (inTriangle_prismTriangle N t c).mp hc
  have n := nextPair_cases N (t / 4)
  have hb0 : 0 ≤ t / 4 := by omega
  have hb : t / 4 < N := by omega
  have hj0 : 0 ≤ nextPair N (t / 4) := by omega
  have hj : nextPair N (t / 4) < N := by omega
  rcases ha2 with ⟨ka, rfl | rfl | rfl⟩ | ⟨ka, rfl | rfl | rfl⟩ | ⟨ka, rfl | rfl | rfl⟩ |
      ⟨ka, rfl | rfl | rfl⟩ <;>
    rcases hc2 with ⟨kc, rfl | rfl | rfl⟩ | ⟨kc, rfl | rfl | rfl⟩ | ⟨kc, rfl | rfl | rfl⟩ |
      ⟨kc, rfl | rfl | rfl⟩ <;>
    first
    | omega
    | exact shared_center_top N _ t hN hb0 hb h0 ht ha hc
    | exact shared_center_top N _ t hN hj0 hj h0 ht ha hc
    | exact sharedByTwo_symm _ _ _ _ (shared_center_top N _ t hN hb0 hb h0 ht hc ha)
    | exact sharedByTwo_symm _ _ _ _ (shared_center_top N _ t hN hj0 hj h0 ht hc ha)
    | exact shared_center_bottom N _ t hN hb0 hb h0 ht ha hc
    | exact shared_center_bottom N _ t hN hj0 hj h0 ht ha hc
    | exact sharedByTwo_symm _ _ _ _ (shared_center_bottom N _ t hN hb0 hb h0 ht hc ha)
    | exact sharedByTwo_symm _ _ _ _ (shared_center_bottom N _ t hN hj0 hj h0 ht hc ha)
    | exact shared_top_top N _ t hN hb0 hb h0 ht ha hc
    | exact sharedByTwo_symm _ _ _ _ (shared_top_top N _ t hN hb0 hb h0 ht hc ha)
    | exact shared_bottom_bottom N _ t hN hb0 hb h0 ht ha hc
    | exact sharedByTwo_symm _ _ _ _ (shared_bottom_bottom N _ t hN hb0 hb h0 ht hc ha)
    | exact shared_top_bottom N _ t hN hb0 hb h0 ht ha hc
    | exact shared_top_bottom N _ t hN hj0 hj h0 ht ha hc
    | exact sharedByTwo_symm _ _ _ _ (shared_top_bottom N _ t hN hb0 hb h0 ht hc ha)
    | exact sharedByTwo_symm _ _ _ _ (shared_top_bottom N _ t hN hj0 hj h0 ht hc ha)
    | exact shared_diagonal N _ t hN hb0 hb h0 ht ha hc
    | exact sharedByTwo_symm _ _ _ _ (shared_diagonal N _ t hN hb0 hb h0 ht hc ha)

/-- Every index from 0 to `2N+1` is an entry of some triangle of the prism. -/
theorem prism_vertex_used (N v : Int) (hN : 1 ≤ N) (hv0 : 0 ≤ v) (hv : v ≤ 2 * N + 1) :
    ∃ t : Int, 0 ≤ t ∧ t < 4 * N ∧ InTriangle v (prismTriangle N t) := by
  by_cases h2 : v < 2
  · by_cases hz : v = 0
    · refine ⟨4 * 0, by omega, by omega, ?_⟩
      rw [prismTriangle_block0]; exact Or.inl hz
    · refine ⟨4 * 0 + 1, by omega, by omega, ?_⟩
      rw [prismTriangle_block1]
      have e : v = 1 := by omega
      exact Or.inl e
  · by_cases he : v % 2 = 0
    · refine ⟨4 * ((v - 2) / 2), by omega, by omega, ?_⟩
      rw [prismTriangle_block0]
      have e : v = 2 + 2 * ((v - 2) / 2) := by omega
      exact Or.inr (Or.inl e)
    · refine ⟨4 * ((v - 2) / 2) + 1, by omega, by omega, ?_⟩
      rw [prismTriangle_block1]
      have e : v = 3 + 2 * ((v - 2) / 2) := by omega
      exact Or.inr (Or.inl e)

theorem nextPair_last (N : Int) : nextPair N (N - 1) = 0 := by
  unfold nextPair
  rw [if_pos (by omega)]

theorem prismTriangle_distinct (N t : Int) (hN : 2 ≤ N) (h0 : 0 ≤ t) :
    (prismTriangle N t).1 ≠ (prismTriangle N t).2.1 ∧
    (prismTriangle N t).1 ≠ (prismTriangle N t).2.2 ∧
    (prismTriangle N t).2.1 ≠ (prismTriangle N t).2.2 := by
  have n := nextPair_cases N (t / 4)
  have h4 : t % 4 = 0 ∨ t % 4 = 1 ∨ t % 4 = 2 ∨ t % 4 = 3 := by omega
  unfold prismTriangle
  rcases h4 with h | h | h | h <;> simp only [h] <;> simp <;> omega

theorem istores_lt_65536 {F : Type} (ops : FloatOps F) (N : Nat) (radius halfLen : F)
    (x : Int × Int) (hx : x ∈ (UCreatePrismMesh ops (N : Int) radius halfLen).istores) :
    x.2 < 65536 := by
  rw [UCreatePrismMesh_istores] at hx
  rcases List.mem_append.mp hx with h | h
  · unfold loopTris at h
    obtain ⟨e, -, h⟩ := List.mem_flatMap.mp h
    split at h
    · simp at h
    · simp only [edgeStores, toGLushort, List.mem_cons, List.mem_singleton, List.not_mem_nil,
        or_false] at h
      rcases h with rfl | rfl | rfl | rfl | rfl | rfl | rfl | rfl | rfl | rfl | rfl | rfl <;>
        (simp only []; omega)
  · simp only [closingStores, toGLushort, List.mem_cons, List.mem_singleton, List.not_mem_nil,
      or_false] at h
    rcases h with rfl | rfl | rfl | rfl | rfl | rfl | rfl | rfl | rfl | rfl | rfl | rfl <;>
      (simp only []; omega)

theorem indicesAfter_lt_65536 {F : Type} (ops : FloatOps F) (N : Nat) (radius halfLen : F)
    (indices : Int → Int) (p : Int) (h0 : 0 ≤ p) (hp : p < 12 * (N : Int)) :
    indicesAfter ops (N : Int) radius halfLen indices p < 65536 := by
  have hi := indexOffsets_eq ops N radius halfLen (by omega)
  have hm : p ∈ (UCreatePrismMesh ops (N : Int) radius halfLen).istores.map Prod.fst := by
    have h : p ∈ indexOffsets ops (N : Int) radius halfLen := by
      rw [hi, mem_offsetsUpTo]; push_cast; omega
    exact h
  obtain ⟨x, hx, e⟩ := applyStores_mem_values _ indices p hm
  rw [indicesAfter, e]
  exact istores_lt_65536 ops N radius halfLen x hx

/-- C18, as amended: for `2 <= numSides <= 32767` every triangle stored has three
pairwise distinct indices, and the two triangles of the closing quad have exactly the
indices `2*numSides` and 3 in common. -/
theorem UCreatePrismMesh_no_degenerate_triangle {F : Type} (ops : FloatOps F) (N : Nat)
    (radius halfLen : F) (indices : Int → Int) (hN : 2 ≤ N) (hmax : N ≤ 32767)
    (t : Int) (h0 : 0 ≤ t) (ht : t < 4 * (N : Int)) :
    ((triangleAt (indicesAfter ops (N : Int) radius halfLen indices) t).1 ≠
        (triangleAt (indicesAfter ops (N : Int) radius halfLen indices) t).2.1 ∧
      (triangleAt (indicesAfter ops (N : Int) radius halfLen indices) t).1 ≠
        (triangleAt (indicesAfter ops (N : Int) radius halfLen indices) t).2.2 ∧
      (triangleAt (indicesAfter ops (N : Int) radius halfLen indices) t).2.1 ≠
        (triangleAt (indicesAfter ops (N : Int) radius halfLen indices) t).2.2) ∧
    (∀ v : Int,
      (InTriangle v (triangleAt (indicesAfter ops (N : Int) radius halfLen indices)
          (4 * ((N : Int) - 1) + 2)) ∧
        InTriangle v (triangleAt (indicesAfter ops (N : Int) radius halfLen indices)
          (4 * ((N : Int) - 1) + 3))) ↔
      (v = 2 * (N : Int) ∨ v = 3)) := by
  refine ⟨?_, ?_⟩
  · rw [triangleAt_prismTriangle ops N radius halfLen indices (by omega) hmax t h0 ht]
    exact prismTriangle_distinct (N : Int) t (by omega) h0
  · intro v
    rw [triangleAt_prismTriangle ops N radius halfLen indices (by omega) hmax _ (by omega)
        (by omega),
      triangleAt_prismTriangle ops N radius halfLen indices (by omega) hmax _ (by omega)
        (by omega),
      prismTriangle_block2, prismTriangle_block3, nextPair_last]
    simp only [InTriangle]
    constructor
    · intro h; omega
    · intro h; omega

/-- Witness of C18 (amended): triangle 12, the first closing triangle with four sides. -/
theorem UCreatePrismMesh_no_degenerate_triangle_witness :
    2 ≤ 4 ∧ 4 ≤ 32767 ∧ (0 : Int) ≤ 12 ∧ (12 : Int) < 4 * 4 ∧
      (triangleAt (indicesAfter ratOps 4 1 1 (fun _ => 0)) 12).1 ≠
        (triangleAt (indicesAfter ratOps 4 1 1 (fun _ => 0)) 12).2.1 :=
  ⟨by decide, by decide, by decide, by decide,
    (UCreatePrismMesh_no_degenerate_triangle ratOps 4 1 1 (fun _ => 0) (by decide) (by decide)
      12 (by decide) (by decide)).1.1⟩

/-- C18 as stated fails with 32768 sides: the first closing triangle is stored as
`(0, 0, 2)`, whose first two indices are equal. -/
theorem UCreatePrismMesh_no_degenerate_triangle_counterexample :
    triangleAt (indicesAfter ratOps 32768 1 1 (fun _ => 0)) 131068 = (0, 0, 2) ∧
      (triangleAt (indicesAfter ratOps 32768 1 1 (fun _ => 0)) 131068).1 =
        (triangleAt (indicesAfter ratOps 32768 1 1 (fun _ => 0)) 131068).2.1 := by
  have h := (closing_triangles ratOps 32768 1 1 (fun _ => 0) (by decide)).1
  have e : toGLushort (2 * ((32768 : Nat) : Int)) = 0 := by decide
  rw [e] at h
  have h2 : triangleAt (indicesAfter ratOps 32768 1 1 (fun _ => 0)) 131068 = (0, 0, 2) := h
  refine ⟨h2, ?_⟩
  rw [h2]

/-- C19, as amended: for `3 <= numSides <= 32767` the triangles stored form a closed
surface: two different indices of a triangle are together in exactly one other of the
`4*numSides` triangles, and every index from 0 to `2*numSides+1` is in some triangle. -/
theorem UCreatePrismMesh_closed_surface {F : Type} (ops : FloatOps F) (N : Nat)
    (radius halfLen : F) (indices : Int → Int) (hN : 3 ≤ N) (hmax : N ≤ 32767) :
    (∀ t a c : Int, 0 ≤ t → t < 4 * (N : Int) → a ≠ c →
      InTriangle a (triangleAt (indicesAfter ops (N : Int) radius halfLen indices) t) →
      InTriangle c (triangleAt (indicesAfter ops (N : Int) radius halfLen indices) t) →
      ∃ t2 : Int, 0 ≤ t2 ∧ t2 < 4 * (N : Int) ∧ t2 ≠ t ∧
        InTriangle a (triangleAt (indicesAfter ops (N : Int) radius halfLen indices) t2) ∧
        InTriangle c (triangleAt (indicesAfter ops (N : Int) radius halfLen indices) t2) ∧
        ∀ s : Int, 0 ≤ s → s < 4 * (N : Int) →
          InTriangle a (triangleAt (indicesAfter ops (N : Int) radius halfLen indices) s) →
          InTriangle c (triangleAt (indicesAfter ops (N : Int) radius halfLen indices) s) →
          s = t ∨ s = t2) ∧
    (∀ v : Int, 0 ≤ v → v ≤ 2 * (N : Int) + 1 →
      ∃ t : Int, 0 ≤ t ∧ t < 4 * (N : Int) ∧
        InTriangle v (triangleAt (indicesAfter ops (N : Int) radius halfLen indices) t)) := by
  have tri := triangleAt_prismTriangle ops N radius halfLen indices (by omega) hmax
  refine ⟨?_, ?_⟩
  · intro t a c h0 ht hac ha hc
    rw [tri t h0 ht] at ha hc
    obtain ⟨t2, r0, r1, hne, xa, xc, only⟩ :=
      prism_edge_shared (N : Int) t a c (by omega) h0 ht hac ha hc
    refine ⟨t2, r0, r1, hne, by rw [tri t2 r0 r1]; exact xa, by rw [tri t2 r0 r1]; exact xc, ?_⟩
    intro s s0 s1 sa sc
    rw [tri s s0 s1] at sa sc
    exact only s s0 s1 sa sc
  · intro v hv0 hv
    obtain ⟨t, r0, r1, hm⟩ := prism_vertex_used (N : Int) v (by omega) hv0 hv
    exact ⟨t, r0, r1, by rw [tri t r0 r1]; exact hm⟩

/-- Witness of C19 (amended): with four sides, index 9 is in some triangle. -/
theorem UCreatePrismMesh_closed_surface_witness :
    3 ≤ 4 ∧ 4 ≤ 32767 ∧
      ∃ t : Int, 0 ≤ t ∧ t < 4 * 4 ∧
        InTriangle 9 (triangleAt (indicesAfter ratOps 4 1 1 (fun _ => 0)) t) :=
  ⟨by decide, by decide,
    (UCreatePrismMesh_closed_surface ratOps 4 1 1 (fun _ => 0) (by decide) (by decide)).2 9
      (by decide) (by decide)⟩

/-- C19 as stated fails with 32768 sides: the index 65536, which lies between 0 and
`2*numSides+1`, is in none of the triangles, every stored index being a 16-bit value. -/
theorem UCreatePrismMesh_closed_surface_counterexample :
    (0 : Int) ≤ 65536 ∧ (65536 : Int) ≤ 2 * 32768 + 1 ∧
      ∀ t : Int, 0 ≤ t → t < 4 * 32768 →
        ¬ InTriangle 65536 (triangleAt (indicesAfter ratOps 32768 1 1 (fun _ => 0)) t) := by
  refine ⟨by decide, by decide, ?_⟩
  intro t h0 ht hin
  have b := fun p h0 hp =>
    indicesAfter_lt_65536 ratOps 32768 (1 : ℚ) 1 (fun _ => 0) p h0 hp
  have b0 := b (3 * t + 0) (by omega) (by push_cast; omega)
  have b1 := b (3 * t + 1) (by omega) (by push_cast; omega)
  have b2 := b (3 * t + 2) (by omega) (by push_cast; omega)
  simp only [InTriangle, triangleAt] at hin
  have c0 : indicesAfter ratOps 32768 (1 : ℚ) 1 (fun _ => 0) (3 * t + 0) < 65536 := b0
  have c1 : indicesAfter ratOps 32768 (1 : ℚ) 1 (fun _ => 0) (3 * t + 1) < 65536 := b1
  have c2 : indicesAfter ratOps 32768 (1 : ℚ) 1 (fun _ => 0) (3 * t + 2) < 65536 := b2
  omega

/-! ## The 16-bit index values -/

theorem map_snd_loopTris (k : Nat) :
    (loopTris k).map Prod.snd =
      ((List.range k).flatMap (fun e =>
        if e = 0 then []
        else (edgePattern (2 * (e : Int)) (2 * (e : Int) + 1) (2 * (e : Int) + 2)
          (2 * (e : Int) + 3)).flatMap triangleEntries)).map toGLushort := by
  induction k with
  | zero => simp [loopTris]
  | succ k ih =>
    rw [loopTris_succ, List.map_append, ih, List.range_succ, List.flatMap_append,
      List.map_append]
    congr 1
    rcases Nat.eq_zero_or_pos k with hk | hk
    · subst hk; simp
    · have h5 : k ≠ 0 := by omega
      have a : (4 : Int) + 2 * (k : Int) - 4 = 2 * (k : Int) := by omega
      have b : (4 : Int) + 2 * (k : Int) - 3 = 2 * (k : Int) + 1 := by omega
      have c : (4 : Int) + 2 * (k : Int) - 2 = 2 * (k : Int) + 2 := by omega
      have d : (4 : Int) + 2 * (k : Int) - 1 = 2 * (k : Int) + 3 := by omega
      simp only [h5, if_false, edgeStores, a, b, c, d, List.map, List.flatMap_cons,
        List.flatMap_nil, List.append_nil, edgePattern, triangleEntries, List.cons_append,
        List.nil_append]

/-- The values stored to `indices[]` are the assigned `int` values, each converted to
`GLushort`, for every number of sides. -/
theorem indexValues_eq_map {F : Type} (ops : FloatOps F) (N : Nat) (radius halfLen : F) :
    indexValues ops (N : Int) radius halfLen = (assignedValues N).map toGLushort := by
  have a : (2 : Int) + 2 * (N : Int) - 2 = 2 * (N : Int) := by omega
  have b : (2 : Int) + 2 * (N : Int) - 1 = 2 * (N : Int) + 1 := by omega
  rw [indexValues, UCreatePrismMesh_istores, List.map_append, map_snd_loopTris, assignedValues,
    List.map_append]
  congr 1
  simp only [closingStores, a, b, List.map, List.flatMap_cons, List.flatMap_nil,
    List.append_nil, edgePattern, triangleEntries, List.cons_append, List.nil_append]

theorem assignedValues_bound (N : Nat) (hN : 1 ≤ N) (v : Int) (hv : v ∈ assignedValues N) :
    0 ≤ v ∧ v ≤ 2 * (N : Int) + 1 := by
  unfold assignedValues at hv
  rcases List.mem_append.mp hv with h | h
  · obtain ⟨e, he, h⟩ := List.mem_flatMap.mp h
    have he := List.mem_range.mp he
    split at h
    · simp at h
    · simp only [edgePattern, triangleEntries, List.flatMap_cons, List.flatMap_nil,
        List.append_nil, List.cons_append, List.nil_append, List.mem_cons, List.mem_singleton,
        List.not_mem_nil, or_false] at h
      omega
  · simp only [edgePattern, triangleEntries, List.flatMap_cons, List.flatMap_nil,
      List.append_nil, List.cons_append, List.nil_append, List.mem_cons, List.mem_singleton,
      List.not_mem_nil, or_false] at h
    omega

theorem assignedValues_max (N : Nat) : 2 * (N : Int) + 1 ∈ assignedValues N := by
  unfold assignedValues
  refine List.mem_append_right _ ?_
  simp [edgePattern, triangleEntries]

theorem indexValues_eq_assigned {F : Type} (ops : FloatOps F) (N : Nat) (radius halfLen : F)
    (hN : 1 ≤ N) (hmax : N ≤ 32767) :
    indexValues ops (N : Int) radius halfLen = assignedValues N := by
  rw [indexValues_eq_map]
  have h : ∀ v ∈ assignedValues N, toGLushort v = id v := by
    intro v hv
    have b := assignedValues_bound N hN v hv
    exact toGLushort_small v b.1 (by omega)
  rw [List.map_congr_left h, List.map_id]

theorem istores_values_eq_assigned {F : Type} (ops : FloatOps F) (N : Nat)
    (radius halfLen : F) (hN : 1 ≤ N) (hmax : N ≤ 32767) :
    (UCreatePrismMesh ops (N : Int) radius halfLen).istores.map Prod.snd = assignedValues N :=
  indexValues_eq_assigned ops N radius halfLen hN hmax

/-- C20: for `1 <= numSides <= 32767` the values stored in the 16-bit index array are
the assigned `int` values themselves, none is changed by the conversion to `GLushort`,
and the largest of them is `2*numSides+1`; for the cylinder, with 100 sides, the
largest stored index is 201. -/
theorem UCreatePrismMesh_indices_fit_16_bits {F : Type} (ops : FloatOps F) (N : Nat)
    (radius halfLen : F) (hN : 1 ≤ N) (hmax : N ≤ 32767) :
    indexValues ops (N : Int) radius halfLen = assignedValues N ∧
    (∀ v ∈ assignedValues N, toGLushort v = v) ∧
    (∀ v ∈ indexValues ops (N : Int) radius halfLen, v ≤ 2 * (N : Int) + 1) ∧
    2 * (N : Int) + 1 ∈ indexValues ops (N : Int) radius halfLen ∧
    (∀ v ∈ (cylinderPrism ops).istores.map Prod.snd, v ≤ 201) ∧
    201 ∈ (cylinderPrism ops).istores.map Prod.snd := by
  have e := indexValues_eq_assigned ops N radius halfLen hN hmax
  have ec : (cylinderPrism ops).istores.map Prod.snd = assignedValues 100 := by
    have hs : NUM_SIDES = ((100 : Nat) : Int) := rfl
    unfold cylinderPrism
    rw [hs]
    rw [istores_values_eq_assigned ops 100 (ops.lit (25 / 100)) (ops.lit (2 / 100)) (by omega)
      (by omega)]
  refine ⟨e, ?_, ?_, ?_, ?_, ?_⟩
  · intro v hv
    have b := assignedValues_bound N hN v hv
    exact toGLushort_small v b.1 (by omega)
  · intro v hv
    rw [e] at hv
    exact (assignedValues_bound N hN v hv).2
  · rw [e]
    exact assignedValues_max N
  · intro v hv
    rw [ec] at hv
    have b := (assignedValues_bound 100 (by omega) v hv).2
    push_cast at b
    omega
  · rw [ec]
    exact assignedValues_max 100

/-- Witness of C20 with four sides: the stored values are the assigned ones and 9 is
among them. -/
theorem UCreatePrismMesh_indices_fit_16_bits_witness :
    1 ≤ 4 ∧ 4 ≤ 32767 ∧ indexValues ratOps 4 1 1 = assignedValues 4 ∧
      (2 * 4 + 1 : Int) ∈ indexValues ratOps 4 1 1 :=
  ⟨by decide, by decide,
    (UCreatePrismMesh_indices_fit_16_bits ratOps 4 1 1 (by decide) (by decide)).1,
    (UCreatePrismMesh_indices_fit_16_bits ratOps 4 1 1 (by decide) (by decide)).2.2.2.1⟩

/-! ## The 32-bit run of `UCreatePrismMesh` -/

theorem fitsInt_iff (v : Int) : fitsInt v = true ↔ -2147483648 ≤ v ∧ v ≤ 2147483647 := by
  simp [fitsInt, INT_MIN, INT_MAX]

theorem foldl_bind_none {σ β : Type} (f : σ → β → Option σ) (l : List β) :
    l.foldl (fun acc e => acc.bind (fun st => f st e)) none = none := by
  induction l with
  | nil => rfl
  | cons x rest ih => simpa using ih

theorem prismLoop32_succ {F : Type} (ops : FloatOps F) (numSides : Int) (radius halfLen : F)
    (k : Nat) :
    prismLoop32 ops numSides radius halfLen (k + 1) =
      (prismLoop32 ops numSides radius halfLen k).bind
        (fun st => prismBody32 ops numSides radius halfLen st (k : Int)) := by
  simp [prismLoop32, List.range_succ, List.foldl_append]

theorem prismLoop_counters {F : Type} (ops : FloatOps F) (numSides : Int) (radius halfLen : F)
    (k : Nat) :
    (prismLoop ops numSides radius halfLen k).currentVertex = 2 + 2 * (k : Int) ∧
    (prismLoop ops numSides radius halfLen k).currentTriangle = 4 * ((k - 1 : Nat) : Int) := by
  rw [prismLoop_eq]
  exact ⟨rfl, rfl⟩

/-- The values of `perimeterInts` lie between `cv` and `(cv + 1) * 7 + 6`. -/
theorem perimeterInts_fit (cv : Int) (h0 : 0 ≤ cv) (h1 : (cv + 1) * 7 + 6 ≤ 2147483647) :
    ∀ x ∈ perimeterInts cv, fitsInt x = true := by
  intro x hx
  rw [fitsInt_iff]
  simp only [perimeterInts, STRIDE, List.mem_cons, List.mem_singleton, List.not_mem_nil,
    or_false] at hx
  constructor <;> omega

/-- The values of `triangleInts` lie between `ct` and `3 * (ct + 3) + 2`. -/
theorem triangleInts_fit (ct : Int) (h0 : 0 ≤ ct) (h1 : 3 * (ct + 3) + 2 ≤ 2147483647) :
    ∀ x ∈ triangleInts ct, fitsInt x = true := by
  intro x hx
  rw [fitsInt_iff]
  simp only [triangleInts, List.mem_cons, List.mem_singleton, List.not_mem_nil,
    or_false] at hx
  constructor <;> omega

theorem prismBody32_eq {F : Type} (ops : FloatOps F) (numSides : Int) (radius halfLen : F)
    (k : Nat) (hk : k ≤ 153391687) :
    prismBody32 ops numSides radius halfLen (prismLoop ops numSides radius halfLen k) (k : Int) =
      some (prismBody ops numSides radius halfLen (prismLoop ops numSides radius halfLen k)
        (k : Int)) := by
  obtain ⟨hcv, hct⟩ := prismLoop_counters ops numSides radius halfLen k
  unfold prismBody32
  rw [if_pos]
  rw [List.all_eq_true]
  intro x hx
  rw [hcv, hct] at hx
  rcases List.mem_append.mp hx with h | h
  · rcases List.mem_append.mp h with h | h
    · exact perimeterInts_fit _ (by omega) (by omega) x h
    · split at h
      · unfold edgeInts at h
        rcases List.mem_append.mp h with h | h
        · exact triangleInts_fit _ (by omega) (by omega) x h
        · rw [fitsInt_iff]
          simp only [List.mem_cons, List.mem_singleton, List.not_mem_nil, or_false] at h
          constructor <;> omega
      · simp at h
  · rw [fitsInt_iff]
    simp only [List.mem_singleton] at h
    constructor <;> omega

/-- Up to 153391688 iterations the 32-bit loop is the unbounded one. -/
theorem prismLoop32_eq {F : Type} (ops : FloatOps F) (numSides : Int) (radius halfLen : F)
    (k : Nat) (hk : k ≤ 153391688) :
    prismLoop32 ops numSides radius halfLen k =
      some (prismLoop ops numSides radius halfLen k) := by
  induction k with
  | zero => rfl
  | succ k ih =>
    rw [prismLoop32_succ, ih (by omega), Option.some_bind,
      prismBody32_eq ops numSides radius halfLen k (by omega), prismLoop_succ]

/-- For at most 153391688 sides the 32-bit run of `UCreatePrismMesh` has a result, the
one of the unbounded run. -/
theorem UCreatePrismMesh32_eq {F : Type} (ops : FloatOps F) (N : Nat) (radius halfLen : F)
    (hN : N ≤ 153391688) :
    UCreatePrismMesh32 ops (N : Int) radius halfLen =
      some (UCreatePrismMesh ops (N : Int) radius halfLen) := by
  obtain ⟨hcv, hct⟩ := prismLoop_counters ops (N : Int) radius halfLen N
  unfold UCreatePrismMesh32
  rw [Int.toNat_ofNat, prismLoop32_eq ops (N : Int) radius halfLen N hN, Option.some_bind,
    if_pos]
  · simp [UCreatePrismMesh]
  · rw [List.all_eq_true]
    intro x hx
    rw [hcv, hct] at hx
    unfold closingInts at hx
    rcases List.mem_append.mp hx with h | h
    · exact triangleInts_fit _ (by omega) (by omega) x h
    · rw [fitsInt_iff]
      simp only [List.mem_cons, List.mem_singleton, List.not_mem_nil, or_false] at h
      constructor <;> omega

/-- Iteration 153391688 overflows: the offset `currentVertex * STRIDE + 2` of its top
vertex is `2147483648`. -/
theorem prismBody32_overflow {F : Type} (ops : FloatOps F) (numSides : Int)
    (radius halfLen : F) :
    prismBody32 ops numSides radius halfLen (prismLoop ops numSides radius halfLen 153391688)
      ((153391688 : Nat) : Int) = none := by
  obtain ⟨hcv, -⟩ := prismLoop_counters ops numSides radius halfLen 153391688
  unfold prismBody32
  rw [if_neg]
  intro hall
  rw [List.all_eq_true] at hall
  have h := hall ((prismLoop ops numSides radius halfLen 153391688).currentVertex * STRIDE + 2)
    (by simp [perimeterInts])
  rw [fitsInt_iff, hcv] at h
  simp only [STRIDE] at h
  omega

/-- From 153391689 iterations on the 32-bit loop has no result. -/
theorem prismLoop32_overflow {F : Type} (ops : FloatOps F) (numSides : Int)
    (radius halfLen : F) (k : Nat) (hk : 153391689 ≤ k) :
    prismLoop32 ops numSides radius halfLen k = none := by
  obtain ⟨m, rfl⟩ : ∃ m, k = 153391689 + m := ⟨k - 153391689, by omega⟩
  have h1 : prismLoop32 ops numSides radius halfLen 153391689 = none := by
    rw [prismLoop32_succ, prismLoop32_eq ops numSides radius halfLen 153391688 (by omega),
      Option.some_bind]
    exact prismBody32_overflow ops numSides radius halfLen
  unfold prismLoop32 at h1 ⊢
  rw [List.range_add, List.foldl_append, h1]
  exact foldl_bind_none _ _

/-- From 153391689 sides on the 32-bit run of `UCreatePrismMesh` has no result. -/
theorem UCreatePrismMesh32_overflow {F : Type} (ops : FloatOps F) (N : Nat)
    (radius halfLen : F) (hN : 153391689 ≤ N) :
    UCreatePrismMesh32 ops (N : Int) radius halfLen = none := by
  unfold UCreatePrismMesh32
  rw [Int.toNat_ofNat, prismLoop32_overflow ops (N : Int) radius halfLen N hN]
  rfl

/-- C1, as amended: for `3 <= numSides <= 153391688` the call, run in 32-bit `int`,
stores to the offsets `0 .. 7*(2+2*numSides)-1` of `verts[]` and to the offsets
`0 .. 12*numSides-1` of `indices[]`, each exactly once and to no other offset; with four
sides that is 10 vertex records and 48 indices, and the call made by
`UCreateCylinderMesh` stays inside its arrays of 1414 floats and 1200 indices. -/
theorem UCreatePrismMesh32_store_extent {F : Type} (ops : FloatOps F) (N : Nat)
    (radius halfLen : F) (hN : 3 ≤ N) (hmax : N ≤ 153391688) :
    (∃ st, UCreatePrismMesh32 ops (N : Int) radius halfLen = some st ∧
      st.vstores.map Prod.fst = offsetsUpTo (7 * (2 + 2 * N)) ∧
      (∀ p : Int, p ∈ st.vstores.map Prod.fst ↔ 0 ≤ p ∧ p < 7 * (2 + 2 * (N : Int))) ∧
      (st.vstores.map Prod.fst).Nodup ∧
      st.istores.map Prod.fst = offsetsUpTo (12 * N) ∧
      (∀ p : Int, p ∈ st.istores.map Prod.fst ↔ 0 ≤ p ∧ p < 12 * (N : Int)) ∧
      (st.istores.map Prod.fst).Nodup) ∧
    (∃ st, UCreatePrismMesh32 ops 4 radius halfLen = some st ∧
      st.vstores.length = 7 * 10 ∧ st.istores.length = 48) ∧
    NUM_VERTICES = 1414 ∧ NUM_INDICES = 1200 ∧
    (∃ st, cylinderPrism32 ops = some st ∧
      (∀ p ∈ st.vstores.map Prod.fst, 0 ≤ p ∧ p < NUM_VERTICES) ∧
      (∀ p ∈ st.istores.map Prod.fst, 0 ≤ p ∧ p < NUM_INDICES)) := by
  obtain ⟨a1, a2, a3, a4, a5, a6, a7, a8, a9, a10, a11, a12⟩ :=
    unbounded_store_extent ops N radius halfLen hN
  refine ⟨⟨_, UCreatePrismMesh32_eq ops N radius halfLen hmax, a1, a2, a3, a4, a5, a6⟩,
    ?_, a9, a10, ?_⟩
  · have e := UCreatePrismMesh32_eq ops 4 radius halfLen (by omega)
    rw [Nat.cast_ofNat] at e
    refine ⟨_, e, ?_, ?_⟩
    · simpa [vertexOffsets] using a7
    · simpa [indexOffsets] using a8
  · have e := UCreatePrismMesh32_eq ops 100 (ops.lit (25 / 100)) (ops.lit (2 / 100)) (by omega)
    rw [Nat.cast_ofNat] at e
    exact ⟨_, e, a11, a12⟩

/-- Witness of C1 (amended) with four sides, radius 1 and half length 1. -/
theorem UCreatePrismMesh32_store_extent_witness :
    3 ≤ 4 ∧ 4 ≤ 153391688 ∧
      ∃ st, UCreatePrismMesh32 ratOps 4 1 1 = some st ∧
        st.vstores.map Prod.fst = offsetsUpTo 70 ∧ st.istores.map Prod.fst = offsetsUpTo 48 :=
  ⟨by decide, by omega,
    (UCreatePrismMesh32_store_extent ratOps 4 1 1 (by decide) (by omega)).1.elim
      (fun st h => ⟨st, h.1, h.2.1, h.2.2.2.2.1⟩)⟩

/-- C1 as stated fails with 153391689 sides: at edge 153391688 the offset
`currentVertex * STRIDE + 2` is `2147483648`, which overflows the 32-bit `int`, so the
run has no defined result. -/
theorem UCreatePrismMesh32_store_extent_counterexample :
    3 ≤ 153391689 ∧ UCreatePrismMesh32 ratOps 153391689 1 1 = none := by
  have h := UCreatePrismMesh32_overflow ratOps 153391689 (1 : ℚ) 1 (by omega)
  rw [Nat.cast_ofNat] at h
  exact ⟨by omega, h⟩

/-- C3, as amended: for `numSides <= 153391688` the call, run in 32-bit `int`, stores
vertex 0 at `(0, +halfLen, 0)`, vertex 1 at `(0, -halfLen, 0)`, and for every edge
`e < numSides`, with `theta = (float)e * (TWO_PI / numSides)`, vertex `2+2e` at
`(radius*cos(theta), +halfLen, radius*sin(theta))` and vertex `3+2e` at
`(radius*cos(theta), -halfLen, radius*sin(theta))`; with four sides, radius 1 and half
length 1, and the float facts `ZeroAngleFacts`, vertex 0 is `(0,1,0)`, vertex 2 is
`(1,1,0)` and vertex 3 is `(1,-1,0)`. -/
theorem UCreatePrismMesh32_vertex_positions {F : Type} (ops : FloatOps F) (N : Nat)
    (radius halfLen : F) (verts : Int → F) (hmax : N ≤ 153391688) :
    (∃ out, vertsAfter32 ops (N : Int) radius halfLen verts = some out ∧
      vertexPos out 0 = (ops.lit 0, halfLen, ops.lit 0) ∧
      vertexPos out 1 = (ops.lit 0, ops.neg halfLen, ops.lit 0) ∧
      (∀ e : Nat, e < N →
        thetaOf ops (N : Int) (e : Int) =
          ops.mul (ops.ofInt (e : Int))
            (ops.div (ops.mul (ops.lit 2) (ops.lit (31415926 / 10000000)))
              (ops.ofInt (N : Int))) ∧
        vertexPos out (2 + 2 * (e : Int)) =
          (ops.mul radius (ops.cos (thetaOf ops (N : Int) (e : Int))), halfLen,
            ops.mul radius (ops.sin (thetaOf ops (N : Int) (e : Int)))) ∧
        vertexPos out (3 + 2 * (e : Int)) =
          (ops.mul radius (ops.cos (thetaOf ops (N : Int) (e : Int))), ops.neg halfLen,
            ops.mul radius (ops.sin (thetaOf ops (N : Int) (e : Int)))))) ∧
    (∃ out, vertsAfter32 ops 4 (ops.lit 1) (ops.lit 1) verts = some out ∧
      (ZeroAngleFacts ops →
        vertexPos out 0 = (ops.lit 0, ops.lit 1, ops.lit 0) ∧
        vertexPos out 2 = (ops.lit 1, ops.lit 1, ops.lit 0) ∧
        vertexPos out 3 = (ops.lit 1, ops.neg (ops.lit 1), ops.lit 0))) := by
  obtain ⟨b1, b2, b3, b4⟩ := unbounded_vertex_positions ops N radius halfLen verts
  refine ⟨⟨vertsAfter ops (N : Int) radius halfLen verts, ?_, b1, b2, b3⟩,
    ⟨vertsAfter ops 4 (ops.lit 1) (ops.lit 1) verts, ?_, b4⟩⟩
  · unfold vertsAfter32
    rw [UCreatePrismMesh32_eq ops N radius halfLen hmax]
    rfl
  · have e := UCreatePrismMesh32_eq ops 4 (ops.lit 1) (ops.lit 1) (by omega)
    rw [Nat.cast_ofNat] at e
    unfold vertsAfter32
    rw [e]
    rfl

/-- Witness of C3 (amended) with four sides in rational arithmetic, where
`ZeroAngleFacts` holds. -/
theorem UCreatePrismMesh32_vertex_positions_witness :
    4 ≤ 153391688 ∧ ZeroAngleFacts ratOps ∧
      ∃ out, vertsAfter32 ratOps 4 1 1 (fun _ => 7) = some out ∧
        vertexPos out 2 = (1, 1, 0) ∧ vertexPos out 3 = (1, -1, 0) :=
  have facts : ZeroAngleFacts ratOps := by
    simp [ZeroAngleFacts, ratOps, radiansPerSide, TWO_PI]
  ⟨by omega, facts,
    (UCreatePrismMesh32_vertex_positions ratOps 4 1 1 (fun _ => 7) (by omega)).2.elim
      (fun out h => ⟨out, h.1, (h.2 facts).2.1, (h.2 facts).2.2⟩)⟩

/-- C3 as stated fails with 153391689 sides: the offset of the z coordinate of vertex
`2+2e` for the edge `e = 153391688`, `(2+2e) * STRIDE + 2 = 2147483648`, does not fit the
32-bit `int`, and the run has no defined vertex array. -/
theorem UCreatePrismMesh32_vertex_positions_counterexample :
    (153391688 : Int) < 153391689 ∧
      fitsInt ((2 + 2 * 153391688) * STRIDE + 2) = false ∧
      vertsAfter32 ratOps 153391689 1 1 (fun _ => 0) = none := by
  have h := UCreatePrismMesh32_overflow ratOps 153391689 (1 : ℚ) 1 (by omega)
  rw [Nat.cast_ofNat] at h
  refine ⟨by omega, by decide, ?_⟩
  unfold vertsAfter32
  rw [h]
  rfl

/-- C7, as amended: for `numSides <= 153391688`, whatever the two arrays hold before the
call, the call run in 32-bit `int` has a result for both, and afterwards the first
`7*(2+2*numSides)` floats of `verts[]` and the first `12*numSides` entries of
`indices[]` are the same in both runs: they depend only on `numSides`, `radius` and
`halfLen`. -/
theorem UCreatePrismMesh32_deterministic {F : Type} (ops : FloatOps F) (N : Nat)
    (radius halfLen : F) (verts1 verts2 : Int → F) (indices1 indices2 : Int → Int)
    (hmax : N ≤ 153391688) :
    (∃ out1 out2, vertsAfter32 ops (N : Int) radius halfLen verts1 = some out1 ∧
      vertsAfter32 ops (N : Int) radius halfLen verts2 = some out2 ∧
      ∀ p : Int, 0 ≤ p → p < 7 * (2 + 2 * (N : Int)) → out1 p = out2 p) ∧
    (∃ out1 out2, indicesAfter32 ops (N : Int) radius halfLen indices1 = some out1 ∧
      indicesAfter32 ops (N : Int) radius halfLen indices2 = some out2 ∧
      ∀ p : Int, 0 ≤ p → p < 12 * (N : Int) → out1 p = out2 p) := by
  obtain ⟨d1, d2⟩ :=
    unbounded_deterministic ops N radius halfLen verts1 verts2 indices1 indices2
  have e := UCreatePrismMesh32_eq ops N radius halfLen hmax
  refine ⟨⟨vertsAfter ops (N : Int) radius halfLen verts1,
      vertsAfter ops (N : Int) radius halfLen verts2, ?_, ?_, d1⟩,
    ⟨indicesAfter ops (N : Int) radius halfLen indices1,
      indicesAfter ops (N : Int) radius halfLen indices2, ?_, ?_, d2⟩⟩
  · unfold vertsAfter32; rw [e]; rfl
  · unfold vertsAfter32; rw [e]; rfl
  · unfold indicesAfter32; rw [e]; rfl
  · unfold indicesAfter32; rw [e]; rfl

/-- Witness of C7 (amended): two different initial arrays, four sides. -/
theorem UCreatePrismMesh32_deterministic_witness :
    4 ≤ 153391688 ∧
      ∃ out1 out2, vertsAfter32 ratOps 4 1 1 (fun _ => 0) = some out1 ∧
        vertsAfter32 ratOps 4 1 1 (fun _ => 5) = some out2 ∧ out1 69 = out2 69 :=
  ⟨by omega,
    (UCreatePrismMesh32_deterministic ratOps 4 1 1 (fun _ => 0) (fun _ => 5) (fun _ => 0)
      (fun _ => 9) (by omega)).1.elim
      (fun out1 h => h.elim (fun out2 h2 =>
        ⟨out1, out2, h2.1, h2.2.1, h2.2.2 69 (by decide) (by decide)⟩))⟩

/-- C7 as stated fails with 153391689 sides: the offsets overflow the 32-bit `int` at
edge 153391688, so neither of two runs from different arrays has a defined `verts[]`
or `indices[]` afterwards. -/
theorem UCreatePrismMesh32_deterministic_counterexample :
    vertsAfter32 ratOps 153391689 1 1 (fun _ => 0) = none ∧
      vertsAfter32 ratOps 153391689 1 1 (fun _ => 5) = none ∧
      indicesAfter32 ratOps 153391689 1 1 (fun _ => 0) = none ∧
      indicesAfter32 ratOps 153391689 1 1 (fun _ => 9) = none := by
  have h := UCreatePrismMesh32_overflow ratOps 153391689 (1 : ℚ) 1 (by omega)
  rw [Nat.cast_ofNat] at h
  refine ⟨?_, ?_, ?_, ?_⟩
  · unfold vertsAfter32; rw [h]; rfl
  · unfold vertsAfter32; rw [h]; rfl
  · unfold indicesAfter32; rw [h]; rfl
  · unfold indicesAfter32; rw [h]; rfl

/-! ## The 32-bit run of `flipImageVertically` -/

theorem swapRun32_eq {α : Type} (n : Nat) (image : Int → α) (index1 index2 : Int)
    (h1 : 0 ≤ index1) (h2 : 0 ≤ index2) (b1 : index1 + (n : Int) ≤ 2147483647)
    (b2 : index2 + (n : Int) ≤ 2147483647) :
    swapRun32 image index1 index2 n = some (swapRun image index1 index2 n) := by
  induction n generalizing image index1 index2 with
  | zero => rfl
  | succ n ih =>
    push_cast at b1 b2
    have f1 : fitsInt (index1 + 1) = true := by rw [fitsInt_iff]; constructor <;> omega
    have f2 : fitsInt (index2 + 1) = true := by rw [fitsInt_iff]; constructor <;> omega
    rw [swapRun32, if_pos ⟨f1, f2⟩, swapRun]
    exact ih _ _ _ (by omega) (by omega) (by omega) (by omega)

theorem flipRow32_eq {α : Type} (width height channels : Int) (img : Int → α) (j : Int)
    (hw : 0 ≤ width) (hc : 0 ≤ channels) (hfit : height ≤ 2147483647)
    (hj0 : 0 ≤ j) (hj : 2 * j + 2 ≤ height)
    (hA : (height - 1) * width ≤ 2147483647)
    (hB : height * width * channels ≤ 2147483647) :
    flipRow32 width height channels img j = some (flipRow width height channels img j) := by
  have hW : 0 ≤ width * channels := mul_nonneg hw hc
  have hB2 : height * (width * channels) ≤ 2147483647 := by rw [← mul_assoc]; exact hB
  have e1 : j * width * channels = j * (width * channels) := mul_assoc _ _ _
  have e2 : (height - 1 - j) * width * channels = (height - 1 - j) * (width * channels) :=
    mul_assoc _ _ _
  have m1 : j * width ≤ (height - 1) * width :=
    mul_le_mul_of_nonneg_right (by omega) hw
  have m2 : (height - 1 - j) * width ≤ (height - 1) * width :=
    mul_le_mul_of_nonneg_right (by omega) hw
  have m3 : j * (width * channels) + width * channels ≤ height * (width * channels) := by
    have : (j + 1) * (width * channels) ≤ height * (width * channels) :=
      mul_le_mul_of_nonneg_right (by omega) hW
    linarith
  have m4 : (height - 1 - j) * (width * channels) + width * channels ≤
      height * (width * channels) := by
    have : (height - j) * (width * channels) ≤ height * (width * channels) :=
      mul_le_mul_of_nonneg_right (by omega) hW
    linarith
  have n1 : 0 ≤ j * width := mul_nonneg hj0 hw
  have n2 : 0 ≤ (height - 1 - j) * width := mul_nonneg (by omega) hw
  have n3 : 0 ≤ j * (width * channels) := mul_nonneg hj0 hW
  have n4 : 0 ≤ (height - 1 - j) * (width * channels) := mul_nonneg (by omega) hW
  have hn : ((width * channels).toNat : Int) = width * channels := Int.toNat_of_nonneg hW
  unfold flipRow32 flipRow
  rw [if_pos]
  · simp only []
    rw [e1, e2]
    exact swapRun32_eq _ _ _ _ n3 n4 (by rw [hn]; linarith) (by rw [hn]; linarith)
  · rw [List.all_eq_true]
    intro x hx
    rw [fitsInt_iff]
    simp only [List.mem_cons, List.mem_singleton, List.not_mem_nil, or_false, e1, e2] at hx
    rcases hx with rfl | rfl | rfl | rfl | rfl | rfl | rfl | rfl <;>
      constructor <;> omega

theorem foldl_bind_eq {σ β : Type} (f32 : σ → β → Option σ) (f : σ → β → σ) (l : List β)
    (h : ∀ e ∈ l, ∀ s, f32 s e = some (f s e)) (s0 : σ) :
    l.foldl (fun acc e => acc.bind (fun s => f32 s e)) (some s0) = some (l.foldl f s0) := by
  induction l generalizing s0 with
  | nil => rfl
  | cons x rest ih =>
    rw [List.foldl_cons, List.foldl_cons, Option.some_bind, h x (List.mem_cons_self _ _)]
    exact ih (fun e he => h e (List.mem_cons_of_mem _ he)) _

/-- When no `int` computation overflows, the 32-bit run of `flipImageVertically` has
the result of the unbounded run. -/
theorem flipImageVertically32_eq {α : Type} (image : Int → α) (width height channels : Int)
    (hw : 0 ≤ width) (hh : 0 ≤ height) (hc : 0 ≤ channels) (hfit : height ≤ 2147483647)
    (hsafe : height ≤ 1 ∨ ((height - 1) * width ≤ 2147483647 ∧
      height * width * channels ≤ 2147483647)) :
    flipImageVertically32 image width height channels =
      some (flipImageVertically image width height channels) := by
  have ht : ((Int.tdiv height 2).toNat : Int) = height / 2 := by
    rw [Int.tdiv_eq_ediv hh (by norm_num), Int.toNat_of_nonneg (by omega)]
  unfold flipImageVertically32 flipImageVertically
  refine foldl_bind_eq (fun img (j : Nat) => flipRow32 width height channels img (j : Int))
    (fun img (j : Nat) => flipRow width height channels img (j : Int)) _ ?_ image
  intro j hjm img
  have hjlt := List.mem_range.mp hjm
  have hj : 2 * (j : Int) + 2 ≤ height := by omega
  rcases hsafe with h1 | ⟨hA, hB⟩
  · omega
  · exact flipRow32_eq width height channels img (j : Int) hw hc hfit (by omega) hj hA hB

/-- C8, as amended: for `int` values `width, height, channels >= 0` such that
`height <= 1`, or `(height-1)*width` and `width*height*channels` are at most
`2147483647`, `flipImageVertically` run in 32-bit `int` has a result, in which the byte
at row `j`, offset `i` is the original byte at row `height-1-j`, offset `i`; for odd
height the middle row keeps its bytes. -/
theorem flipImageVertically32_reverses_rows {α : Type} (image : Int → α)
    (width height channels : Int) (hw : 0 ≤ width) (hh : 0 ≤ height) (hc : 0 ≤ channels)
    (hfit : height ≤ 2147483647)
    (hsafe : height ≤ 1 ∨ ((height - 1) * width ≤ 2147483647 ∧
      height * width * channels ≤ 2147483647)) :
    ∃ out, flipImageVertically32 image width height channels = some out ∧
      ∀ j i : Int, 0 ≤ j → j < height → 0 ≤ i → i < width * channels →
        out (j * width * channels + i) = image ((height - 1 - j) * width * channels + i) ∧
        (height % 2 = 1 → j = height / 2 →
          out (j * width * channels + i) = image (j * width * channels + i)) :=
  ⟨flipImageVertically image width height channels,
    flipImageVertically32_eq image width height channels hw hh hc hfit hsafe,
    fun j i hj0 hj hi0 hi =>
      unbounded_flip_reverses_rows image width height channels hw hh hc j i hj0 hj hi0 hi⟩

/-- Witness of C8 (amended): a 2-by-3 image with one channel whose bytes are their own
offsets. -/
theorem flipImageVertically32_reverses_rows_witness :
    (0 : Int) ≤ 2 ∧ (0 : Int) ≤ 3 ∧ (0 : Int) ≤ 1 ∧ (3 : Int) ≤ 2147483647 ∧
      ((3 : Int) ≤ 1 ∨ (((3 : Int) - 1) * 2 ≤ 2147483647 ∧ (3 : Int) * 2 * 1 ≤ 2147483647)) ∧
      ∃ out, flipImageVertically32 (fun p => p) 2 3 1 = some out ∧
        out (0 * 2 * 1 + 1) = (3 - 1 - 0) * 2 * 1 + 1 :=
  ⟨by decide, by decide, by decide, by decide, Or.inr ⟨by decide, by decide⟩,
    (flipImageVertically32_reverses_rows (fun p => p) 2 3 1 (by decide) (by decide)
      (by decide) (by decide) (Or.inr ⟨by decide, by decide⟩)).elim
      (fun out h => ⟨out, h.1, (h.2 0 1 (by decide) (by decide) (by decide) (by decide)).1⟩)⟩

theorem flipRow32_overflow {α : Type} (img : Int → α) :
    flipRow32 65536 65536 1 img ((0 : Nat) : Int) = none := by
  unfold flipRow32
  rw [if_neg (by decide)]

/-- C8 as stated fails for a 65536-by-65536 image with one channel: at row 0 the offset
`(height - 1 - j) * width = 4294901760` overflows the 32-bit `int`, so the run has no
defined result. -/
theorem flipImageVertically32_reverses_rows_counterexample :
    (0 : Int) ≤ 65536 ∧ (0 : Int) ≤ 1 ∧
      fitsInt ((65536 - 1 - 0) * 65536) = false ∧
      flipImageVertically32 (fun _ => (0 : Nat)) 65536 65536 1 = none := by
  refine ⟨by decide, by decide, by decide, ?_⟩
  have hn : (Int.tdiv 65536 2).toNat = 32767 + 1 := by decide
  unfold flipImageVertically32
  rw [hn, List.range_succ_eq_map, List.foldl_cons, Option.some_bind, flipRow32_overflow]
  exact foldl_bind_none _ _

end CS330
